import Mathlib

/-!
# Unscented Kalman filter (`src/src/ukf.cpp`): embedding and properties

The C++ `double` is read as an element of an ordered field `K` (the real
numbers in every concrete instance below), so rounding is outside the filter
equations.  The functions of `<cmath>` and of Eigen that the filter calls are
collected in `Env`; everything else is translated from `ukf.cpp`.  A member
function is a function from the filter before the call to the filter after it;
the `for` loops over the sigma columns are sums over `Fin 15`, the two `while`
loops of `fixAngle` are recursive functions.

Three places where the machine arithmetic decides a property are modelled as
such: the difference of the integer timestamps wraps around (`wrapInt`), the
loops of `fixAngle` are also given in IEEE 754 double arithmetic with fuel
(`fixAngle_binary64`), and the divisions that have no finite value are made
explicit (`UpdateLidar_checked`, `UpdateRadar_checked`).
-/

/-- Sensor tag of a measurement package (`MeasurementPackage::SensorType`). -/
inductive SensorType where
  | LASER
  | RADAR
deriving DecidableEq

/-- Measurement package read by the filter.  `raw_measurements_` is a `VectorXd`
of length 2 (laser: x, y) or 3 (radar: range, bearing, range rate); the embedding
keeps three slots and the laser code reads the first two.  `timestamp_` is in
microseconds. -/
structure MeasurementPackage (K : Type) where
  timestamp_ : Int
  sensor_type_ : SensorType
  raw_measurements_ : Fin 3 → K

/-- Members of the class `UKF` that `ukf.cpp` reads or writes.  The dimensions
`n_x_ = 5`, `n_aug_ = 7`, `n_sig_ = 15` fixed by the constructor are the index
types of the vectors and matrices. -/
structure UKF (K : Type) where
  is_initialized_ : Bool
  use_laser_ : Bool
  use_radar_ : Bool
  n_x_ : Nat
  n_aug_ : Nat
  n_sig_ : Nat
  x_ : Fin 5 → K
  P_ : Matrix (Fin 5) (Fin 5) K
  H_ : Matrix (Fin 2) (Fin 5) K
  Ht_ : Matrix (Fin 5) (Fin 2) K
  Xsig_pred_ : Matrix (Fin 5) (Fin 15) K
  time_us_ : Int
  std_a_ : K
  std_yawdd_ : K
  std_laspx_ : K
  std_laspy_ : K
  std_radr_ : K
  std_radphi_ : K
  std_radrd_ : K
  NIS_lidar : K
  NIS_radar : K
  Rl_ : Matrix (Fin 2) (Fin 2) K
  Rr_ : Matrix (Fin 3) (Fin 3) K
  lambda_ : K
  s_lam_n_a_ : K
  weights_ : Fin 15 → K
  Q_ : Matrix (Fin 2) (Fin 2) K

namespace UKF

/-- What the filter takes from outside `ukf.cpp`: `M_PI`, `sqrt`, `cos`, `sin`,
`atan2` of `<cmath>`, Eigen's `llt().matrixL()` on the 7x7 augmented covariance,
and `time_bits`, the width in bits of the signed integer type of `timestamp_` and
`time_us_` (declared in headers that are not among the sources). -/
structure Env (K : Type) [LinearOrderedField K] where
  time_bits : Nat
  pi : K
  pi_pos : 0 < pi
  sqrt : K → K
  cos : K → K
  sin : K → K
  atan2 : K → K → K
  llt : Matrix (Fin 7) (Fin 7) K → Matrix (Fin 7) (Fin 7) K

section Defs

variable {K : Type} [LinearOrderedField K]

/-- Eigen's `inverse()` of a square matrix, in exact arithmetic: the adjugate
divided by the determinant.  On a singular matrix the field inverse of 0 makes
this the zero matrix, where Eigen returns infinities or NaN: the properties below
use it where the determinant is proved or assumed non-zero. -/
def inverse {n : Nat} (M : Matrix (Fin n) (Fin n) K) : Matrix (Fin n) (Fin n) K :=
  (M.det)⁻¹ • M.adjugate

/-- Constructor `UKF::UKF()` (ukf.cpp:18-98).  `Xsig_pred_` is allocated without
being filled and `time_us_` is not assigned, so their initial contents are the
arguments `Xsig0` and `time0`. -/
def new (E : Env K) (Xsig0 : Matrix (Fin 5) (Fin 15) K) (time0 : Int) : UKF K :=
  let n_x_ : Nat := 5
  let n_aug_ : Nat := 7
  let n_sig_ : Nat := 2 * n_aug_ + 1
  let H_ : Matrix (Fin 2) (Fin 5) K :=
    fun i j => if (i.val = 0 ∧ j.val = 0) ∨ (i.val = 1 ∧ j.val = 1) then 1 else 0
  let std_a_ : K := 0.8
  let std_yawdd_ : K := 0.6
  let std_laspx_ : K := 0.15
  let std_laspy_ : K := 0.15
  let std_radr_ : K := 0.3
  let std_radphi_ : K := 0.03
  let std_radrd_ : K := 0.3
  let lambda_ : K := ((3 - (n_aug_ : Int) : Int) : K)
  { is_initialized_ := false
    use_laser_ := true
    use_radar_ := true
    n_x_ := n_x_
    n_aug_ := n_aug_
    n_sig_ := n_sig_
    x_ := fun _ => 0
    P_ := 0
    H_ := H_
    Ht_ := H_.transpose
    Xsig_pred_ := Xsig0
    time_us_ := time0
    std_a_ := std_a_
    std_yawdd_ := std_yawdd_
    std_laspx_ := std_laspx_
    std_laspy_ := std_laspy_
    std_radr_ := std_radr_
    std_radphi_ := std_radphi_
    std_radrd_ := std_radrd_
    NIS_lidar := 0
    NIS_radar := 0
    Rl_ := Matrix.diagonal ![std_laspx_ * std_laspx_, std_laspy_ * std_laspy_]
    Rr_ := Matrix.diagonal
      ![std_radr_ * std_radr_, std_radphi_ * std_radphi_, std_radrd_ * std_radrd_]
    lambda_ := lambda_
    s_lam_n_a_ := E.sqrt (lambda_ + (n_aug_ : K))
    weights_ := fun i =>
      if i.val = 0 then lambda_ / (lambda_ + (n_aug_ : K))
      else 1 / (2 * (lambda_ + (n_aug_ : K)))
    Q_ := Matrix.diagonal ![std_a_ * std_a_, std_yawdd_ * std_yawdd_] }

/-- `UKF::FirstMeasurementInitializer` (ukf.cpp:105-127). -/
def FirstMeasurementInitializer (E : Env K) (st : UKF K) (meas_package : MeasurementPackage K) :
    UKF K :=
  let x_ : Fin 5 → K :=
    if meas_package.sensor_type_ = SensorType.LASER then
      Function.update (Function.update st.x_ 0 (meas_package.raw_measurements_ 0))
        1 (meas_package.raw_measurements_ 1)
    else
      let r := meas_package.raw_measurements_ 0
      let phi := meas_package.raw_measurements_ 1
      Function.update (Function.update st.x_ 0 (r * E.cos phi)) 1 (r * E.sin phi)
  { st with
    x_ := x_
    P_ := 1
    time_us_ := meas_package.timestamp_
    is_initialized_ := true }

/-- The augmented state of ukf.cpp:183,187 and 402,406: a zero 7-vector whose
head is `x_`. -/
def x_aug (x : Fin 5 → K) : Fin 7 → K :=
  fun i => if h : i.val < 5 then x ⟨i.val, h⟩ else 0

/-- The augmented covariance of ukf.cpp:184,190-191 and 403,409-410: a zero 7x7
matrix with `P_` in the top-left corner and `Q_` in the bottom-right corner. -/
def P_aug (P : Matrix (Fin 5) (Fin 5) K) (Q : Matrix (Fin 2) (Fin 2) K) :
    Matrix (Fin 7) (Fin 7) K :=
  fun i j =>
    if h : i.val < 5 ∧ j.val < 5 then P ⟨i.val, h.1⟩ ⟨j.val, h.2⟩
    else if h : 5 ≤ i.val ∧ 5 ≤ j.val then
      Q ⟨i.val - 5, by omega⟩ ⟨j.val - 5, by omega⟩
    else 0

end Defs

section Loops

variable {K : Type} [LinearOrderedField K]

/-- First loop of `fixAngle` (ukf.cpp:387-388): `while (angle > M_PI) angle -= 2*M_PI;`
in exact arithmetic, where it stops for every input (the loop in double arithmetic
is `fixAngleDown_binary64`). -/
def fixAngleDown [FloorRing K] (E : Env K) (angle : K) : K :=
  if h : angle > E.pi then fixAngleDown E (angle - 2 * E.pi) else angle
termination_by ⌈(angle - E.pi) / (2 * E.pi)⌉.toNat
decreasing_by
  have hp := E.pi_pos
  have e : (angle - 2 * E.pi - E.pi) / (2 * E.pi) = (angle - E.pi) / (2 * E.pi) - 1 := by
    field_simp
    ring
  have hc : 0 < ⌈(angle - E.pi) / (2 * E.pi)⌉ :=
    Int.ceil_pos.mpr (div_pos (by linarith) (by linarith))
  rw [e, Int.ceil_sub_one]
  omega

/-- Second loop of `fixAngle` (ukf.cpp:389-390): `while (angle < -M_PI) angle += 2*M_PI;`
in exact arithmetic (the loop in double arithmetic is `fixAngleUp_binary64`). -/
def fixAngleUp [FloorRing K] (E : Env K) (angle : K) : K :=
  if h : angle < -E.pi then fixAngleUp E (angle + 2 * E.pi) else angle
termination_by ⌈(-angle - E.pi) / (2 * E.pi)⌉.toNat
decreasing_by
  have hp := E.pi_pos
  have e : (-(angle + 2 * E.pi) - E.pi) / (2 * E.pi) = (-angle - E.pi) / (2 * E.pi) - 1 := by
    field_simp
    ring
  have hc : 0 < ⌈(-angle - E.pi) / (2 * E.pi)⌉ :=
    Int.ceil_pos.mpr (div_pos (by linarith) (by linarith))
  rw [e, Int.ceil_sub_one]
  omega

/-- `UKF::fixAngle` (ukf.cpp:386-392); the C++ function updates its argument in
place, the embedding returns the new value. -/
def fixAngle [FloorRing K] (E : Env K) (angle : K) : K :=
  fixAngleUp E (fixAngleDown E angle)

end Loops

section Filter

variable {K : Type} [LinearOrderedField K] [FloorRing K]

/-- Sigma-point generation of `UKF::Prediction` (ukf.cpp:183-201): column 0 is
the augmented state, column `i+1` is `x_aug_ + s_lam_n_a_*A_.col(i)` and column
`i+n_aug_+1` is `x_aug_ - s_lam_n_a_*A_.col(i)` for `i = 0..6`. -/
def Prediction_Xsig_aug (E : Env K) (st : UKF K) : Matrix (Fin 7) (Fin 15) K :=
  let x_aug_ := x_aug st.x_
  let P_aug_ := P_aug st.P_ st.Q_
  let A_ := E.llt P_aug_
  fun r c =>
    if c.val = 0 then x_aug_ r
    else if h : c.val ≤ 7 then x_aug_ r + st.s_lam_n_a_ * A_ r ⟨c.val - 1, by omega⟩
    else x_aug_ r - st.s_lam_n_a_ * A_ r ⟨c.val - 8, by omega⟩

/-- Body of the sigma-point prediction loop of `UKF::Prediction`
(ukf.cpp:207-237) for one column `c` of `Xsig_aug_`. -/
def Prediction_column (E : Env K) (dt : K) (c : Fin 7 → K) : Fin 5 → K :=
  let dt2 := dt * dt
  let px := c 0
  let py := c 1
  let v := c 2
  let xi := c 3
  let xi_d := c 4
  let nu_a := c 5
  let nu_xid := c 6
  let small := |px| < 0.01 ∧ |py| < 0.01
  let px := if small then 0.1 else px
  let py := if small then 0.1 else py
  let p0 :=
    if |xi_d| < 0.001 then px + v * E.cos xi * dt
    else px + (v / xi_d) * (E.sin (xi + xi_d * dt) - E.sin xi)
  let p1 :=
    if |xi_d| < 0.001 then py + v * E.sin xi * dt
    else py + (v / xi_d) * (-E.cos (xi + xi_d * dt) + E.cos xi)
  ![p0 + 0.5 * dt2 * E.cos xi * nu_a,
    p1 + 0.5 * dt2 * E.sin xi * nu_a,
    v + dt * nu_a,
    xi + xi_d * dt + 0.5 * dt2 * nu_xid,
    xi_d + dt * nu_xid]

/-- `UKF::Prediction` (ukf.cpp:176-255). -/
def Prediction (E : Env K) (st : UKF K) (dt : K) : UKF K :=
  let Xsig_aug_ := Prediction_Xsig_aug E st
  let Xsig_pred_ : Matrix (Fin 5) (Fin 15) K :=
    fun r i => Prediction_column E dt (fun k => Xsig_aug_ k i) r
  let x_ : Fin 5 → K := fun r => ∑ i : Fin 15, st.weights_ i * Xsig_pred_ r i
  let x_diff : Fin 15 → Fin 5 → K := fun i r =>
    if r.val = 3 then fixAngle E (Xsig_pred_ r i - x_ r) else Xsig_pred_ r i - x_ r
  let P_ : Matrix (Fin 5) (Fin 5) K :=
    ∑ i : Fin 15, st.weights_ i • Matrix.vecMulVec (x_diff i) (x_diff i)
  { st with
    Xsig_pred_ := Xsig_pred_
    x_ := x_
    P_ := P_ }

/-- `UKF::UpdateLidar` (ukf.cpp:261-287). -/
def UpdateLidar (st : UKF K) (meas_package : MeasurementPackage K) : UKF K :=
  let z_ : Fin 2 → K := ![meas_package.raw_measurements_ 0, meas_package.raw_measurements_ 1]
  let z_pred : Fin 2 → K := st.H_.mulVec st.x_
  let diff_z : Fin 2 → K := z_ - z_pred
  let y_ : Fin 2 → K := z_ - z_pred
  let S_ : Matrix (Fin 2) (Fin 2) K := st.H_ * st.P_ * st.Ht_ + st.Rl_
  let Si_ := inverse S_
  let K_ : Matrix (Fin 5) (Fin 2) K := st.P_ * st.Ht_ * Si_
  { st with
    x_ := st.x_ + K_.mulVec y_
    P_ := (1 - K_ * st.H_) * st.P_
    NIS_lidar := Matrix.dotProduct diff_z (Si_.mulVec diff_z) }

/-- Body of the measurement-projection loop of `UKF::UpdateRadar`
(ukf.cpp:308-335) for one column `c` of `Xsig_pred_`.  The divisor `sq_x2y2` is
computed before the guard; where it is 0 the field division gives 0 and the code
gives an infinity or NaN (see `UpdateRadar_checked`). -/
def UpdateRadar_Zsig_column (E : Env K) (c : Fin 5 → K) : Fin 3 → K :=
  let px := c 0
  let py := c 1
  let v := c 2
  let xi := c 3
  let vx := v * E.cos xi
  let vy := v * E.sin xi
  let sq_x2y2 := E.sqrt (px * px + py * py)
  let z0 := sq_x2y2
  let z1 :=
    if px ≠ 0 then E.atan2 py px
    else if py > 0 then E.pi / 2.0
    else if py < 0 then -E.pi / 2.0
    else 0
  let small := |px| < 0.01 ∧ |py| < 0.01
  let px := if small then 0.01 else px
  let py := if small then 0.01 else py
  ![z0, z1, (px * vx + py * vy) / sq_x2y2]

/-- Predicted measurement mean of `UKF::UpdateRadar` after ukf.cpp:337-340. -/
def UpdateRadar_z_pred (E : Env K) (st : UKF K) : Fin 3 → K :=
  let Zsig_ : Matrix (Fin 3) (Fin 15) K :=
    fun r i => UpdateRadar_Zsig_column E (fun k => st.Xsig_pred_ k i) r
  let z_pred_ : Fin 3 → K := fun r => ∑ i : Fin 15, st.weights_ i * Zsig_ r i
  fun r => if r.val = 1 then fixAngle E (z_pred_ r) else z_pred_ r

/-- Final residual `diff_z` of `UKF::UpdateRadar` (ukf.cpp:368-375) from the
measurement `z_` and the predicted measurement `z_pred_`. -/
def UpdateRadar_diff_z (E : Env K) (z_ z_pred_ : Fin 3 → K) : Fin 3 → K :=
  let z_pred1 :=
    if z_ 1 > E.pi - 0.2 ∧ z_pred_ 1 < 0 then z_pred_ 1 + 2 * E.pi
    else if z_ 1 < -E.pi + 0.2 ∧ z_pred_ 1 > 0 then z_pred_ 1 - 2 * E.pi
    else z_pred_ 1
  let z_pred_ : Fin 3 → K := Function.update z_pred_ 1 z_pred1
  fun r => if r.val = 1 then fixAngle E (z_ r - z_pred_ r) else z_ r - z_pred_ r

/-- `UKF::UpdateRadar` (ukf.cpp:293-382). -/
def UpdateRadar (E : Env K) (st : UKF K) (meas_package : MeasurementPackage K) : UKF K :=
  let Zsig_ : Matrix (Fin 3) (Fin 15) K :=
    fun r i => UpdateRadar_Zsig_column E (fun k => st.Xsig_pred_ k i) r
  let z_ : Fin 3 → K := meas_package.raw_measurements_
  let z_pred_ := UpdateRadar_z_pred E st
  let z_diff : Fin 15 → Fin 3 → K := fun i r =>
    if r.val = 1 then fixAngle E (Zsig_ r i - z_pred_ r) else Zsig_ r i - z_pred_ r
  let S_ : Matrix (Fin 3) (Fin 3) K :=
    (∑ i : Fin 15, st.weights_ i • Matrix.vecMulVec (z_diff i) (z_diff i)) + st.Rr_
  let Si_ := inverse S_
  let diff_x : Fin 15 → Fin 5 → K := fun i r =>
    if r.val = 3 then fixAngle E (st.Xsig_pred_ r i - st.x_ r) else st.Xsig_pred_ r i - st.x_ r
  let T_ : Matrix (Fin 5) (Fin 3) K :=
    ∑ i : Fin 15, st.weights_ i • Matrix.vecMulVec (diff_x i) (z_diff i)
  let K_ : Matrix (Fin 5) (Fin 3) K := T_ * Si_
  let diff_z := UpdateRadar_diff_z E z_ z_pred_
  { st with
    x_ := st.x_ + K_.mulVec diff_z
    P_ := st.P_ - K_ * S_ * K_.transpose
    NIS_radar := Matrix.dotProduct diff_z (Si_.mulVec diff_z) }

/-- The value of an integer in a signed two's-complement type of `bits` bits: the
result of an integer subtraction that leaves the range of the type wraps
around. -/
def wrapInt (bits : Nat) (x : Int) : Int :=
  (x + 2 ^ bits / 2) % 2 ^ bits - 2 ^ bits / 2

/-- `UKF::ProcessMeasurement` (ukf.cpp:134-169).  The difference of the two
timestamps at ukf.cpp:149 is taken in their integer type before the division by
the double `1000000.0`. -/
def ProcessMeasurement (E : Env K) (st : UKF K) (meas_package : MeasurementPackage K) : UKF K :=
  if !st.is_initialized_ then
    FirstMeasurementInitializer E st meas_package
  else
    let dt : K :=
      ((wrapInt E.time_bits (meas_package.timestamp_ - st.time_us_) : Int) : K) / 1000000.0
    let st := { st with time_us_ := meas_package.timestamp_ }
    let st := Prediction E st dt
    if meas_package.sensor_type_ = SensorType.LASER then
      if st.use_laser_ then UpdateLidar st meas_package else st
    else
      if st.use_radar_ then UpdateRadar E st meas_package else st

/-- Sigma-point generation of `UKF::Predict_future` (ukf.cpp:402-421). -/
def Predict_future_Xsig_aug (E : Env K) (st : UKF K) : Matrix (Fin 7) (Fin 15) K :=
  let x_aug_ := x_aug st.x_
  let P_aug_ := P_aug st.P_ st.Q_
  let A_ := E.llt P_aug_
  fun r c =>
    if c.val = 0 then x_aug_ r
    else if h : c.val ≤ 7 then x_aug_ r + st.s_lam_n_a_ * A_ r ⟨c.val - 1, by omega⟩
    else x_aug_ r - st.s_lam_n_a_ * A_ r ⟨c.val - 8, by omega⟩

/-- Body of the sigma-point prediction loop of `UKF::Predict_future`
(ukf.cpp:427-457) for one column `c` of `Xsig_aug_`. -/
def Predict_future_column (E : Env K) (dt : K) (c : Fin 7 → K) : Fin 5 → K :=
  let dt2 := dt * dt
  let px := c 0
  let py := c 1
  let v := c 2
  let xi := c 3
  let xi_d := c 4
  let nu_a := c 5
  let nu_xid := c 6
  let small := |px| < 0.01 ∧ |py| < 0.01
  let px := if small then 0.1 else px
  let py := if small then 0.1 else py
  let p0 :=
    if |xi_d| < 0.001 then px + v * E.cos xi * dt
    else px + (v / xi_d) * (E.sin (xi + xi_d * dt) - E.sin xi)
  let p1 :=
    if |xi_d| < 0.001 then py + v * E.sin xi * dt
    else py + (v / xi_d) * (-E.cos (xi + xi_d * dt) + E.cos xi)
  ![p0 + 0.5 * dt2 * E.cos xi * nu_a,
    p1 + 0.5 * dt2 * E.sin xi * nu_a,
    v + dt * nu_a,
    xi + xi_d * dt + 0.5 * dt2 * nu_xid,
    xi_d + dt * nu_xid]

/-- `UKF::Predict_future` (ukf.cpp:395-475): the returned vector `future_x_`
together with the filter after the call.  The body assigns to locals only, so
the filter it hands back is the one it received. -/
def Predict_future (E : Env K) (st : UKF K) (dt : K) : (Fin 5 → K) × UKF K :=
  let Xsig_aug_ := Predict_future_Xsig_aug E st
  let Xpred_future_ : Matrix (Fin 5) (Fin 15) K :=
    fun r i => Predict_future_column E dt (fun k => Xsig_aug_ k i) r
  let future_x_ : Fin 5 → K := fun r => ∑ i : Fin 15, st.weights_ i * Xpred_future_ r i
  (future_x_, st)

end Filter

section Library

/-- One column of the Cholesky factorisation: column `j` of the factor from the
lower triangle of `M` and the columns of `L` to the left of `j`. -/
def cholesky_column {K : Type} [LinearOrderedField K] (sqrt : K → K)
    (M L : Matrix (Fin 7) (Fin 7) K) (j : Fin 7) : Matrix (Fin 7) (Fin 7) K :=
  let d := sqrt (M j j - ∑ t : Fin 7, if t < j then L j t * L j t else 0)
  fun i k =>
    if k = j then
      if i < j then 0
      else if i = j then d
      else (M i j - ∑ t : Fin 7, if t < j then L i t * L j t else 0) / d
    else L i k

/-- Cholesky factorisation column by column, in exact arithmetic: what Eigen's
`llt().matrixL()` returns on a symmetric positive-definite matrix. -/
def cholesky {K : Type} [LinearOrderedField K] (sqrt : K → K)
    (M : Matrix (Fin 7) (Fin 7) K) : Matrix (Fin 7) (Fin 7) K :=
  (List.finRange 7).foldl (cholesky_column sqrt M) 0

/-- The library over the real numbers: `M_PI` is `π`, `sqrt`, `cos`, `sin` are
the real functions, `atan2 y x` is the argument of `x + y i`, and `llt` is the
Cholesky factorisation; the timestamps are 64-bit integers (`long long`). -/
noncomputable def realEnv : Env ℝ where
  time_bits := 64
  pi := Real.pi
  pi_pos := Real.pi_pos
  sqrt := Real.sqrt
  cos := Real.cos
  sin := Real.sin
  atan2 := fun y x => Complex.arg ⟨x, y⟩
  llt := cholesky Real.sqrt

/-- The factor of the diagonal matrix with diagonal `d` once the columns before
`j` are computed: used to evaluate `cholesky` on a diagonal matrix. -/
def cholesky_upto {K : Type} [LinearOrderedField K] (sqrt : K → K) (d : Fin 7 → K)
    (j : Nat) : Matrix (Fin 7) (Fin 7) K :=
  fun i k => if k.val < j ∧ i = k then sqrt (d k) else 0

/-- A laser measurement package with raw measurement `(a, b)` and timestamp `t`. -/
def laser {K : Type} [LinearOrderedField K] (a b : K) (t : Int) : MeasurementPackage K where
  timestamp_ := t
  sensor_type_ := SensorType.LASER
  raw_measurements_ := ![a, b, 0]

/-- The real filter after its first measurement, a laser measurement `(a, b)` at
time 0. -/
noncomputable def after_first_laser (a b : ℝ) : UKF ℝ :=
  ProcessMeasurement realEnv (new realEnv 0 0) (laser a b 0)

/-- The real filter after a first laser measurement `(5, 3)`, with the lidar
noise matrix `Rl_` replaced by zero. -/
noncomputable def noise_free_lidar_state : UKF ℝ :=
  { after_first_laser 5 3 with Rl_ := 0 }

/-- A radar measurement package with raw measurement `(r, phi, rd)` and timestamp `t`. -/
def radar {K : Type} [LinearOrderedField K] (r phi rd : K) (t : Int) : MeasurementPackage K where
  timestamp_ := t
  sensor_type_ := SensorType.RADAR
  raw_measurements_ := ![r, phi, rd]

/-- The divisor `sq_x2y2` of the range-rate entry in `UKF::UpdateRadar`
(ukf.cpp:317, used at ukf.cpp:334) for one column `c` of `Xsig_pred_`: it is
computed from `px`, `py` as read from the column, before the small-value
substitution of ukf.cpp:330-333. -/
def UpdateRadar_sq_x2y2 {K : Type} [LinearOrderedField K] (E : Env K) (c : Fin 5 → K) : K :=
  E.sqrt (c 0 * c 0 + c 1 * c 1)

/-- A symmetric positive semi-definite matrix: `M = M^T` and `v^T M v >= 0` for
every vector `v`. -/
def IsSymmPSD {K : Type} [LinearOrderedField K] {n : Nat} (M : Matrix (Fin n) (Fin n) K) :
    Prop :=
  M.IsSymm ∧ ∀ v : Fin n → K, 0 ≤ Matrix.dotProduct v (M.mulVec v)

/-- The matrix `Zsig_` of `UKF::UpdateRadar` (ukf.cpp:302-335). -/
def UpdateRadar_Zsig {K : Type} [LinearOrderedField K] [FloorRing K]
    (E : Env K) (st : UKF K) : Matrix (Fin 3) (Fin 15) K :=
  fun r i => UpdateRadar_Zsig_column E (fun k => st.Xsig_pred_ k i) r

/-- The residual `z_diff` of column `i` about the predicted measurement, bearing
wrapped (ukf.cpp:347-348 and 360, 362). -/
def UpdateRadar_z_diff {K : Type} [LinearOrderedField K] [FloorRing K]
    (E : Env K) (st : UKF K) (i : Fin 15) : Fin 3 → K :=
  fun r =>
    if r.val = 1 then fixAngle E (UpdateRadar_Zsig E st r i - UpdateRadar_z_pred E st r)
    else UpdateRadar_Zsig E st r i - UpdateRadar_z_pred E st r

/-- The residual `diff_x` of column `i` of `Xsig_pred_` about `x_`, heading
wrapped (ukf.cpp:359, 361). -/
def UpdateRadar_diff_x {K : Type} [LinearOrderedField K] [FloorRing K]
    (E : Env K) (st : UKF K) (i : Fin 15) : Fin 5 → K :=
  fun r =>
    if r.val = 3 then fixAngle E (st.Xsig_pred_ r i - st.x_ r) else st.Xsig_pred_ r i - st.x_ r

/-- The innovation covariance `S_` of `UKF::UpdateRadar` (ukf.cpp:343-351). -/
def UpdateRadar_S {K : Type} [LinearOrderedField K] [FloorRing K]
    (E : Env K) (st : UKF K) : Matrix (Fin 3) (Fin 3) K :=
  (∑ i : Fin 15, st.weights_ i •
    Matrix.vecMulVec (UpdateRadar_z_diff E st i) (UpdateRadar_z_diff E st i)) + st.Rr_

/-- The cross-covariance `T_` of `UKF::UpdateRadar` (ukf.cpp:355-364). -/
def UpdateRadar_T {K : Type} [LinearOrderedField K] [FloorRing K]
    (E : Env K) (st : UKF K) : Matrix (Fin 5) (Fin 3) K :=
  ∑ i : Fin 15, st.weights_ i •
    Matrix.vecMulVec (UpdateRadar_diff_x E st i) (UpdateRadar_z_diff E st i)

/-- The gain `K_` of `UKF::UpdateRadar` (ukf.cpp:366). -/
def UpdateRadar_K {K : Type} [LinearOrderedField K] [FloorRing K]
    (E : Env K) (st : UKF K) : Matrix (Fin 5) (Fin 3) K :=
  UpdateRadar_T E st * inverse (UpdateRadar_S E st)

/-- The gain `K_` of `UKF::UpdateLidar` (ukf.cpp:277-279). -/
def UpdateLidar_K {K : Type} [LinearOrderedField K] (st : UKF K) : Matrix (Fin 5) (Fin 2) K :=
  st.P_ * st.Ht_ * inverse (st.H_ * st.P_ * st.Ht_ + st.Rl_)

/-- A filter with heading 3 and heading rate 1: scenario 1's filter with the
state replaced by `(5, 3, 0, 3, 1)`. -/
noncomputable def turning_state : UKF ℝ :=
  { after_first_laser 5 3 with x_ := ![5, 3, 0, 3, 1] }

/-- A filter with heading 3 whose covariance couples `px` and the heading:
scenario 1's filter with state `(0, 0, 0, 3, 0)` and a positive semi-definite
covariance with `P(0,3) = P(3,0) = 1`. -/
noncomputable def correlated_state : UKF ℝ :=
  { after_first_laser 5 3 with
    x_ := ![0, 0, 0, 3, 0]
    P_ := !![1, 0, 0, 1, 0; 0, 1, 0, 0, 0; 0, 0, 1, 0, 0; 1, 0, 0, 1, 0; 0, 0, 0, 0, 1] }

/-- Columns of a predicted sigma matrix in which `px` and the heading vary
together: column 1 is `(1.5, 0, 0, 4, 0)`, column 8 is `(0.5, 0, 0, 2, 0)` and the
other columns are `(1, 0, 0, 3, 0)`. -/
def spread_column (c : Fin 15) : Fin 5 → ℝ :=
  if c = 1 then ![1.5, 0, 0, 4, 0] else if c = 8 then ![0.5, 0, 0, 2, 0] else ![1, 0, 0, 3, 0]

/-- A filter with heading 3 and the predicted sigma matrix `spread_column`:
scenario 1's filter with state `(1, 0, 0, 3, 0)`. -/
noncomputable def spread_state : UKF ℝ :=
  { after_first_laser 5 3 with
    x_ := ![1, 0, 0, 3, 0]
    Xsig_pred_ := fun r c => spread_column c r }

/-- Scenario 1's filter with the timestamp of the radar measurement of scenario 2
stored: the state on which `ProcessMeasurement` runs `Prediction(0.1)`. -/
noncomputable def scenario2_start : UKF ℝ :=
  { after_first_laser 5 3 with time_us_ := 100000 }

/-- Scenario 2 after `Prediction(0.1)`. -/
noncomputable def scenario2_predicted : UKF ℝ :=
  Prediction realEnv scenario2_start 0.1

/-- Predicted sigma columns of scenario 2, `t = 1` for column `i+1` of
`Xsig_pred_` after `Prediction(0.1)` and `t = -1` for column `i+8`: the column is
`(5, 3, 0, 0, 0)` plus `t * √3` times the `i`-th entries of the coefficient rows
below; column 0 is `(5, 3, 0, 0, 0)`. -/
noncomputable def scenario2_column (t : ℝ) (i : Fin 7) : Fin 5 → ℝ :=
  ![5 + t * Real.sqrt 3 * ![1, 0, 0.1, 0, 0, 0.004, 0] i,
    3 + t * Real.sqrt 3 * ![0, 1, 0, 0, 0, 0, 0] i,
    t * Real.sqrt 3 * ![0, 0, 1, 0, 0, 0.08, 0] i,
    t * Real.sqrt 3 * ![0, 0, 0, 1, 0.1, 0, 0.003] i,
    t * Real.sqrt 3 * ![0, 0, 0, 0, 1, 0, 0.06] i]

/-- The real filter after a first laser measurement `(5, 3)` with the smallest
64-bit timestamp. -/
noncomputable def overflow_start : UKF ℝ :=
  ProcessMeasurement realEnv (new realEnv 0 0) (laser 5 3 (-9223372036854775808))

end Library

section FixAngle

variable {K : Type} [LinearOrderedField K] [FloorRing K]

theorem fixAngleDown_le (E : Env K) (a : K) : fixAngleDown E a ≤ E.pi := by
  induction a using fixAngleDown.induct E with
  | case1 x h ih => rw [fixAngleDown, dif_pos h]; exact ih
  | case2 x h => rw [fixAngleDown, dif_neg h]; exact not_lt.mp h

theorem fixAngleDown_of_le (E : Env K) (a : K) (h : a ≤ E.pi) : fixAngleDown E a = a := by
  rw [fixAngleDown, dif_neg (not_lt.mpr h)]

theorem fixAngleDown_gt (E : Env K) (a : K) (h : -E.pi < a) : -E.pi < fixAngleDown E a := by
  induction a using fixAngleDown.induct E with
  | case1 x hx ih =>
    rw [fixAngleDown, dif_pos hx]
    rcases lt_or_le E.pi (x - 2 * E.pi) with h1 | h1
    · exact ih (by have := E.pi_pos; linarith)
    · rw [fixAngleDown_of_le E _ h1]
      have hx' : E.pi < x := hx
      linarith
  | case2 x hx => rw [fixAngleDown, dif_neg hx]; exact h

theorem fixAngleDown_trace (E : Env K) (a : K) :
    ∃ n : ℕ, (∀ i : ℕ, i < n → a - 2 * E.pi * i > E.pi) ∧ ¬ (a - 2 * E.pi * n > E.pi) ∧
      fixAngleDown E a = a - 2 * E.pi * n := by
  induction a using fixAngleDown.induct E with
  | case1 x hx ih =>
    obtain ⟨n, h1, h2, h3⟩ := ih
    refine ⟨n + 1, ?_, ?_, ?_⟩
    · intro i hi
      cases i with
      | zero => simpa using hx
      | succ j =>
        have := h1 j (by omega)
        push_cast
        linarith
    · push_cast
      intro hc
      exact h2 (by linarith)
    · rw [fixAngleDown, dif_pos hx, h3]
      push_cast
      ring
  | case2 x hx =>
    refine ⟨0, ?_, ?_, ?_⟩
    · intro i hi
      omega
    · simpa using hx
    · rw [fixAngleDown, dif_neg hx]
      simp

theorem fixAngleUp_ge (E : Env K) (a : K) : -E.pi ≤ fixAngleUp E a := by
  induction a using fixAngleUp.induct E with
  | case1 x h ih => rw [fixAngleUp, dif_pos h]; exact ih
  | case2 x h => rw [fixAngleUp, dif_neg h]; exact not_lt.mp h

theorem fixAngleUp_of_ge (E : Env K) (a : K) (h : -E.pi ≤ a) : fixAngleUp E a = a := by
  rw [fixAngleUp, dif_neg (not_lt.mpr h)]

theorem fixAngleUp_lt (E : Env K) (a : K) (h : a < E.pi) : fixAngleUp E a < E.pi := by
  induction a using fixAngleUp.induct E with
  | case1 x hx ih =>
    rw [fixAngleUp, dif_pos hx]
    rcases lt_or_le (x + 2 * E.pi) (-E.pi) with h1 | h1
    · exact ih (by have := E.pi_pos; linarith)
    · rw [fixAngleUp_of_ge E _ h1]
      linarith
  | case2 x hx => rw [fixAngleUp, dif_neg hx]; exact h

theorem fixAngleUp_trace (E : Env K) (a : K) :
    ∃ m : ℕ, (∀ j : ℕ, j < m → a + 2 * E.pi * j < -E.pi) ∧ ¬ (a + 2 * E.pi * m < -E.pi) ∧
      fixAngleUp E a = a + 2 * E.pi * m := by
  induction a using fixAngleUp.induct E with
  | case1 x hx ih =>
    obtain ⟨n, h1, h2, h3⟩ := ih
    refine ⟨n + 1, ?_, ?_, ?_⟩
    · intro i hi
      cases i with
      | zero => simpa using hx
      | succ j =>
        have := h1 j (by omega)
        push_cast
        linarith
    · push_cast
      intro hc
      exact h2 (by linarith)
    · rw [fixAngleUp, dif_pos hx, h3]
      push_cast
      ring
  | case2 x hx =>
    refine ⟨0, ?_, ?_, ?_⟩
    · intro i hi
      omega
    · simpa using hx
    · rw [fixAngleUp, dif_neg hx]
      simp

/-- C1 (as amended): for every input angle `a`, `fixAngle a` lies in the closed
interval `[-pi, pi]`, and it is above `-pi` whenever `a` is. -/
theorem fixAngle_mem_closed (E : Env K) (a : K) :
    -E.pi ≤ fixAngle E a ∧ fixAngle E a ≤ E.pi ∧ (-E.pi < a → -E.pi < fixAngle E a) := by
  unfold fixAngle
  refine ⟨fixAngleUp_ge E _, ?_, ?_⟩
  · rcases lt_or_le (fixAngleDown E a) (-E.pi) with h | h
    · exact le_of_lt (fixAngleUp_lt E _ (by have := E.pi_pos; linarith))
    · rw [fixAngleUp_of_ge E _ h]
      exact fixAngleDown_le E a
  · intro h
    have h1 := fixAngleDown_gt E a h
    rw [fixAngleUp_of_ge E _ (le_of_lt h1)]
    exact h1

/-- C1 (counterexample): over the reals `fixAngle (-π) = -π`, so the result is
not above `-π`. -/
theorem fixAngle_neg_pi :
    fixAngle realEnv (-Real.pi) = -Real.pi ∧ ¬ (-Real.pi < fixAngle realEnv (-Real.pi)) := by
  have hp : realEnv.pi = Real.pi := rfl
  have e : fixAngle realEnv (-Real.pi) = -Real.pi := by
    unfold fixAngle
    rw [fixAngleDown_of_le realEnv _ (by rw [hp]; linarith [Real.pi_pos]),
      fixAngleUp_of_ge realEnv _ (by rw [hp])]
  exact ⟨e, by rw [e]; exact lt_irrefl _⟩

end FixAngle

section Sigma

variable {K : Type} [LinearOrderedField K]

theorem weights_new (E : Env K) (Xsig0 : Matrix (Fin 5) (Fin 15) K) (time0 : Int) (i : Fin 15) :
    (new E Xsig0 time0).weights_ i = if i.val = 0 then -4 / 3 else 1 / 6 := by
  simp only [new]
  split <;> norm_num

theorem s_lam_n_a_new (E : Env K) (Xsig0 : Matrix (Fin 5) (Fin 15) K) (time0 : Int) :
    (new E Xsig0 time0).s_lam_n_a_ = E.sqrt 3 := by
  simp only [new]
  norm_num

/-- A sum over the 15 sigma columns weighted as the constructor does, split into
column 0 and the pairs of columns `i+1`, `i+8`. -/
theorem weighted_sum_split {M : Type} [AddCommGroup M] [Module K M]
    (w : Fin 15 → K) (hw : ∀ i : Fin 15, w i = if i.val = 0 then -4 / 3 else 1 / 6)
    (f : Fin 15 → M) :
    ∑ c : Fin 15, w c • f c =
      (-4 / 3 : K) • f 0 + ∑ i : Fin 7, (1 / 6 : K) •
        (f ⟨i.val + 1, by omega⟩ + f ⟨i.val + 8, by omega⟩) := by
  have h0 : w 0 = -4 / 3 := by rw [hw]; rfl
  have hs : ∀ i : Fin 14, w i.succ = 1 / 6 := by
    intro i; rw [hw, if_neg]; simp
  rw [Fin.sum_univ_succ, h0]
  congr 1
  simp only [hs]
  have : ∑ i : Fin 14, (1 / 6 : K) • f i.succ
      = ∑ i : Fin (7 + 7), (1 / 6 : K) • f i.succ := rfl
  rw [this, Fin.sum_univ_add, ← Finset.sum_add_distrib]
  refine Finset.sum_congr rfl (fun i _ => ?_)
  rw [smul_add]
  have e1 : (Fin.castAdd 7 i).succ = (⟨i.val + 1, by omega⟩ : Fin 15) := Fin.ext (by simp)
  have e2 : (Fin.natAdd 7 i).succ = (⟨i.val + 8, by omega⟩ : Fin 15) :=
    Fin.ext (by simp)
  rw [e1, e2]

theorem x_aug_eq (x : Fin 5 → K) : x_aug x = ![x 0, x 1, x 2, x 3, x 4, 0, 0] := by
  funext i
  fin_cases i <;> simp [x_aug] <;> rfl

/-- C3: the 15 weights the constructor builds (`n_aug_ = 7`, `lambda_ = 3 - n_aug_`)
sum to exactly 1. -/
theorem weights_sum_one (E : Env K) (Xsig0 : Matrix (Fin 5) (Fin 15) K) (time0 : Int) :
    (∑ i : Fin 15, (new E Xsig0 time0).weights_ i = 1) ∧
      (new E Xsig0 time0).weights_ 0 = (3 - 7) / ((3 - 7) + 7) ∧
      ∀ i : Fin 15, i ≠ 0 → (new E Xsig0 time0).weights_ i = 1 / (2 * ((3 - 7) + 7)) := by
  refine ⟨?_, ?_, ?_⟩
  · have h := weighted_sum_split (new E Xsig0 time0).weights_ (weights_new E Xsig0 time0)
      (fun _ => (1 : K))
    simp only [smul_eq_mul, mul_one] at h
    rw [h]
    simp
    norm_num
  · rw [weights_new]
    norm_num
  · intro i hi
    have hv : ¬ (i.val = 0) := fun h => hi (Fin.ext h)
    rw [weights_new, if_neg hv]
    norm_num

end Sigma

section Cholesky

variable {K : Type} [LinearOrderedField K]

theorem cholesky_column_diagonal (sqrt : K → K) (d : Fin 7 → K) (j : Fin 7) :
    cholesky_column sqrt (Matrix.diagonal d) (cholesky_upto sqrt d j.val) j =
      cholesky_upto sqrt d (j.val + 1) := by
  have hz : ∀ i : Fin 7, (∑ t : Fin 7, if t < j then
      cholesky_upto sqrt d j.val i t * cholesky_upto sqrt d j.val j t else 0) = 0 := by
    intro i
    refine Finset.sum_eq_zero (fun t _ => ?_)
    split
    · rename_i h
      have : ¬ (t.val < j.val ∧ j = t) := fun hh => (ne_of_lt h) hh.2.symm
      simp only [cholesky_upto, if_neg this, mul_zero]
    · rfl
  funext i k
  simp only [cholesky_column, hz, sub_zero]
  by_cases hk : k = j
  · subst hk
    by_cases hik : i = k
    · subst hik
      simp [cholesky_upto]
    · have h1 : ¬ (k.val < k.val + 1 ∧ i = k) := fun hh => hik hh.2
      simp [cholesky_upto, hik, h1, Matrix.diagonal_apply_ne _ hik]
  · have h1 : (k.val < j.val + 1) ↔ (k.val < j.val) := by
      constructor
      · intro h
        have : k.val ≠ j.val := fun e => hk (Fin.ext e)
        omega
      · intro h; omega
    simp [cholesky_upto, hk, h1]

/-- On a diagonal matrix the Cholesky factorisation takes the square root of
each diagonal entry. -/
theorem cholesky_diagonal (sqrt : K → K) (d : Fin 7 → K) :
    cholesky sqrt (Matrix.diagonal d) = Matrix.diagonal (fun i => sqrt (d i)) := by
  have h0 : (0 : Matrix (Fin 7) (Fin 7) K) = cholesky_upto sqrt d 0 := by
    funext i k
    simp [cholesky_upto]
  have hl : List.finRange 7 = [0, 1, 2, 3, 4, 5, 6] := by decide
  have s0 := cholesky_column_diagonal sqrt d 0
  have s1 := cholesky_column_diagonal sqrt d 1
  have s2 := cholesky_column_diagonal sqrt d 2
  have s3 := cholesky_column_diagonal sqrt d 3
  have s4 := cholesky_column_diagonal sqrt d 4
  have s5 := cholesky_column_diagonal sqrt d 5
  have s6 := cholesky_column_diagonal sqrt d 6
  simp only [Fin.val_zero, Fin.val_one, Fin.val_two, zero_add] at s0 s1 s2 s3 s4 s5 s6
  have e3 : ((3 : Fin 7) : Nat) = 3 := rfl
  have e4 : ((4 : Fin 7) : Nat) = 4 := rfl
  have e5 : ((5 : Fin 7) : Nat) = 5 := rfl
  have e6 : ((6 : Fin 7) : Nat) = 6 := rfl
  rw [e3] at s3
  rw [e4] at s4
  rw [e5] at s5
  rw [e6] at s6
  rw [cholesky, hl, h0]
  simp only [List.foldl_cons, List.foldl_nil]
  rw [s0, s1, s2, s3, s4, s5, s6]
  funext i k
  by_cases hik : i = k
  · subst hik
    have := i.isLt
    simp [cholesky_upto, this]
  · simp [cholesky_upto, hik, Matrix.diagonal_apply_ne _ hik]

theorem P_aug_one_diagonal (a b : K) :
    P_aug (1 : Matrix (Fin 5) (Fin 5) K) (Matrix.diagonal ![a, b]) =
      Matrix.diagonal ![1, 1, 1, 1, 1, a, b] := by
  funext i k
  fin_cases i <;> fin_cases k <;>
    simp [P_aug, Matrix.one_apply, Matrix.diagonal_apply] <;> rfl

end Cholesky

section SigmaPoints

variable {K : Type} [LinearOrderedField K]

theorem Prediction_Xsig_aug_zero (E : Env K) (st : UKF K) (r : Fin 7) :
    Prediction_Xsig_aug E st r 0 = x_aug st.x_ r := by
  simp [Prediction_Xsig_aug]

theorem Prediction_Xsig_aug_plus (E : Env K) (st : UKF K) (r i : Fin 7) :
    Prediction_Xsig_aug E st r ⟨i.val + 1, by omega⟩ =
      x_aug st.x_ r + st.s_lam_n_a_ * E.llt (P_aug st.P_ st.Q_) r i := by
  have h : i.val + 1 ≤ 7 := by omega
  simp [Prediction_Xsig_aug, h]

theorem Prediction_Xsig_aug_minus (E : Env K) (st : UKF K) (r i : Fin 7) :
    Prediction_Xsig_aug E st r ⟨i.val + 8, by omega⟩ =
      x_aug st.x_ r - st.s_lam_n_a_ * E.llt (P_aug st.P_ st.Q_) r i := by
  have h : ¬ (i.val + 8 ≤ 7) := by omega
  simp [Prediction_Xsig_aug, h]

theorem Predict_future_Xsig_aug_eq (E : Env K) (st : UKF K) :
    Predict_future_Xsig_aug E st = Prediction_Xsig_aug E st := rfl

theorem ProcessMeasurement_new [FloorRing K] (E : Env K) (Xsig0 : Matrix (Fin 5) (Fin 15) K)
    (time0 : Int) (m : MeasurementPackage K) :
    ProcessMeasurement E (new E Xsig0 time0) m =
      FirstMeasurementInitializer E (new E Xsig0 time0) m := by
  simp [ProcessMeasurement, new]

theorem after_first_laser_weights (a b : ℝ) :
    (after_first_laser a b).weights_ = (new realEnv 0 0).weights_ := by
  rw [after_first_laser, ProcessMeasurement_new]
  rfl

theorem after_first_laser_s (a b : ℝ) :
    (after_first_laser a b).s_lam_n_a_ = (new realEnv 0 0).s_lam_n_a_ := by
  rw [after_first_laser, ProcessMeasurement_new]
  rfl

theorem after_first_laser_x (a b : ℝ) : (after_first_laser a b).x_ = ![a, b, 0, 0, 0] := by
  rw [after_first_laser, ProcessMeasurement_new]
  funext i
  fin_cases i <;> simp [FirstMeasurementInitializer, laser, new]

theorem after_first_laser_P_aug (a b : ℝ) :
    P_aug (after_first_laser a b).P_ (after_first_laser a b).Q_ =
      Matrix.diagonal ![1, 1, 1, 1, 1, 0.8 * 0.8, 0.6 * 0.6] := by
  rw [after_first_laser, ProcessMeasurement_new]
  exact P_aug_one_diagonal _ _

theorem after_first_laser_llt (a b : ℝ) :
    realEnv.llt (P_aug (after_first_laser a b).P_ (after_first_laser a b).Q_) =
      Matrix.diagonal ![1, 1, 1, 1, 1, 0.8, 0.6] := by
  rw [after_first_laser_P_aug]
  show cholesky Real.sqrt _ = _
  rw [cholesky_diagonal]
  have h8 : Real.sqrt (0.8 * 0.8) = 0.8 := Real.sqrt_mul_self (by norm_num)
  have h6 : Real.sqrt (0.6 * 0.6) = 0.6 := Real.sqrt_mul_self (by norm_num)
  refine congrArg Matrix.diagonal (funext fun i => ?_)
  fin_cases i
  · simp
  · simp
  · simp
  · simp
  · simp
  · exact h8
  · exact h6

theorem Prediction_Xsig_aug_weighted_sum (E : Env K) (st : UKF K)
    (Xsig0 : Matrix (Fin 5) (Fin 15) K) (time0 : Int)
    (hw : st.weights_ = (new E Xsig0 time0).weights_) (r : Fin 7) :
    ∑ c : Fin 15, st.weights_ c * Prediction_Xsig_aug E st r c = x_aug st.x_ r := by
  have h := weighted_sum_split st.weights_ (by rw [hw]; exact weights_new E Xsig0 time0)
    (fun c => Prediction_Xsig_aug E st r c)
  simp only [smul_eq_mul] at h
  rw [h]
  simp only [Prediction_Xsig_aug_zero, Prediction_Xsig_aug_plus, Prediction_Xsig_aug_minus]
  simp only [add_add_sub_cancel, Finset.sum_const, Finset.card_univ, Fintype.card_fin,
    nsmul_eq_mul]
  push_cast
  ring

/-- C4: in the sigma-point generation of `Prediction`, with the constructor's
weights, column 0 of the 7x15 augmented sigma matrix is the augmented mean (the
state followed by two zeros), and the weighted sum of the 15 columns is that
augmented mean, whatever the state, the covariance and the factor `A_` are. -/
theorem sigma_points_mean (E : Env K) (st : UKF K) (Xsig0 : Matrix (Fin 5) (Fin 15) K)
    (time0 : Int) (hw : st.weights_ = (new E Xsig0 time0).weights_) :
    (fun r => Prediction_Xsig_aug E st r 0) =
        ![st.x_ 0, st.x_ 1, st.x_ 2, st.x_ 3, st.x_ 4, 0, 0] ∧
      (fun r => ∑ c : Fin 15, st.weights_ c * Prediction_Xsig_aug E st r c) =
        ![st.x_ 0, st.x_ 1, st.x_ 2, st.x_ 3, st.x_ 4, 0, 0] := by
  rw [← x_aug_eq]
  exact ⟨funext (fun r => Prediction_Xsig_aug_zero E st r),
    funext (fun r => Prediction_Xsig_aug_weighted_sum E st Xsig0 time0 hw r)⟩

/-- C4 (witness): the real filter after a first laser measurement `(5, 3)`. -/
theorem sigma_points_mean_witness :
    (fun r => Prediction_Xsig_aug realEnv (after_first_laser 5 3) r 0) =
        ![(after_first_laser 5 3).x_ 0, (after_first_laser 5 3).x_ 1,
          (after_first_laser 5 3).x_ 2, (after_first_laser 5 3).x_ 3,
          (after_first_laser 5 3).x_ 4, 0, 0] ∧
      (fun r => ∑ c : Fin 15, (after_first_laser 5 3).weights_ c *
          Prediction_Xsig_aug realEnv (after_first_laser 5 3) r c) =
        ![(after_first_laser 5 3).x_ 0, (after_first_laser 5 3).x_ 1,
          (after_first_laser 5 3).x_ 2, (after_first_laser 5 3).x_ 3,
          (after_first_laser 5 3).x_ 4, 0, 0] :=
  sigma_points_mean realEnv (after_first_laser 5 3) 0 0 (after_first_laser_weights 5 3)

/-- C5: with the constructor's weights and spread `s = sqrt(lambda + n_aug)`
(whose square is 3), and a factor `A_` with `A_ * A_^T = P_aug`, the weighted sum
over the 15 sigma columns of `(col - mean) * (col - mean)^T` equals `P_aug`. -/
theorem sigma_points_second_moment (E : Env K) (st : UKF K)
    (Xsig0 : Matrix (Fin 5) (Fin 15) K) (time0 : Int)
    (hw : st.weights_ = (new E Xsig0 time0).weights_)
    (hs : st.s_lam_n_a_ = (new E Xsig0 time0).s_lam_n_a_)
    (hsqrt : E.sqrt 3 * E.sqrt 3 = 3)
    (hA : E.llt (P_aug st.P_ st.Q_) * (E.llt (P_aug st.P_ st.Q_)).transpose =
      P_aug st.P_ st.Q_) :
    ∑ c : Fin 15, st.weights_ c • Matrix.vecMulVec
        (fun r => Prediction_Xsig_aug E st r c - x_aug st.x_ r)
        (fun r => Prediction_Xsig_aug E st r c - x_aug st.x_ r) =
      P_aug st.P_ st.Q_ := by
  have h := weighted_sum_split st.weights_ (by rw [hw]; exact weights_new E Xsig0 time0)
    (fun c => Matrix.vecMulVec
        (fun r => Prediction_Xsig_aug E st r c - x_aug st.x_ r)
        (fun r => Prediction_Xsig_aug E st r c - x_aug st.x_ r))
  rw [h]
  simp only [Prediction_Xsig_aug_zero, Prediction_Xsig_aug_plus, Prediction_Xsig_aug_minus]
  rw [hs, s_lam_n_a_new]
  conv_rhs => rw [← hA]
  funext a b
  simp only [Matrix.add_apply, Matrix.smul_apply, Matrix.vecMulVec_apply, Matrix.sum_apply,
    Matrix.mul_apply, Matrix.transpose_apply, smul_eq_mul, sub_self, mul_zero, zero_add,
    add_sub_cancel_left, sub_sub_cancel_left]
  rw [← Finset.sum_congr rfl (fun i _ => ?_)]
  have e : ∀ u v : K, (1 / 6 : K) * (E.sqrt 3 * u * (E.sqrt 3 * v) +
      -(E.sqrt 3 * u) * -(E.sqrt 3 * v)) = (E.sqrt 3 * E.sqrt 3) / 3 * (u * v) := by
    intro u v
    ring
  rw [e, hsqrt]
  norm_num

/-- C5 (witness): the real filter after a first laser measurement `(5, 3)`, whose
augmented covariance is diagonal. -/
theorem sigma_points_second_moment_witness :
    ∑ c : Fin 15, (after_first_laser 5 3).weights_ c • Matrix.vecMulVec
        (fun r => Prediction_Xsig_aug realEnv (after_first_laser 5 3) r c -
          x_aug (after_first_laser 5 3).x_ r)
        (fun r => Prediction_Xsig_aug realEnv (after_first_laser 5 3) r c -
          x_aug (after_first_laser 5 3).x_ r) =
      P_aug (after_first_laser 5 3).P_ (after_first_laser 5 3).Q_ :=
  sigma_points_second_moment realEnv (after_first_laser 5 3) 0 0
    (after_first_laser_weights 5 3) (after_first_laser_s 5 3)
    (Real.mul_self_sqrt (by norm_num))
    (by
      rw [after_first_laser_llt, after_first_laser_P_aug, Matrix.diagonal_transpose,
        Matrix.diagonal_mul_diagonal]
      refine congrArg Matrix.diagonal (funext fun i => ?_)
      fin_cases i <;> first | rfl | simp)

end SigmaPoints

section Forecast

variable {K : Type} [LinearOrderedField K]

theorem Predict_future_column_zero (E : Env K) (c : Fin 7 → K) :
    Predict_future_column E 0 c =
      if |c 0| < 0.01 ∧ |c 1| < 0.01 then ![0.1, 0.1, c 2, c 3, c 4]
      else ![c 0, c 1, c 2, c 3, c 4] := by
  simp only [Predict_future_column, mul_zero, add_zero, sub_self, zero_mul, ite_self,
    neg_add_cancel]
  split <;> rfl

theorem fin15_cases (c : Fin 15) :
    c = 0 ∨ (∃ i : Fin 7, c = ⟨i.val + 1, by omega⟩) ∨ (∃ i : Fin 7, c = ⟨i.val + 8, by omega⟩) := by
  rcases c with ⟨n, hn⟩
  by_cases h0 : n = 0
  · left
    exact Fin.ext h0
  · by_cases h7 : n ≤ 7
    · right; left
      exact ⟨⟨n - 1, by omega⟩, Fin.ext (by simp; omega)⟩
    · right; right
      exact ⟨⟨n - 8, by omega⟩, Fin.ext (by simp; omega)⟩

theorem sqrt3_ge_one : (1 : ℝ) ≤ Real.sqrt 3 := by
  rw [Real.le_sqrt' (by norm_num)]
  norm_num

theorem sqrt3_le_two : Real.sqrt 3 ≤ 2 := by
  rw [Real.sqrt_le_iff]
  norm_num

theorem after_first_laser_Xsig_zero (a b : ℝ) (r : Fin 7) :
    Predict_future_Xsig_aug realEnv (after_first_laser a b) r 0 = x_aug ![a, b, 0, 0, 0] r := by
  rw [Predict_future_Xsig_aug_eq, Prediction_Xsig_aug_zero, after_first_laser_x]

theorem after_first_laser_Xsig_plus (a b : ℝ) (r i : Fin 7) :
    Predict_future_Xsig_aug realEnv (after_first_laser a b) r ⟨i.val + 1, by omega⟩ =
      x_aug ![a, b, 0, 0, 0] r +
        Real.sqrt 3 * (Matrix.diagonal ![1, 1, 1, 1, 1, 0.8, 0.6] : Matrix _ _ ℝ) r i := by
  rw [Predict_future_Xsig_aug_eq, Prediction_Xsig_aug_plus, after_first_laser_x,
    after_first_laser_llt, after_first_laser_s, s_lam_n_a_new]
  rfl

theorem after_first_laser_Xsig_minus (a b : ℝ) (r i : Fin 7) :
    Predict_future_Xsig_aug realEnv (after_first_laser a b) r ⟨i.val + 8, by omega⟩ =
      x_aug ![a, b, 0, 0, 0] r -
        Real.sqrt 3 * (Matrix.diagonal ![1, 1, 1, 1, 1, 0.8, 0.6] : Matrix _ _ ℝ) r i := by
  rw [Predict_future_Xsig_aug_eq, Prediction_Xsig_aug_minus, after_first_laser_x,
    after_first_laser_llt, after_first_laser_s, s_lam_n_a_new]
  rfl

theorem diag_row0 (i : Fin 7) :
    (Matrix.diagonal ![1, 1, 1, 1, 1, 0.8, 0.6] : Matrix _ _ ℝ) 0 i = if i = 0 then 1 else 0 := by
  fin_cases i <;> simp [Matrix.diagonal_apply]

theorem diag_row1 (i : Fin 7) :
    (Matrix.diagonal ![1, 1, 1, 1, 1, 0.8, 0.6] : Matrix _ _ ℝ) 1 i = if i = 1 then 1 else 0 := by
  fin_cases i <;> simp [Matrix.diagonal_apply]

theorem after_first_laser_5_3_guard (c : Fin 15) :
    ¬ (|Predict_future_Xsig_aug realEnv (after_first_laser 5 3) 0 c| < 0.01 ∧
      |Predict_future_Xsig_aug realEnv (after_first_laser 5 3) 1 c| < 0.01) := by
  have h1 := sqrt3_ge_one
  have h2 := sqrt3_le_two
  have key : (3 : ℝ) ≤ Predict_future_Xsig_aug realEnv (after_first_laser 5 3) 0 c := by
    rcases fin15_cases c with h | ⟨i, h⟩ | ⟨i, h⟩
    · rw [h, after_first_laser_Xsig_zero]
      norm_num [x_aug]
    · rw [h, after_first_laser_Xsig_plus, diag_row0]
      split
      · norm_num [x_aug]
        linarith
      · norm_num [x_aug]
    · rw [h, after_first_laser_Xsig_minus, diag_row0]
      split
      · norm_num [x_aug]
        linarith
      · norm_num [x_aug]
  intro hc
  have := hc.1
  rw [abs_of_nonneg (by linarith)] at this
  norm_num at this
  linarith

theorem sqrt3_not_small : ¬ (|Real.sqrt 3| < 1 / 100) := by
  have h1 := sqrt3_ge_one
  rw [abs_of_nonneg (by linarith)]
  norm_num
  linarith

theorem Predict_future_column_zero_px {K : Type} [LinearOrderedField K] (E : Env K)
    (c : Fin 7 → K) :
    Predict_future_column E 0 c 0 = if |c 0| < 0.01 ∧ |c 1| < 0.01 then 0.1 else c 0 := by
  rw [Predict_future_column_zero]
  split <;> rfl

theorem origin_column_zero :
    Predict_future_column realEnv 0
      (fun k => Predict_future_Xsig_aug realEnv (after_first_laser 0 0) k 0) 0 = 0.1 := by
  rw [Predict_future_column_zero_px]
  simp only [after_first_laser_Xsig_zero]
  norm_num [x_aug]

theorem origin_column_pair (i : Fin 7) :
    Predict_future_column realEnv 0
        (fun k => Predict_future_Xsig_aug realEnv (after_first_laser 0 0) k
          ⟨i.val + 1, by omega⟩) 0 +
      Predict_future_column realEnv 0
        (fun k => Predict_future_Xsig_aug realEnv (after_first_laser 0 0) k
          ⟨i.val + 8, by omega⟩) 0 =
      if i = 0 ∨ i = 1 then 0 else 0.2 := by
  have h3 := sqrt3_not_small
  rw [Predict_future_column_zero_px, Predict_future_column_zero_px]
  simp only [after_first_laser_Xsig_plus, after_first_laser_Xsig_minus, diag_row0, diag_row1]
  have x0 : x_aug (![0, 0, 0, 0, 0] : Fin 5 → ℝ) 0 = 0 := by simp [x_aug]
  have x1 : x_aug (![0, 0, 0, 0, 0] : Fin 5 → ℝ) 1 = 0 := by simp [x_aug]
  rw [x0, x1]
  by_cases h0 : i = 0
  · subst h0
    norm_num [h3]
  · by_cases h1 : i = 1
    · subst h1
      norm_num [h3]
    · simp only [h0, h1, if_false, or_self]
      norm_num

theorem Predict_future_zero_origin_value :
    (Predict_future realEnv (after_first_laser 0 0) 0).1 0 = 1 / 30 := by
  have h := weighted_sum_split (after_first_laser 0 0).weights_
    (by rw [after_first_laser_weights]; exact weights_new realEnv 0 0)
    (fun c => Predict_future_column realEnv 0
      (fun k => Predict_future_Xsig_aug realEnv (after_first_laser 0 0) k c) 0)
  simp only [smul_eq_mul] at h
  simp only [Predict_future]
  rw [h, origin_column_zero]
  simp only [origin_column_pair]
  have e : ∑ i : Fin 7, (1 / 6 : ℝ) * (if i = 0 ∨ i = 1 then 0 else 0.2) = 1 / 6 := by
    rw [Fin.sum_univ_seven]
    have d0 : ((0 : Fin 7) = 0 ∨ (0 : Fin 7) = 1) := by decide
    have d1 : ((1 : Fin 7) = 0 ∨ (1 : Fin 7) = 1) := by decide
    have d2 : ¬ ((2 : Fin 7) = 0 ∨ (2 : Fin 7) = 1) := by decide
    have d3 : ¬ ((3 : Fin 7) = 0 ∨ (3 : Fin 7) = 1) := by decide
    have d4 : ¬ ((4 : Fin 7) = 0 ∨ (4 : Fin 7) = 1) := by decide
    have d5 : ¬ ((5 : Fin 7) = 0 ∨ (5 : Fin 7) = 1) := by decide
    have d6 : ¬ ((6 : Fin 7) = 0 ∨ (6 : Fin 7) = 1) := by decide
    rw [if_pos d0, if_pos d1, if_neg d2, if_neg d3, if_neg d4, if_neg d5, if_neg d6]
    norm_num
  rw [e]
  norm_num

/-- C6 (as amended): with the constructor's weights, when no augmented sigma
point has both `|px| < 0.01` and `|py| < 0.01` (so the small-value substitution of
ukf.cpp:437-440 is not taken), `Predict_future(0)` returns the current mean. -/
theorem Predict_future_zero [FloorRing K] (E : Env K) (st : UKF K)
    (Xsig0 : Matrix (Fin 5) (Fin 15) K) (time0 : Int)
    (hw : st.weights_ = (new E Xsig0 time0).weights_)
    (hguard : ∀ c : Fin 15, ¬ (|Predict_future_Xsig_aug E st 0 c| < 0.01 ∧
      |Predict_future_Xsig_aug E st 1 c| < 0.01)) :
    (Predict_future E st 0).1 = st.x_ := by
  funext r
  simp only [Predict_future, Predict_future_column_zero, if_neg (hguard _)]
  rw [Predict_future_Xsig_aug_eq]
  have h := fun k => Prediction_Xsig_aug_weighted_sum E st Xsig0 time0 hw k
  fin_cases r
  · simpa [x_aug] using h 0
  · simpa [x_aug] using h 1
  · simpa [x_aug] using h 2
  · simpa [x_aug] using h 3
  · simpa [x_aug] using h 4

/-- C6 (witness): the real filter after a first laser measurement `(5, 3)`; every
sigma point has `px >= 3`. -/
theorem Predict_future_zero_witness :
    (Predict_future realEnv (after_first_laser 5 3) 0).1 = (after_first_laser 5 3).x_ :=
  Predict_future_zero realEnv (after_first_laser 5 3) 0 0 (after_first_laser_weights 5 3)
    after_first_laser_5_3_guard

/-- C6 (counterexample): the real filter initialised by a first laser measurement
`(0, 0)` has mean `(0, 0, 0, 0, 0)` and identity covariance, and the factor of its
augmented covariance is `diag(1, 1, 1, 1, 1, 0.8, 0.6)`; `Predict_future(0)`
returns a vector whose first entry is `1/30`, not `0`. -/
theorem Predict_future_zero_origin :
    (after_first_laser 0 0).is_initialized_ = true ∧
      (after_first_laser 0 0).x_ = ![0, 0, 0, 0, 0] ∧
      (after_first_laser 0 0).P_ = 1 ∧
      realEnv.llt (P_aug (after_first_laser 0 0).P_ (after_first_laser 0 0).Q_) =
        Matrix.diagonal ![1, 1, 1, 1, 1, 0.8, 0.6] ∧
      (Predict_future realEnv (after_first_laser 0 0) 0).1 0 = 1 / 30 ∧
      (Predict_future realEnv (after_first_laser 0 0) 0).1 ≠ (after_first_laser 0 0).x_ := by
  refine ⟨?_, after_first_laser_x 0 0, ?_, after_first_laser_llt 0 0,
    Predict_future_zero_origin_value, ?_⟩
  · rw [after_first_laser, ProcessMeasurement_new]
    rfl
  · rw [after_first_laser, ProcessMeasurement_new]
    rfl
  · intro h
    have h0 := congrFun h 0
    rw [Predict_future_zero_origin_value, after_first_laser_x] at h0
    norm_num at h0

/-- C7: `Predict_future(dt)` hands back the filter it received: `x_`, `P_`,
`Xsig_pred_`, `time_us_`, `is_initialized_`, `NIS_lidar` and `NIS_radar` are
unchanged, and a following `ProcessMeasurement` gives the same result as without
the call. -/
theorem Predict_future_frame [FloorRing K] (E : Env K) (st : UKF K) (dt : K) :
    (Predict_future E st dt).2 = st ∧
      (Predict_future E st dt).2.x_ = st.x_ ∧
      (Predict_future E st dt).2.P_ = st.P_ ∧
      (Predict_future E st dt).2.Xsig_pred_ = st.Xsig_pred_ ∧
      (Predict_future E st dt).2.time_us_ = st.time_us_ ∧
      (Predict_future E st dt).2.is_initialized_ = st.is_initialized_ ∧
      (Predict_future E st dt).2.NIS_lidar = st.NIS_lidar ∧
      (Predict_future E st dt).2.NIS_radar = st.NIS_radar ∧
      ∀ m : MeasurementPackage K,
        ProcessMeasurement E (Predict_future E st dt).2 m = ProcessMeasurement E st m :=
  ⟨rfl, rfl, rfl, rfl, rfl, rfl, rfl, rfl, fun _ => rfl⟩

/-- C8: for every filter state and every `dt`, the vector returned by
`Predict_future(dt)` is the mean `x_` that `Prediction(dt)` stores on the same
state. -/
theorem Predict_future_eq_Prediction_mean [FloorRing K] (E : Env K) (st : UKF K) (dt : K) :
    (Predict_future E st dt).1 = (Prediction E st dt).x_ := by
  funext r
  simp only [Predict_future, Prediction, Predict_future_Xsig_aug_eq]
  rfl

end Forecast

section Lidar
variable {K : Type} [LinearOrderedField K]

theorem inverse_eq_inv {n : Nat} (M : Matrix (Fin n) (Fin n) K) : inverse M = M⁻¹ := by
  rw [inverse, Matrix.inv_def, Ring.inverse_eq_inv']

theorem mul_inverse_cancel {n : Nat} (M : Matrix (Fin n) (Fin n) K) (h : M.det ≠ 0) :
    M * inverse M = 1 := by
  rw [inverse_eq_inv]
  exact Matrix.mul_nonsing_inv M (isUnit_iff_ne_zero.mpr h)

theorem H_new_mulVec (E : Env K) (Xsig0 : Matrix (Fin 5) (Fin 15) K) (time0 : Int)
    (v : Fin 5 → K) : (new E Xsig0 time0).H_.mulVec v = ![v 0, v 1] := by
  funext i
  fin_cases i <;> simp [new, Matrix.mulVec, Matrix.dotProduct, Fin.sum_univ_succ]

/-- C9: with the lidar measurement matrix of the constructor, the noise matrix
`Rl_` set to zero and an invertible position block `H_ * P_ * Ht_`, the state
stored by `UpdateLidar` has `x_(0) = z(0)` and `x_(1) = z(1)`. -/
theorem UpdateLidar_exact (E : Env K) (Xsig0 : Matrix (Fin 5) (Fin 15) K) (time0 : Int)
    (st : UKF K) (meas_package : MeasurementPackage K)
    (hH : st.H_ = (new E Xsig0 time0).H_)
    (hR : st.Rl_ = 0)
    (hdet : (st.H_ * st.P_ * st.Ht_).det ≠ 0) :
    (UpdateLidar st meas_package).x_ 0 = meas_package.raw_measurements_ 0 ∧
      (UpdateLidar st meas_package).x_ 1 = meas_package.raw_measurements_ 1 := by
  have hS := mul_inverse_cancel _ hdet
  have key : st.H_.mulVec (UpdateLidar st meas_package).x_ =
      ![meas_package.raw_measurements_ 0, meas_package.raw_measurements_ 1] := by
    simp only [UpdateLidar, hR, add_zero]
    rw [Matrix.mulVec_add, Matrix.mulVec_mulVec, ← Matrix.mul_assoc, ← Matrix.mul_assoc, hS,
      Matrix.one_mulVec]
    funext i
    fin_cases i <;> simp [Matrix.vecHead, Matrix.vecTail]
  rw [hH, H_new_mulVec] at key
  constructor
  · simpa using congrFun key 0
  · simpa using congrFun key 1
end Lidar

theorem noise_free_lidar_state_S :
    noise_free_lidar_state.H_ * noise_free_lidar_state.P_ * noise_free_lidar_state.Ht_ = 1 := by
  simp only [noise_free_lidar_state, after_first_laser]
  rw [ProcessMeasurement_new]
  simp only [FirstMeasurementInitializer, Matrix.mul_one]
  funext i j
  fin_cases i <;> fin_cases j <;>
    simp [new, Matrix.mul_apply, Fin.sum_univ_succ]

/-- C9 (witness): the real filter after a first laser measurement `(5, 3)` with
`Rl_ = 0`, updated with the laser measurement `(6, 4)`. -/
theorem UpdateLidar_exact_witness :
    (UpdateLidar noise_free_lidar_state (laser 6 4 100000)).x_ 0 = 6 ∧
      (UpdateLidar noise_free_lidar_state (laser 6 4 100000)).x_ 1 = 4 :=
  UpdateLidar_exact realEnv 0 0 noise_free_lidar_state (laser 6 4 100000)
    (by simp only [noise_free_lidar_state, after_first_laser]; rw [ProcessMeasurement_new]; rfl)
    rfl
    (by rw [noise_free_lidar_state_S]; simp)

section First
variable {K : Type} [LinearOrderedField K] [FloorRing K]

/-- C10: on a freshly constructed filter, `ProcessMeasurement` with a laser
measurement `raw = (a, b)` at timestamp `t` only runs the initializer: the state
becomes `(a, b, 0, 0, 0)`, the covariance the identity, the last-update time `t`,
the filter initialized, and nothing else changes (`Xsig_pred_` and both NIS
values are the constructor's, so no prediction or update step ran). -/
theorem ProcessMeasurement_first_laser (E : Env K) (Xsig0 : Matrix (Fin 5) (Fin 15) K)
    (time0 : Int) (m : MeasurementPackage K) (hm : m.sensor_type_ = SensorType.LASER) :
    ProcessMeasurement E (new E Xsig0 time0) m =
        { new E Xsig0 time0 with
          x_ := ![m.raw_measurements_ 0, m.raw_measurements_ 1, 0, 0, 0]
          P_ := 1
          time_us_ := m.timestamp_
          is_initialized_ := true } ∧
      (ProcessMeasurement E (new E Xsig0 time0) m).x_ =
        ![m.raw_measurements_ 0, m.raw_measurements_ 1, 0, 0, 0] ∧
      (ProcessMeasurement E (new E Xsig0 time0) m).P_ = 1 ∧
      (ProcessMeasurement E (new E Xsig0 time0) m).time_us_ = m.timestamp_ ∧
      (ProcessMeasurement E (new E Xsig0 time0) m).is_initialized_ = true ∧
      (ProcessMeasurement E (new E Xsig0 time0) m).Xsig_pred_ = Xsig0 ∧
      (ProcessMeasurement E (new E Xsig0 time0) m).NIS_lidar = 0 ∧
      (ProcessMeasurement E (new E Xsig0 time0) m).NIS_radar = 0 := by
  have hx : (FirstMeasurementInitializer E (new E Xsig0 time0) m).x_ =
      ![m.raw_measurements_ 0, m.raw_measurements_ 1, 0, 0, 0] := by
    funext i
    fin_cases i <;> simp [FirstMeasurementInitializer, hm, new]
  rw [ProcessMeasurement_new]
  refine ⟨?_, hx, rfl, rfl, rfl, rfl, rfl, rfl⟩
  have e : FirstMeasurementInitializer E (new E Xsig0 time0) m =
      { new E Xsig0 time0 with
        x_ := (FirstMeasurementInitializer E (new E Xsig0 time0) m).x_
        P_ := 1
        time_us_ := m.timestamp_
        is_initialized_ := true } := rfl
  rw [e, hx]

end First

/-- C10 (witness): scenario 1, `raw = (5.0, 3.0)` at timestamp 0 on the real
filter gives `x = (5, 3, 0, 0, 0)`. -/
theorem ProcessMeasurement_first_laser_scenario :
    (ProcessMeasurement realEnv (new realEnv 0 0) (laser 5.0 3.0 0)).x_ = ![5, 3, 0, 0, 0] ∧
      (ProcessMeasurement realEnv (new realEnv 0 0) (laser 5.0 3.0 0)).P_ = 1 ∧
      (ProcessMeasurement realEnv (new realEnv 0 0) (laser 5.0 3.0 0)).time_us_ = 0 ∧
      (ProcessMeasurement realEnv (new realEnv 0 0) (laser 5.0 3.0 0)).is_initialized_ = true := by
  have h := ProcessMeasurement_first_laser realEnv 0 0 (laser 5.0 3.0 0) rfl
  refine ⟨?_, h.2.2.1, h.2.2.2.1, h.2.2.2.2.1⟩
  rw [h.2.1]
  simp [laser]
  norm_num

section First2

variable {K : Type} [LinearOrderedField K] [FloorRing K]

/-- C11: on a freshly constructed filter, `ProcessMeasurement` with a radar
measurement `(r, phi, rd)` gives `x = (r*cos(phi), r*sin(phi), 0, 0, 0)` and the
identity covariance; two radar measurements with the same range and bearing give
the same state and covariance whatever their range rates are. -/
theorem ProcessMeasurement_first_radar (E : Env K) (Xsig0 : Matrix (Fin 5) (Fin 15) K)
    (time0 : Int) (m : MeasurementPackage K) (hm : m.sensor_type_ = SensorType.RADAR) :
    (ProcessMeasurement E (new E Xsig0 time0) m).x_ =
        ![m.raw_measurements_ 0 * E.cos (m.raw_measurements_ 1),
          m.raw_measurements_ 0 * E.sin (m.raw_measurements_ 1), 0, 0, 0] ∧
      (ProcessMeasurement E (new E Xsig0 time0) m).P_ = 1 ∧
      ∀ m2 : MeasurementPackage K, m2.sensor_type_ = SensorType.RADAR →
        m2.raw_measurements_ 0 = m.raw_measurements_ 0 →
        m2.raw_measurements_ 1 = m.raw_measurements_ 1 →
        (ProcessMeasurement E (new E Xsig0 time0) m2).x_ =
            (ProcessMeasurement E (new E Xsig0 time0) m).x_ ∧
          (ProcessMeasurement E (new E Xsig0 time0) m2).P_ =
            (ProcessMeasurement E (new E Xsig0 time0) m).P_ := by
  have hx : ∀ m1 : MeasurementPackage K, m1.sensor_type_ = SensorType.RADAR →
      (FirstMeasurementInitializer E (new E Xsig0 time0) m1).x_ =
        ![m1.raw_measurements_ 0 * E.cos (m1.raw_measurements_ 1),
          m1.raw_measurements_ 0 * E.sin (m1.raw_measurements_ 1), 0, 0, 0] := by
    intro m1 h1
    funext i
    fin_cases i <;> simp [FirstMeasurementInitializer, h1, new]
  simp only [ProcessMeasurement_new]
  refine ⟨hx m hm, rfl, ?_⟩
  intro m2 h2 e0 e1
  refine ⟨?_, rfl⟩
  rw [hx m hm, hx m2 h2, e0, e1]

theorem wrapInt_of_mem (bits : Nat) (x : Int) (h1 : -(2 ^ bits / 2) ≤ x)
    (h2 : x < 2 ^ bits / 2) : wrapInt bits x = x := by
  unfold wrapInt
  have h3 : (2 : Int) ^ bits / 2 * 2 ≤ 2 ^ bits := Int.ediv_mul_le _ (by norm_num)
  rw [Int.emod_eq_of_lt (by linarith) (by linarith)]
  ring

theorem ProcessMeasurement_unfold (E : Env K) (st : UKF K) (m : MeasurementPackage K)
    (hi : st.is_initialized_ = true) (hl : st.use_laser_ = true)
    (hr : st.use_radar_ = true) :
    ProcessMeasurement E st m =
        (if m.sensor_type_ = SensorType.LASER then
          UpdateLidar
            (Prediction E { st with time_us_ := m.timestamp_ }
              (((wrapInt E.time_bits (m.timestamp_ - st.time_us_) : Int) : K) / 1000000)) m
        else
          UpdateRadar E
            (Prediction E { st with time_us_ := m.timestamp_ }
              (((wrapInt E.time_bits (m.timestamp_ - st.time_us_) : Int) : K) / 1000000))
            m) := by
  have e : (1000000.0 : K) = 1000000 := by norm_num
  simp only [ProcessMeasurement, hi, Bool.not_true, Bool.false_eq_true, if_false, e]
  simp only [Prediction, hl, hr, if_true]

/-- C12 (as amended): on an initialized filter with both sensors enabled,
`ProcessMeasurement` takes the difference `timestamp - time_us_` in the integer
type of the timestamps (`time_bits` bits, wrapping around), sets `dt` to it
divided by 1000000, stores the timestamp, runs `Prediction(dt)` and then
`UpdateLidar` for a laser measurement, `UpdateRadar` for a radar measurement.
When the difference fits the integer type, `dt = (timestamp - time_us_)/1000000`. -/
theorem ProcessMeasurement_initialized (E : Env K) (st : UKF K) (m : MeasurementPackage K)
    (hi : st.is_initialized_ = true) (hl : st.use_laser_ = true)
    (hr : st.use_radar_ = true) :
    ProcessMeasurement E st m =
        (if m.sensor_type_ = SensorType.LASER then
          UpdateLidar
            (Prediction E { st with time_us_ := m.timestamp_ }
              (((wrapInt E.time_bits (m.timestamp_ - st.time_us_) : Int) : K) / 1000000)) m
        else
          UpdateRadar E
            (Prediction E { st with time_us_ := m.timestamp_ }
              (((wrapInt E.time_bits (m.timestamp_ - st.time_us_) : Int) : K) / 1000000))
            m) ∧
      (ProcessMeasurement E st m).time_us_ = m.timestamp_ ∧
      (-(2 ^ E.time_bits / 2) ≤ m.timestamp_ - st.time_us_ →
        m.timestamp_ - st.time_us_ < 2 ^ E.time_bits / 2 →
        ProcessMeasurement E st m =
          (if m.sensor_type_ = SensorType.LASER then
            UpdateLidar
              (Prediction E { st with time_us_ := m.timestamp_ }
                (((m.timestamp_ - st.time_us_ : Int) : K) / 1000000)) m
          else
            UpdateRadar E
              (Prediction E { st with time_us_ := m.timestamp_ }
                (((m.timestamp_ - st.time_us_ : Int) : K) / 1000000)) m)) := by
  have h := ProcessMeasurement_unfold E st m hi hl hr
  refine ⟨h, ?_, ?_⟩
  · rw [h]
    split <;> rfl
  · intro h1 h2
    rw [h, wrapInt_of_mem _ _ h1 h2]

end First2

/-- C11 (witness): the radar measurement `(6.0, 0.3, 1.0)` on the fresh real
filter. -/
theorem ProcessMeasurement_first_radar_witness :
    (ProcessMeasurement realEnv (new realEnv 0 0) (radar 6.0 0.3 1.0 0)).x_ =
        ![6 * Real.cos 0.3, 6 * Real.sin 0.3, 0, 0, 0] ∧
      (ProcessMeasurement realEnv (new realEnv 0 0) (radar 6.0 0.3 1.0 0)).P_ = 1 := by
  have h := ProcessMeasurement_first_radar realEnv 0 0 (radar 6.0 0.3 1.0 0) rfl
  refine ⟨?_, h.2.1⟩
  rw [h.1]
  simp [radar, realEnv]
  norm_num

theorem after_first_laser_flags (a b : ℝ) :
    (after_first_laser a b).is_initialized_ = true ∧
      (after_first_laser a b).use_laser_ = true ∧
      (after_first_laser a b).use_radar_ = true ∧
      (after_first_laser a b).time_us_ = 0 := by
  rw [after_first_laser, ProcessMeasurement_new]
  exact ⟨rfl, rfl, rfl, rfl⟩

/-- C12 (witness): scenario 1's filter (last update at time 0) receives a radar
measurement at timestamp 100000: the difference fits 64 bits, `dt = 0.1`, then
`Prediction(0.1)` and `UpdateRadar`. -/
theorem ProcessMeasurement_initialized_witness :
    ProcessMeasurement realEnv (after_first_laser 5 3) (radar 6.0 0.3 1.0 100000) =
        UpdateRadar realEnv
          (Prediction realEnv { after_first_laser 5 3 with time_us_ := 100000 } 0.1)
          (radar 6.0 0.3 1.0 100000) ∧
      (ProcessMeasurement realEnv (after_first_laser 5 3)
        (radar 6.0 0.3 1.0 100000)).time_us_ = 100000 := by
  have h := ProcessMeasurement_initialized realEnv (after_first_laser 5 3)
    (radar 6.0 0.3 1.0 100000) (after_first_laser_flags 5 3).1
    (after_first_laser_flags 5 3).2.1 (after_first_laser_flags 5 3).2.2.1
  have ht : (radar (6.0 : ℝ) 0.3 1.0 100000).timestamp_ - (after_first_laser 5 3).time_us_ =
      100000 := by
    rw [(after_first_laser_flags 5 3).2.2.2]
    rfl
  have hb : realEnv.time_bits = 64 := rfl
  rw [ht, hb] at h
  have h3 := h.2.2 (by norm_num) (by norm_num)
  have hd : (((100000 : Int) : ℝ)) / 1000000 = 0.1 := by norm_num
  rw [hd] at h3
  refine ⟨?_, h.2.1⟩
  rw [h3]
  simp [radar]

section Residual

variable {K : Type} [LinearOrderedField K] [FloorRing K]

theorem fixAngle_ge (E : Env K) (a : K) : -E.pi ≤ fixAngle E a :=
  fixAngleUp_ge E _

theorem fixAngle_le (E : Env K) (a : K) : fixAngle E a ≤ E.pi := by
  unfold fixAngle
  rcases lt_or_le (fixAngleDown E a) (-E.pi) with h | h
  · exact le_of_lt (fixAngleUp_lt E _ (by have := E.pi_pos; linarith))
  · rw [fixAngleUp_of_ge E _ h]
    exact fixAngleDown_le E a

theorem fixAngle_of_mem (E : Env K) (a : K) (h1 : -E.pi ≤ a) (h2 : a ≤ E.pi) :
    fixAngle E a = a := by
  unfold fixAngle
  rw [fixAngleDown_of_le E a h2, fixAngleUp_of_ge E a h1]

theorem fixAngle_int (E : Env K) (a : K) : ∃ k : ℤ, fixAngle E a = a + 2 * E.pi * k := by
  obtain ⟨n, _, _, h3⟩ := fixAngleDown_trace E a
  obtain ⟨m, _, _, h6⟩ := fixAngleUp_trace E (fixAngleDown E a)
  refine ⟨(m : ℤ) - (n : ℤ), ?_⟩
  unfold fixAngle
  rw [h6, h3]
  push_cast
  ring

theorem UpdateRadar_diff_z_one (E : Env K) (z_ z_pred_ : Fin 3 → K) :
    UpdateRadar_diff_z E z_ z_pred_ 1 =
      fixAngle E (z_ 1 -
        (if z_ 1 > E.pi - 0.2 ∧ z_pred_ 1 < 0 then z_pred_ 1 + 2 * E.pi
          else if z_ 1 < -E.pi + 0.2 ∧ z_pred_ 1 > 0 then z_pred_ 1 - 2 * E.pi
          else z_pred_ 1)) := by
  simp [UpdateRadar_diff_z]

theorem UpdateRadar_diff_z_int (E : Env K) (z_ z_pred_ : Fin 3 → K) :
    ∃ k : ℤ, UpdateRadar_diff_z E z_ z_pred_ 1 = z_ 1 - z_pred_ 1 + 2 * E.pi * k := by
  rw [UpdateRadar_diff_z_one]
  split
  · obtain ⟨k, hk⟩ := fixAngle_int E (z_ 1 - (z_pred_ 1 + 2 * E.pi))
    exact ⟨k - 1, by rw [hk]; push_cast; ring⟩
  · split
    · obtain ⟨k, hk⟩ := fixAngle_int E (z_ 1 - (z_pred_ 1 - 2 * E.pi))
      exact ⟨k + 1, by rw [hk]; push_cast; ring⟩
    · exact fixAngle_int E _

/-- C17: for a measured bearing in `(pi - 0.2, pi]` and a predicted bearing in
`[-pi, 0)`, or a measured bearing in `[-pi, -pi + 0.2)` and a predicted bearing in
`(0, pi]`, the final bearing residual `d` of `UpdateRadar` satisfies `|d| <= pi` and
`d = z - p + 2*pi*k` for an integer `k`; it is `fixAngle` of `z - (p + 2*pi)` in the
first case and of `z - (p - 2*pi)` in the second. -/
theorem UpdateRadar_diff_z_boundary (E : Env K) (z_ z_pred_ : Fin 3 → K)
    (h : (E.pi - 0.2 < z_ 1 ∧ z_ 1 ≤ E.pi ∧ -E.pi ≤ z_pred_ 1 ∧ z_pred_ 1 < 0) ∨
      (-E.pi ≤ z_ 1 ∧ z_ 1 < -E.pi + 0.2 ∧ 0 < z_pred_ 1 ∧ z_pred_ 1 ≤ E.pi)) :
    |UpdateRadar_diff_z E z_ z_pred_ 1| ≤ E.pi ∧
      (∃ k : ℤ, UpdateRadar_diff_z E z_ z_pred_ 1 = z_ 1 - z_pred_ 1 + 2 * E.pi * k) ∧
      ((z_pred_ 1 < 0 ∧
          UpdateRadar_diff_z E z_ z_pred_ 1 = fixAngle E (z_ 1 - (z_pred_ 1 + 2 * E.pi))) ∨
        (0 < z_pred_ 1 ∧
          UpdateRadar_diff_z E z_ z_pred_ 1 = fixAngle E (z_ 1 - (z_pred_ 1 - 2 * E.pi)))) := by
  refine ⟨?_, UpdateRadar_diff_z_int E z_ z_pred_, ?_⟩
  · rw [UpdateRadar_diff_z_one]
    exact abs_le.mpr ⟨fixAngle_ge E _, fixAngle_le E _⟩
  · rcases h with ⟨h1, _, _, h4⟩ | ⟨_, h2, h3, _⟩
    · left
      refine ⟨h4, ?_⟩
      rw [UpdateRadar_diff_z_one, if_pos ⟨h1, h4⟩]
    · right
      refine ⟨h3, ?_⟩
      have hn : ¬ (z_ 1 > E.pi - 0.2 ∧ z_pred_ 1 < 0) := fun hh => absurd hh.2 (not_lt.mpr h3.le)
      rw [UpdateRadar_diff_z_one, if_neg hn, if_pos ⟨h2, h3⟩]

/-- C19: for every measured bearing `z` and predicted bearing `p`, the final
residual of `UpdateRadar` (with the discontinuity correction) and
`fixAngle(z - p)` (without it) both lie in `[-pi, pi]` and differ by an integer
multiple of `2*pi`; they are equal whenever `fixAngle(z - p)` is neither `pi` nor
`-pi`. -/
theorem UpdateRadar_diff_z_eq_fixAngle (E : Env K) (z_ z_pred_ : Fin 3 → K) :
    (-E.pi ≤ UpdateRadar_diff_z E z_ z_pred_ 1 ∧ UpdateRadar_diff_z E z_ z_pred_ 1 ≤ E.pi) ∧
      (-E.pi ≤ fixAngle E (z_ 1 - z_pred_ 1) ∧ fixAngle E (z_ 1 - z_pred_ 1) ≤ E.pi) ∧
      (∃ k : ℤ, UpdateRadar_diff_z E z_ z_pred_ 1 =
        fixAngle E (z_ 1 - z_pred_ 1) + 2 * E.pi * k) ∧
      (fixAngle E (z_ 1 - z_pred_ 1) ≠ E.pi → fixAngle E (z_ 1 - z_pred_ 1) ≠ -E.pi →
        UpdateRadar_diff_z E z_ z_pred_ 1 = fixAngle E (z_ 1 - z_pred_ 1)) := by
  have hp := E.pi_pos
  have b1 : -E.pi ≤ UpdateRadar_diff_z E z_ z_pred_ 1 ∧
      UpdateRadar_diff_z E z_ z_pred_ 1 ≤ E.pi := by
    rw [UpdateRadar_diff_z_one]
    exact ⟨fixAngle_ge E _, fixAngle_le E _⟩
  have b0 := fixAngle_ge E (z_ 1 - z_pred_ 1)
  have b0' := fixAngle_le E (z_ 1 - z_pred_ 1)
  obtain ⟨k1, h1⟩ := UpdateRadar_diff_z_int E z_ z_pred_
  obtain ⟨k0, h0⟩ := fixAngle_int E (z_ 1 - z_pred_ 1)
  have hk : UpdateRadar_diff_z E z_ z_pred_ 1 =
      fixAngle E (z_ 1 - z_pred_ 1) + 2 * E.pi * ((k1 - k0 : ℤ) : K) := by
    rw [h1, h0]
    push_cast
    ring
  refine ⟨b1, ⟨b0, b0'⟩, ⟨k1 - k0, hk⟩, ?_⟩
  intro n1 n2
  have l0 : -E.pi < fixAngle E (z_ 1 - z_pred_ 1) := lt_of_le_of_ne b0 (Ne.symm n2)
  have l1 : fixAngle E (z_ 1 - z_pred_ 1) < E.pi := lt_of_le_of_ne b0' n1
  have hlt : ((k1 - k0 : ℤ) : K) < 1 := by
    by_contra hc
    have hc' : (1 : K) ≤ ((k1 - k0 : ℤ) : K) := not_lt.mp hc
    have : 2 * E.pi * 1 ≤ 2 * E.pi * ((k1 - k0 : ℤ) : K) :=
      mul_le_mul_of_nonneg_left hc' (by linarith)
    linarith [b1.2]
  have hgt : (-1 : K) < ((k1 - k0 : ℤ) : K) := by
    by_contra hc
    have hc' : ((k1 - k0 : ℤ) : K) ≤ -1 := not_lt.mp hc
    have : 2 * E.pi * ((k1 - k0 : ℤ) : K) ≤ 2 * E.pi * (-1) :=
      mul_le_mul_of_nonneg_left hc' (by linarith)
    linarith [b1.1]
  have hz : (k1 - k0 : ℤ) = 0 := by
    have h1' : (k1 - k0 : ℤ) < 1 := by exact_mod_cast hlt
    have h2' : (-1 : ℤ) < (k1 - k0 : ℤ) := by exact_mod_cast hgt
    omega
  rw [hk, hz]
  simp

end Residual

/-- C17 (witness): measured bearing `π - 0.05`, predicted bearing `-π + 0.05`: the
residual is `-0.1`. -/
theorem UpdateRadar_diff_z_boundary_witness :
    (|UpdateRadar_diff_z realEnv ![0, Real.pi - 0.05, 0] ![0, -Real.pi + 0.05, 0] 1| ≤ Real.pi ∧
      ∃ k : ℤ, UpdateRadar_diff_z realEnv ![0, Real.pi - 0.05, 0] ![0, -Real.pi + 0.05, 0] 1 =
        (Real.pi - 0.05) - (-Real.pi + 0.05) + 2 * Real.pi * k) ∧
      UpdateRadar_diff_z realEnv ![0, Real.pi - 0.05, 0] ![0, -Real.pi + 0.05, 0] 1 = -0.1 := by
  have hp3 := Real.pi_gt_three
  have hpi : realEnv.pi = Real.pi := rfl
  refine ⟨?_, ?_⟩
  · have h := UpdateRadar_diff_z_boundary realEnv ![0, Real.pi - 0.05, 0]
      ![0, -Real.pi + 0.05, 0]
      (Or.inl (by
        simp only [hpi, Matrix.cons_val_one, Matrix.head_cons]
        refine ⟨by linarith, by linarith, by linarith, by linarith⟩))
    exact ⟨by simpa [hpi] using h.1, by simpa [hpi] using h.2.1⟩
  · rw [UpdateRadar_diff_z_one]
    simp only [hpi, Matrix.cons_val_one, Matrix.head_cons]
    rw [if_pos ⟨by linarith, by linarith⟩]
    rw [fixAngle_of_mem realEnv _ (by rw [hpi]; linarith) (by rw [hpi]; linarith)]
    ring

/-- C18 (the code at the failing input): the range-rate entry is the guarded
numerator divided by `sq_x2y2`; over the reals `sq_x2y2` is zero exactly when
`px = py = 0`, and for the column `(0, 0, 1, 0, 0)` the code divides
`0.01 * vx + 0.01 * vy = 0.01` by `sq_x2y2 = 0`. -/
theorem UpdateRadar_divides_by_zero :
    (∀ c : Fin 5 → ℝ, UpdateRadar_Zsig_column realEnv c 2 =
        ((if |c 0| < 0.01 ∧ |c 1| < 0.01 then 0.01 else c 0) * (c 2 * Real.cos (c 3)) +
          (if |c 0| < 0.01 ∧ |c 1| < 0.01 then 0.01 else c 1) * (c 2 * Real.sin (c 3))) /
          UpdateRadar_sq_x2y2 realEnv c) ∧
      (∀ c : Fin 5 → ℝ, UpdateRadar_sq_x2y2 realEnv c = 0 ↔ c 0 = 0 ∧ c 1 = 0) ∧
      UpdateRadar_sq_x2y2 realEnv ![0, 0, 1, 0, 0] = 0 ∧
      UpdateRadar_Zsig_column realEnv ![0, 0, 1, 0, 0] 2 =
        (0.01 * (1 * Real.cos 0) + 0.01 * (1 * Real.sin 0)) /
          UpdateRadar_sq_x2y2 realEnv ![0, 0, 1, 0, 0] ∧
      (0.01 * (1 * Real.cos 0) + 0.01 * (1 * Real.sin 0) : ℝ) = 0.01 := by
  have hz : ∀ c : Fin 5 → ℝ, UpdateRadar_sq_x2y2 realEnv c = 0 ↔ c 0 = 0 ∧ c 1 = 0 := by
    intro c
    show Real.sqrt (c 0 * c 0 + c 1 * c 1) = 0 ↔ _
    rw [Real.sqrt_eq_zero (by nlinarith [mul_self_nonneg (c 0), mul_self_nonneg (c 1)])]
    constructor
    · intro h
      constructor <;> nlinarith [mul_self_nonneg (c 0), mul_self_nonneg (c 1)]
    · rintro ⟨h0, h1⟩
      rw [h0, h1]
      ring
  refine ⟨fun c => rfl, hz, (hz _).mpr ⟨rfl, rfl⟩, ?_, ?_⟩
  · simp [UpdateRadar_Zsig_column, UpdateRadar_sq_x2y2, realEnv]
  · simp

section Algebra

variable {K : Type} [LinearOrderedField K]

open Matrix

theorem dot_mulVec_mul {l m n : Nat} (A : Matrix (Fin l) (Fin m) K) (B : Matrix (Fin m) (Fin n) K)
    (v : Fin l → K) (w : Fin n → K) :
    v ⬝ᵥ (A * B) *ᵥ w = (Aᵀ *ᵥ v) ⬝ᵥ (B *ᵥ w) := by
  rw [← Matrix.mulVec_mulVec, Matrix.dotProduct_mulVec, Matrix.mulVec_transpose]

theorem dot_mulVec_symm {n : Nat} (A : Matrix (Fin n) (Fin n) K) (hA : A.IsSymm)
    (v w : Fin n → K) : v ⬝ᵥ A *ᵥ w = w ⬝ᵥ A *ᵥ v := by
  rw [Matrix.dotProduct_mulVec, ← Matrix.mulVec_transpose, hA.eq, Matrix.dotProduct_comm]

theorem inverse_symm {n : Nat} (S : Matrix (Fin n) (Fin n) K) (hS : S.IsSymm) :
    (inverse S).IsSymm := by
  unfold inverse Matrix.IsSymm
  rw [Matrix.transpose_smul, Matrix.adjugate_transpose, hS.eq]

theorem det_ne_zero_of_pos {n : Nat} (S : Matrix (Fin n) (Fin n) K)
    (hS : ∀ v : Fin n → K, v ≠ 0 → 0 < v ⬝ᵥ S *ᵥ v) : S.det ≠ 0 := by
  intro h
  obtain ⟨v, hv, hz⟩ := Matrix.exists_mulVec_eq_zero_iff.mpr h
  have := hS v hv
  rw [hz, Matrix.dotProduct_zero] at this
  exact lt_irrefl _ this

theorem inverse_mul_cancel {n : Nat} (M : Matrix (Fin n) (Fin n) K) (h : M.det ≠ 0) :
    inverse M * M = 1 := by
  rw [inverse_eq_inv]
  exact Matrix.nonsing_inv_mul M (isUnit_iff_ne_zero.mpr h)

theorem transpose_mulVec_dot {m n : Nat} (A : Matrix (Fin m) (Fin n) K) (u : Fin m → K)
    (x : Fin n → K) : (Aᵀ *ᵥ u) ⬝ᵥ x = u ⬝ᵥ A *ᵥ x := by
  rw [Matrix.mulVec_transpose, ← Matrix.dotProduct_mulVec]

theorem add_psd_symm {m n : Nat} (P : Matrix (Fin n) (Fin n) K) (H : Matrix (Fin m) (Fin n) K)
    (R : Matrix (Fin m) (Fin m) K) (hP : P.IsSymm) (hR : R.IsSymm) :
    (H * P * Hᵀ + R).IsSymm := by
  unfold Matrix.IsSymm
  rw [Matrix.transpose_add, Matrix.transpose_mul, Matrix.transpose_mul,
    Matrix.transpose_transpose, hP.eq, hR.eq, Matrix.mul_assoc]

theorem quad_HPHt {m n : Nat} (P : Matrix (Fin n) (Fin n) K) (H : Matrix (Fin m) (Fin n) K)
    (u : Fin m → K) : u ⬝ᵥ (H * P * Hᵀ) *ᵥ u = (Hᵀ *ᵥ u) ⬝ᵥ P *ᵥ (Hᵀ *ᵥ u) := by
  rw [Matrix.mul_assoc, dot_mulVec_mul, ← Matrix.mulVec_mulVec]

/-- The quadratic form of the Kalman-updated covariance `(1 - K H) P` with gain
`K = P H^T S^-1`, `S = H P H^T + R`, is at least that of `R` at `u = S^-1 H P v`. -/
theorem kalman_quad {m n : Nat} (P : Matrix (Fin n) (Fin n) K) (H : Matrix (Fin m) (Fin n) K)
    (R : Matrix (Fin m) (Fin m) K) (hP : IsSymmPSD P) (hR : R.IsSymm)
    (hS : (H * P * Hᵀ + R) * inverse (H * P * Hᵀ + R) = 1) (v : Fin n → K) :
    (inverse (H * P * Hᵀ + R) *ᵥ (H *ᵥ (P *ᵥ v))) ⬝ᵥ
        R *ᵥ (inverse (H * P * Hᵀ + R) *ᵥ (H *ᵥ (P *ᵥ v))) ≤
      v ⬝ᵥ ((1 - P * Hᵀ * inverse (H * P * Hᵀ + R) * H) * P) *ᵥ v := by
  set S := H * P * Hᵀ + R with hSdef
  set a := H *ᵥ (P *ᵥ v) with ha
  set u := inverse S *ᵥ a with hu
  have hSu : S *ᵥ u = a := by
    rw [hu, Matrix.mulVec_mulVec, hS, Matrix.one_mulVec]
  have hSsymm : S.IsSymm := add_psd_symm P H R hP.1 hR
  -- the subtracted term
  have hX : v ⬝ᵥ (P * Hᵀ * inverse S * H * P) *ᵥ v = u ⬝ᵥ S *ᵥ u := by
    have e1 : (P * Hᵀ * inverse S * H * P) *ᵥ v = P *ᵥ (Hᵀ *ᵥ u) := by
      rw [hu, ha]
      simp only [Matrix.mulVec_mulVec, Matrix.mul_assoc]
    rw [e1, dot_mulVec_symm P hP.1, transpose_mulVec_dot, ← ha, ← hSu]
  have hvw : v ⬝ᵥ P *ᵥ (Hᵀ *ᵥ u) = u ⬝ᵥ S *ᵥ u := by
    rw [dot_mulVec_symm P hP.1, transpose_mulVec_dot, ← ha, ← hSu]
  have hww : (Hᵀ *ᵥ u) ⬝ᵥ P *ᵥ (Hᵀ *ᵥ u) = u ⬝ᵥ S *ᵥ u - u ⬝ᵥ R *ᵥ u := by
    rw [← quad_HPHt, hSdef, Matrix.add_mulVec, Matrix.dotProduct_add]
    ring
  have hpsd := hP.2 (v - Hᵀ *ᵥ u)
  rw [Matrix.mulVec_sub, Matrix.dotProduct_sub, Matrix.sub_dotProduct, Matrix.sub_dotProduct,
    hvw, hww, dot_mulVec_symm P hP.1 (Hᵀ *ᵥ u) v, hvw] at hpsd
  rw [Matrix.sub_mul, Matrix.one_mul, Matrix.sub_mulVec, Matrix.dotProduct_sub, hX]
  linarith

theorem weighted_outer_symm {n : Nat} (w : Fin 15 → K) (d : Fin 15 → Fin n → K) :
    (∑ i : Fin 15, w i • Matrix.vecMulVec (d i) (d i)).IsSymm := by
  unfold Matrix.IsSymm
  ext a b
  simp only [Matrix.transpose_apply, Matrix.sum_apply, Matrix.smul_apply, Matrix.vecMulVec_apply,
    smul_eq_mul]
  exact Finset.sum_congr rfl (fun i _ => by ring)

theorem lidar_P_symm {m n : Nat} (P : Matrix (Fin n) (Fin n) K) (H : Matrix (Fin m) (Fin n) K)
    (R : Matrix (Fin m) (Fin m) K) (hP : P.IsSymm) (hR : R.IsSymm) :
    ((1 - P * Hᵀ * inverse (H * P * Hᵀ + R) * H) * P).IsSymm := by
  have hSi := inverse_symm _ (add_psd_symm P H R hP hR)
  unfold Matrix.IsSymm at *
  rw [Matrix.sub_mul, Matrix.one_mul, Matrix.transpose_sub, Matrix.transpose_mul,
    Matrix.transpose_mul, Matrix.transpose_mul, Matrix.transpose_mul, Matrix.transpose_transpose,
    hP, hSi]
  simp only [Matrix.mul_assoc]

theorem radar_P_symm {m n : Nat} (P : Matrix (Fin n) (Fin n) K) (G : Matrix (Fin n) (Fin m) K)
    (S : Matrix (Fin m) (Fin m) K) (hP : P.IsSymm) (hS : S.IsSymm) :
    (P - G * S * Gᵀ).IsSymm := by
  unfold Matrix.IsSymm at *
  rw [Matrix.transpose_sub, Matrix.transpose_mul, Matrix.transpose_mul,
    Matrix.transpose_transpose, hP, hS, Matrix.mul_assoc]

theorem diagonal_two_quad (d0 d1 : K) (u : Fin 2 → K) :
    u ⬝ᵥ (Matrix.diagonal ![d0, d1]) *ᵥ u = d0 * (u 0 * u 0) + d1 * (u 1 * u 1) := by
  simp [Matrix.dotProduct, Matrix.mulVec, Matrix.diagonal, Fin.sum_univ_two]
  ring

theorem Rl_new_quad (E : Env K) (Xsig0 : Matrix (Fin 5) (Fin 15) K) (time0 : Int)
    (u : Fin 2 → K) :
    u ⬝ᵥ (new E Xsig0 time0).Rl_ *ᵥ u = 0.15 * 0.15 * (u 0 * u 0) + 0.15 * 0.15 * (u 1 * u 1) :=
  diagonal_two_quad _ _ u

theorem Rl_new_symm (E : Env K) (Xsig0 : Matrix (Fin 5) (Fin 15) K) (time0 : Int) :
    (new E Xsig0 time0).Rl_.IsSymm :=
  Matrix.isSymm_diagonal _

/-- The lidar innovation covariance `S = H P H^T + R` with the constructor's `R`
is invertible when `P` is positive semi-definite. -/
theorem lidar_S_inv (E : Env K) (Xsig0 : Matrix (Fin 5) (Fin 15) K) (time0 : Int)
    (P : Matrix (Fin 5) (Fin 5) K) (H : Matrix (Fin 2) (Fin 5) K) (hP : IsSymmPSD P) :
    (H * P * Hᵀ + (new E Xsig0 time0).Rl_) *
      inverse (H * P * Hᵀ + (new E Xsig0 time0).Rl_) = 1 := by
  apply mul_inverse_cancel
  apply det_ne_zero_of_pos
  intro u hu
  rw [Matrix.add_mulVec, Matrix.dotProduct_add, quad_HPHt, Rl_new_quad]
  have h1 := hP.2 (Hᵀ *ᵥ u)
  have h2 : 0 < u 0 * u 0 + u 1 * u 1 := by
    by_contra hc
    have h0 : u 0 = 0 := by nlinarith [mul_self_nonneg (u 0), mul_self_nonneg (u 1)]
    have h1' : u 1 = 0 := by nlinarith [mul_self_nonneg (u 0), mul_self_nonneg (u 1)]
    apply hu
    funext i
    fin_cases i
    · exact h0
    · exact h1'
  have h3 : (0 : K) < 0.15 * 0.15 := by norm_num
  nlinarith

end Algebra

section LidarCovariance

variable {K : Type} [LinearOrderedField K]

open Matrix

/-- C15: for a state whose `P_` is symmetric positive semi-definite, with
`Ht_ = H_^T` and the lidar noise matrix of the constructor, the covariance
`(I - K*H)*P` stored by `UpdateLidar` is symmetric positive semi-definite, for
every measurement. -/
theorem UpdateLidar_P_psd (E : Env K) (Xsig0 : Matrix (Fin 5) (Fin 15) K) (time0 : Int)
    (st : UKF K) (m : MeasurementPackage K)
    (hHt : st.Ht_ = st.H_ᵀ) (hR : st.Rl_ = (new E Xsig0 time0).Rl_)
    (hP : IsSymmPSD st.P_) :
    IsSymmPSD (UpdateLidar st m).P_ := by
  have hRs := Rl_new_symm E Xsig0 time0
  have hS := lidar_S_inv E Xsig0 time0 st.P_ st.H_ hP
  simp only [UpdateLidar, hHt, hR]
  refine ⟨lidar_P_symm st.P_ st.H_ _ hP.1 hRs, fun v => ?_⟩
  refine le_trans ?_ (kalman_quad st.P_ st.H_ _ hP hRs hS v)
  rw [Rl_new_quad]
  have h3 : (0 : K) < 0.15 * 0.15 := by norm_num
  nlinarith [mul_self_nonneg ((inverse (st.H_ * st.P_ * st.H_ᵀ + (new E Xsig0 time0).Rl_) *ᵥ
      (st.H_ *ᵥ (st.P_ *ᵥ v))) 0),
    mul_self_nonneg ((inverse (st.H_ * st.P_ * st.H_ᵀ + (new E Xsig0 time0).Rl_) *ᵥ
      (st.H_ *ᵥ (st.P_ *ᵥ v))) 1)]

/-- C20: for a state whose `P_` is symmetric positive semi-definite, with the
measurement matrices and the lidar noise matrix of the constructor, the value
`NIS_lidar` stored by `UpdateLidar` is non-negative; when the measurement equals
the predicted position `(x_(0), x_(1))` it is 0 and `x_` is unchanged. -/
theorem UpdateLidar_NIS (E : Env K) (Xsig0 : Matrix (Fin 5) (Fin 15) K) (time0 : Int)
    (st : UKF K) (m : MeasurementPackage K)
    (hH : st.H_ = (new E Xsig0 time0).H_) (hHt : st.Ht_ = (new E Xsig0 time0).Ht_)
    (hR : st.Rl_ = (new E Xsig0 time0).Rl_) (hP : IsSymmPSD st.P_) :
    0 ≤ (UpdateLidar st m).NIS_lidar ∧
      (m.raw_measurements_ 0 = st.x_ 0 → m.raw_measurements_ 1 = st.x_ 1 →
        (UpdateLidar st m).NIS_lidar = 0 ∧ (UpdateLidar st m).x_ = st.x_) := by
  have hHt' : st.Ht_ = st.H_ᵀ := by rw [hHt, hH]; rfl
  have hRs := Rl_new_symm E Xsig0 time0
  have hS := lidar_S_inv E Xsig0 time0 st.P_ st.H_ hP
  have hSs : (st.H_ * st.P_ * st.H_ᵀ + (new E Xsig0 time0).Rl_).IsSymm :=
    add_psd_symm _ _ _ hP.1 hRs
  constructor
  · simp only [UpdateLidar, hHt', hR]
    set S := st.H_ * st.P_ * st.H_ᵀ + (new E Xsig0 time0).Rl_ with hSdef
    set y : Fin 2 → K := ![m.raw_measurements_ 0, m.raw_measurements_ 1] - st.H_ *ᵥ st.x_
    set u := inverse S *ᵥ y with hu
    have hSu : S *ᵥ u = y := by rw [hu, Matrix.mulVec_mulVec, hS, Matrix.one_mulVec]
    have e : y ⬝ᵥ u = u ⬝ᵥ S *ᵥ u := by rw [hSu, Matrix.dotProduct_comm]
    rw [e, hSdef, Matrix.add_mulVec, Matrix.dotProduct_add, quad_HPHt, Rl_new_quad]
    have h1 := hP.2 (st.H_ᵀ *ᵥ u)
    have h3 : (0 : K) < 0.15 * 0.15 := by norm_num
    nlinarith [mul_self_nonneg (u 0), mul_self_nonneg (u 1)]
  · intro h0 h1
    have hy : (![m.raw_measurements_ 0, m.raw_measurements_ 1] : Fin 2 → K) -
        st.H_ *ᵥ st.x_ = 0 := by
      rw [hH, H_new_mulVec, h0, h1, sub_self]
    simp only [UpdateLidar, hy, Matrix.mulVec_zero, Matrix.dotProduct_zero, add_zero, and_self]

end LidarCovariance

section Witnesses

open Matrix

theorem IsSymmPSD_one {K : Type} [LinearOrderedField K] {n : Nat} :
    IsSymmPSD (1 : Matrix (Fin n) (Fin n) K) := by
  refine ⟨Matrix.isSymm_one, fun v => ?_⟩
  rw [Matrix.one_mulVec]
  exact Finset.sum_nonneg (fun i _ => mul_self_nonneg (v i))

theorem after_first_laser_consts (a b : ℝ) :
    (after_first_laser a b).P_ = 1 ∧
      (after_first_laser a b).H_ = (new realEnv 0 0).H_ ∧
      (after_first_laser a b).Ht_ = (new realEnv 0 0).Ht_ ∧
      (after_first_laser a b).Ht_ = (after_first_laser a b).H_ᵀ ∧
      (after_first_laser a b).Rl_ = (new realEnv 0 0).Rl_ ∧
      (after_first_laser a b).Rr_ = (new realEnv 0 0).Rr_ := by
  rw [after_first_laser, ProcessMeasurement_new]
  exact ⟨rfl, rfl, rfl, rfl, rfl, rfl⟩

/-- C15 (witness): scenario 1's filter (identity covariance) updated with the
laser measurement `(6, 4)`. -/
theorem UpdateLidar_P_psd_witness :
    IsSymmPSD (UpdateLidar (after_first_laser 5 3) (laser 6 4 100000)).P_ :=
  UpdateLidar_P_psd realEnv 0 0 (after_first_laser 5 3) (laser 6 4 100000)
    (after_first_laser_consts 5 3).2.2.2.1 (after_first_laser_consts 5 3).2.2.2.2.1
    (by rw [(after_first_laser_consts 5 3).1]; exact IsSymmPSD_one)

/-- C20 (witness): scenario 1's filter updated with the laser measurement
`(5, 3)`, its own predicted position. -/
theorem UpdateLidar_NIS_witness :
    0 ≤ (UpdateLidar (after_first_laser 5 3) (laser 5 3 100000)).NIS_lidar ∧
      (UpdateLidar (after_first_laser 5 3) (laser 5 3 100000)).NIS_lidar = 0 ∧
      (UpdateLidar (after_first_laser 5 3) (laser 5 3 100000)).x_ = (after_first_laser 5 3).x_ := by
  have h := UpdateLidar_NIS realEnv 0 0 (after_first_laser 5 3) (laser 5 3 100000)
    (after_first_laser_consts 5 3).2.1 (after_first_laser_consts 5 3).2.2.1
    (after_first_laser_consts 5 3).2.2.2.2.1
    (by rw [(after_first_laser_consts 5 3).1]; exact IsSymmPSD_one)
  exact ⟨h.1, h.2 (by rw [after_first_laser_x]; simp [laser])
    (by rw [after_first_laser_x]; simp [laser])⟩

end Witnesses

section RadarParts

variable {K : Type} [LinearOrderedField K] [FloorRing K]

theorem UpdateRadar_parts (E : Env K) (st : UKF K) (m : MeasurementPackage K) :
    UpdateRadar E st m =
      { st with
        x_ := st.x_ + (UpdateRadar_K E st).mulVec
          (UpdateRadar_diff_z E m.raw_measurements_ (UpdateRadar_z_pred E st))
        P_ := st.P_ - UpdateRadar_K E st * UpdateRadar_S E st * (UpdateRadar_K E st).transpose
        NIS_radar := Matrix.dotProduct
          (UpdateRadar_diff_z E m.raw_measurements_ (UpdateRadar_z_pred E st))
          ((inverse (UpdateRadar_S E st)).mulVec
            (UpdateRadar_diff_z E m.raw_measurements_ (UpdateRadar_z_pred E st))) } := rfl

end RadarParts

theorem UpdateLidar_parts {K : Type} [LinearOrderedField K] (st : UKF K)
    (m : MeasurementPackage K) :
    (UpdateLidar st m).x_ = st.x_ + (UpdateLidar_K st).mulVec
      (![m.raw_measurements_ 0, m.raw_measurements_ 1] - st.H_.mulVec st.x_) := rfl

section Heading

variable {K : Type} [LinearOrderedField K]

theorem Prediction_column_heading (E : Env K) (dt : K) (c : Fin 7 → K) :
    Prediction_column E dt c 3 = c 3 + c 4 * dt + 0.5 * (dt * dt) * c 6 := rfl

theorem Prediction_heading [FloorRing K] (E : Env K) (st : UKF K)
    (Xsig0 : Matrix (Fin 5) (Fin 15) K) (time0 : Int)
    (hw : st.weights_ = (new E Xsig0 time0).weights_) (dt : K) :
    (Prediction E st dt).x_ 3 = st.x_ 3 + st.x_ 4 * dt := by
  have h3 := Prediction_Xsig_aug_weighted_sum E st Xsig0 time0 hw 3
  have h4 := Prediction_Xsig_aug_weighted_sum E st Xsig0 time0 hw 4
  have h6 := Prediction_Xsig_aug_weighted_sum E st Xsig0 time0 hw 6
  have e : (Prediction E st dt).x_ 3 =
      (∑ c : Fin 15, st.weights_ c * Prediction_Xsig_aug E st 3 c) +
        (∑ c : Fin 15, st.weights_ c * Prediction_Xsig_aug E st 4 c) * dt +
        0.5 * (dt * dt) * (∑ c : Fin 15, st.weights_ c * Prediction_Xsig_aug E st 6 c) := by
    simp only [Prediction, Prediction_column_heading, Finset.sum_mul, Finset.mul_sum,
      ← Finset.sum_add_distrib]
    exact Finset.sum_congr rfl (fun c _ => by ring)
  have a3 : x_aug st.x_ 3 = st.x_ 3 := rfl
  have a4 : x_aug st.x_ 4 = st.x_ 4 := rfl
  have a6 : x_aug st.x_ 6 = 0 := rfl
  rw [e, h3, h4, h6, a3, a4, a6]
  ring

end Heading

theorem turning_state_heading :
    -Real.pi < turning_state.x_ 3 ∧ turning_state.x_ 3 ≤ Real.pi ∧
      (Prediction realEnv turning_state 1).x_ 3 = 4 ∧
      Real.pi < (Prediction realEnv turning_state 1).x_ 3 := by
  have hp := Real.pi_gt_three
  have hp4 := Real.pi_lt_d2
  have hx : turning_state.x_ = ![5, 3, 0, 3, 1] := rfl
  have h := Prediction_heading realEnv turning_state 0 0
    (by show (after_first_laser 5 3).weights_ = _; exact after_first_laser_weights 5 3) 1
  rw [hx] at h
  have h4 : (Prediction realEnv turning_state 1).x_ 3 = 4 := by
    rw [h]
    simp
    norm_num
  refine ⟨?_, ?_, h4, ?_⟩
  · rw [hx]; simp; linarith
  · rw [hx]; simp; linarith
  · rw [h4]; linarith

theorem inverse_diagonal {K : Type} [LinearOrderedField K] {n : Nat} (d : Fin n → K)
    (hd : ∀ i, d i ≠ 0) :
    inverse (Matrix.diagonal d) = Matrix.diagonal (fun i => (d i)⁻¹) := by
  rw [inverse_eq_inv]
  apply Matrix.inv_eq_right_inv
  rw [Matrix.diagonal_mul_diagonal]
  ext i j
  by_cases h : i = j
  · subst h
    simp [mul_inv_cancel₀ (hd i)]
  · simp [h]

theorem correlated_state_S :
    correlated_state.H_ * correlated_state.P_ * correlated_state.Ht_ + correlated_state.Rl_ =
      Matrix.diagonal ![409 / 400, 409 / 400] := by
  have c := after_first_laser_consts 5 3
  have hH : correlated_state.H_ = (new realEnv 0 0).H_ := c.2.1
  have hHt : correlated_state.Ht_ = (new realEnv 0 0).Ht_ := c.2.2.1
  have hR : correlated_state.Rl_ = (new realEnv 0 0).Rl_ := c.2.2.2.2.1
  rw [hH, hHt, hR]
  ext i j
  fin_cases i <;> fin_cases j <;>
    simp [correlated_state, new, Matrix.mul_apply, Fin.sum_univ_succ, Matrix.diagonal] <;>
    norm_num

theorem correlated_state_PHt :
    correlated_state.P_ * correlated_state.Ht_ = !![1, 0; 0, 1; 0, 0; 1, 0; 0, 0] := by
  have c := after_first_laser_consts 5 3
  have hHt : correlated_state.Ht_ = (new realEnv 0 0).Ht_ := c.2.2.1
  rw [hHt]
  ext i j
  fin_cases i <;> fin_cases j <;>
    simp [correlated_state, new, Matrix.mul_apply, Fin.sum_univ_succ, Matrix.vecHead,
      Matrix.vecTail]

theorem correlated_state_heading :
    (UpdateLidar correlated_state (laser 1 0 100000)).x_ 3 = 3 + 400 / 409 := by
  have c := after_first_laser_consts 5 3
  have hH : correlated_state.H_ = (new realEnv 0 0).H_ := c.2.1
  have hx : correlated_state.x_ = ![0, 0, 0, 3, 0] := rfl
  have hy : (![(laser (1 : ℝ) 0 100000).raw_measurements_ 0,
      (laser (1 : ℝ) 0 100000).raw_measurements_ 1] : Fin 2 → ℝ) -
      correlated_state.H_.mulVec correlated_state.x_ = ![1, 0] := by
    rw [hH, H_new_mulVec, hx]
    funext i
    fin_cases i <;> simp [laser]
  simp only [UpdateLidar, hy, correlated_state_S, correlated_state_PHt]
  rw [inverse_diagonal _ (by intro i; fin_cases i <;> norm_num), hx]
  simp [Matrix.mulVec, Matrix.dotProduct, Matrix.mul_apply, Fin.sum_univ_succ, Matrix.diagonal,
    Matrix.vecHead, Matrix.vecTail]

section Spikes

variable {K : Type} [LinearOrderedField K]

theorem weights_total (w : Fin 15 → K)
    (hw : ∀ i : Fin 15, w i = if i.val = 0 then -4 / 3 else 1 / 6) : ∑ c : Fin 15, w c = 1 := by
  have h := weighted_sum_split w hw (fun _ => (1 : K))
  simp only [smul_eq_mul, mul_one] at h
  rw [h]
  simp
  norm_num

/-- A sum over the 15 columns, weighted as the constructor does, of a family that
is `F0` except at columns 1 and 8. -/
theorem weighted_sum_spikes {M : Type} [AddCommGroup M] [Module K M]
    (w : Fin 15 → K) (hw : ∀ i : Fin 15, w i = if i.val = 0 then -4 / 3 else 1 / 6)
    (F0 A B : M) :
    ∑ c : Fin 15, w c • (if c = 1 then A else if c = 8 then B else F0) =
      (2 / 3 : K) • F0 + (1 / 6 : K) • (A + B) := by
  have e : ∀ c : Fin 15, w c • (if c = 1 then A else if c = 8 then B else F0) =
      w c • F0 + ((if c = 1 then w c • (A - F0) else 0) +
        (if c = 8 then w c • (B - F0) else 0)) := by
    intro c
    by_cases h1 : c = 1
    · subst h1
      have h8 : ¬ ((1 : Fin 15) = 8) := by decide
      rw [if_pos rfl, if_pos rfl, if_neg h8, add_zero, smul_sub, add_sub_cancel]
    · by_cases h8 : c = 8
      · subst h8
        rw [if_neg h1, if_pos rfl, if_neg h1, if_pos rfl, zero_add, smul_sub, add_sub_cancel]
      · rw [if_neg h1, if_neg h8, if_neg h1, if_neg h8, add_zero, add_zero]
  simp only [e, Finset.sum_add_distrib, Finset.sum_ite_eq', Finset.mem_univ, if_true,
    ← Finset.sum_smul, weights_total w hw]
  have w1 : w 1 = 1 / 6 := by rw [hw]; rfl
  have w8 : w 8 = 1 / 6 := by rw [hw]; rfl
  rw [w1, w8]
  module

end Spikes

section RadarHeading

theorem fixAngle_real_of_abs_le (a : ℝ) (h : |a| ≤ 3) : fixAngle realEnv a = a := by
  have hp := Real.pi_gt_three
  have hpi : realEnv.pi = Real.pi := rfl
  have h' := abs_le.mp h
  exact fixAngle_of_mem realEnv a (by rw [hpi]; linarith) (by rw [hpi]; linarith)

theorem Zsig_column_axis (px xi : ℝ) (h : 0.01 ≤ px) :
    UpdateRadar_Zsig_column realEnv ![px, 0, 0, xi, 0] = ![px, 0, 0] := by
  have hpos : 0 < px := by linarith
  have hne : px ≠ 0 := ne_of_gt hpos
  have hs : Real.sqrt (px * px + 0 * 0) = px := by
    rw [mul_zero, add_zero]
    exact Real.sqrt_mul_self hpos.le
  have harg : Complex.arg ⟨px, 0⟩ = 0 := by
    have : (⟨px, 0⟩ : ℂ) = ((px : ℝ) : ℂ) := rfl
    rw [this]
    exact Complex.arg_ofReal_of_nonneg hpos.le
  have hsmall : ¬ (|px| < 0.01 ∧ |(0 : ℝ)| < 0.01) := by
    intro hc
    have := hc.1
    rw [abs_of_pos hpos] at this
    linarith
  funext r
  fin_cases r
  · show Real.sqrt (px * px + 0 * 0) = px
    exact hs
  · show (if px ≠ 0 then Complex.arg ⟨px, 0⟩ else _) = 0
    rw [if_pos hne, harg]
  · show ((if |px| < 0.01 ∧ |(0 : ℝ)| < 0.01 then 0.01 else px) * (0 * Real.cos xi) +
        (if |px| < 0.01 ∧ |(0 : ℝ)| < 0.01 then 0.01 else 0) * (0 * Real.sin xi)) /
        Real.sqrt (px * px + 0 * 0) = 0
    rw [if_neg hsmall, if_neg hsmall]
    simp

theorem spread_state_weights (i : Fin 15) :
    spread_state.weights_ i = if i.val = 0 then -4 / 3 else 1 / 6 := by
  show (after_first_laser 5 3).weights_ i = _
  rw [after_first_laser_weights]
  exact weights_new realEnv 0 0 i

theorem spread_state_Zsig (c : Fin 15) :
    (fun r => UpdateRadar_Zsig realEnv spread_state r c) =
      if c = 1 then ![1.5, 0, 0] else if c = 8 then ![0.5, 0, 0] else ![1, 0, 0] := by
  have e : (fun r => UpdateRadar_Zsig realEnv spread_state r c) =
      UpdateRadar_Zsig_column realEnv (spread_column c) := rfl
  rw [e]
  unfold spread_column
  split_ifs
  · exact Zsig_column_axis 1.5 4 (by norm_num)
  · exact Zsig_column_axis 0.5 2 (by norm_num)
  · exact Zsig_column_axis 1 3 (by norm_num)

theorem spread_state_z_pred : UpdateRadar_z_pred realEnv spread_state = ![1, 0, 0] := by
  have hs : (fun r => ∑ i : Fin 15, spread_state.weights_ i *
      UpdateRadar_Zsig realEnv spread_state r i) = ![1, 0, 0] := by
    have h := weighted_sum_spikes spread_state.weights_ spread_state_weights
      (![1, 0, 0] : Fin 3 → ℝ) ![1.5, 0, 0] ![0.5, 0, 0]
    simp only [← spread_state_Zsig] at h
    have e : (fun r => ∑ i : Fin 15, spread_state.weights_ i *
        UpdateRadar_Zsig realEnv spread_state r i) =
        ∑ c : Fin 15, spread_state.weights_ c •
          fun r => UpdateRadar_Zsig realEnv spread_state r c := by
      funext r
      simp [Finset.sum_apply]
    rw [e, h]
    funext r
    fin_cases r
    · simp
      norm_num
    · simp
    · simp
  have e : UpdateRadar_z_pred realEnv spread_state = fun r =>
      if r.val = 1 then fixAngle realEnv ((fun r => ∑ i : Fin 15, spread_state.weights_ i *
        UpdateRadar_Zsig realEnv spread_state r i) r)
      else (fun r => ∑ i : Fin 15, spread_state.weights_ i *
        UpdateRadar_Zsig realEnv spread_state r i) r := rfl
  rw [e, hs]
  funext r
  fin_cases r
  · rfl
  · show fixAngle realEnv 0 = 0
    exact fixAngle_real_of_abs_le 0 (by norm_num)
  · rfl

theorem spread_state_z_diff (c : Fin 15) :
    UpdateRadar_z_diff realEnv spread_state c =
      if c = 1 then ![0.5, 0, 0] else if c = 8 then ![-0.5, 0, 0] else 0 := by
  have hz := congrFun (spread_state_Zsig c)
  have e : UpdateRadar_z_diff realEnv spread_state c = fun r =>
      if r.val = 1 then
        fixAngle realEnv ((fun r => UpdateRadar_Zsig realEnv spread_state r c) r -
          UpdateRadar_z_pred realEnv spread_state r)
      else (fun r => UpdateRadar_Zsig realEnv spread_state r c) r -
        UpdateRadar_z_pred realEnv spread_state r := rfl
  rw [e, spread_state_Zsig, spread_state_z_pred]
  have f0 : fixAngle realEnv (0 - 0) = 0 := by
    rw [sub_zero]; exact fixAngle_real_of_abs_le 0 (by norm_num)
  split_ifs
  · funext r
    fin_cases r
    · simp; norm_num
    · simpa using f0
    · simp
  · funext r
    fin_cases r
    · simp; norm_num
    · simpa using f0
    · simp
  · funext r
    fin_cases r
    · simp
    · simpa using f0
    · simp

theorem spread_state_diff_x (c : Fin 15) :
    UpdateRadar_diff_x realEnv spread_state c =
      if c = 1 then ![0.5, 0, 0, 1, 0] else if c = 8 then ![-0.5, 0, 0, -1, 0] else 0 := by
  have e : UpdateRadar_diff_x realEnv spread_state c = fun r =>
      if r.val = 3 then fixAngle realEnv (spread_column c r - (![1, 0, 0, 3, 0] : Fin 5 → ℝ) r)
      else spread_column c r - (![1, 0, 0, 3, 0] : Fin 5 → ℝ) r := rfl
  rw [e]
  unfold spread_column
  have f0 : fixAngle realEnv (3 - 3) = 0 := by
    rw [sub_self]; exact fixAngle_real_of_abs_le 0 (by norm_num)
  have f1 : fixAngle realEnv (4 - 3) = 1 := by
    rw [show (4 : ℝ) - 3 = 1 by norm_num]; exact fixAngle_real_of_abs_le 1 (by norm_num)
  have f2 : fixAngle realEnv (2 - 3) = -1 := by
    rw [show (2 : ℝ) - 3 = -1 by norm_num]; exact fixAngle_real_of_abs_le (-1) (by norm_num)
  split_ifs
  · funext r
    fin_cases r
    · simp; norm_num
    · simp
    · simp
    · simpa using f1
    · simp
  · funext r
    fin_cases r
    · simp; norm_num
    · simp
    · simp
    · simpa using f2
    · simp
  · funext r
    fin_cases r
    · simp
    · simp
    · simp
    · simpa using f0
    · simp

theorem vecMulVec_spikes {m n : Nat} (c : Fin 15) (a b : Fin m → ℝ) (a2 b2 : Fin n → ℝ) :
    Matrix.vecMulVec (if c = 1 then a else if c = 8 then b else 0)
        (if c = 1 then a2 else if c = 8 then b2 else 0) =
      if c = 1 then Matrix.vecMulVec a a2 else if c = 8 then Matrix.vecMulVec b b2 else 0 := by
  split_ifs
  · rfl
  · rfl
  · ext i j
    simp [Matrix.vecMulVec_apply]

theorem spread_state_S :
    UpdateRadar_S realEnv spread_state = Matrix.diagonal ![13 / 75, 9 / 10000, 9 / 100] := by
  have hR : spread_state.Rr_ = Matrix.diagonal ![0.3 * 0.3, 0.03 * 0.03, 0.3 * 0.3] := by
    show (after_first_laser 5 3).Rr_ = _
    rw [(after_first_laser_consts 5 3).2.2.2.2.2]
    rfl
  unfold UpdateRadar_S
  simp only [spread_state_z_diff, vecMulVec_spikes]
  rw [weighted_sum_spikes spread_state.weights_ spread_state_weights, hR]
  ext i j
  fin_cases i <;> fin_cases j <;>
    simp [Matrix.vecMulVec_apply, Matrix.diagonal] <;> norm_num

theorem spread_state_T_row (j : Fin 3) :
    UpdateRadar_T realEnv spread_state 3 j = if j = 0 then 1 / 6 else 0 := by
  unfold UpdateRadar_T
  simp only [spread_state_z_diff, spread_state_diff_x, vecMulVec_spikes]
  rw [weighted_sum_spikes spread_state.weights_ spread_state_weights]
  fin_cases j <;> simp [Matrix.vecMulVec_apply]
  norm_num

theorem spread_state_diff_z :
    UpdateRadar_diff_z realEnv (radar 2 0 0 100000).raw_measurements_
      (UpdateRadar_z_pred realEnv spread_state) = ![1, 0, 0] := by
  have hp := Real.pi_gt_three
  have hpi : realEnv.pi = Real.pi := rfl
  rw [spread_state_z_pred]
  funext r
  fin_cases r
  · show (2 : ℝ) - 1 = 1
    norm_num
  · show UpdateRadar_diff_z realEnv _ _ 1 = 0
    rw [UpdateRadar_diff_z_one]
    have h1 : ¬ ((radar (2 : ℝ) 0 0 100000).raw_measurements_ 1 > realEnv.pi - 0.2 ∧
        (![1, 0, 0] : Fin 3 → ℝ) 1 < 0) := by
      intro hc
      exact lt_irrefl _ hc.2
    have h2 : ¬ ((radar (2 : ℝ) 0 0 100000).raw_measurements_ 1 < -realEnv.pi + 0.2 ∧
        (![1, 0, 0] : Fin 3 → ℝ) 1 > 0) := by
      intro hc
      exact lt_irrefl _ hc.2
    rw [if_neg h1, if_neg h2]
    show fixAngle realEnv ((0 : ℝ) - 0) = 0
    rw [sub_zero]
    exact fixAngle_real_of_abs_le 0 (by norm_num)
  · show (0 : ℝ) - 0 = 0
    norm_num

theorem spread_state_heading :
    (UpdateRadar realEnv spread_state (radar 2 0 0 100000)).x_ 3 = 3 + 25 / 26 := by
  rw [UpdateRadar_parts]
  show spread_state.x_ 3 + ((UpdateRadar_K realEnv spread_state).mulVec
    (UpdateRadar_diff_z realEnv (radar 2 0 0 100000).raw_measurements_
      (UpdateRadar_z_pred realEnv spread_state))) 3 = _
  rw [spread_state_diff_z]
  unfold UpdateRadar_K
  rw [spread_state_S, inverse_diagonal _ (by intro i; fin_cases i <;> norm_num)]
  have hx : spread_state.x_ 3 = 3 := rfl
  rw [hx]
  simp [Matrix.mulVec, Matrix.dotProduct, Matrix.mul_apply, Fin.sum_univ_succ, Matrix.diagonal,
    spread_state_T_row]
  norm_num

end RadarHeading

theorem correlated_state_P_psd : IsSymmPSD correlated_state.P_ := by
  have hP : correlated_state.P_ =
      !![1, 0, 0, 1, 0; 0, 1, 0, 0, 0; 0, 0, 1, 0, 0; 1, 0, 0, 1, 0; 0, 0, 0, 0, 1] := rfl
  rw [hP]
  constructor
  · unfold Matrix.IsSymm
    ext i j
    fin_cases i <;> fin_cases j <;> rfl
  · intro v
    have e : Matrix.dotProduct v
        ((!![1, 0, 0, 1, 0; 0, 1, 0, 0, 0; 0, 0, 1, 0, 0; 1, 0, 0, 1, 0; 0, 0, 0, 0, 1] :
          Matrix (Fin 5) (Fin 5) ℝ).mulVec v) =
        (v 0 + v 3) * (v 0 + v 3) + v 1 * v 1 + v 2 * v 2 + v 4 * v 4 := by
      simp [Matrix.dotProduct, Matrix.mulVec, Fin.sum_univ_five, Matrix.vecHead, Matrix.vecTail]
      ring
    rw [e]
    nlinarith [mul_self_nonneg (v 0 + v 3), mul_self_nonneg (v 1), mul_self_nonneg (v 2),
      mul_self_nonneg (v 4)]

section HeadingClaim

variable {K : Type} [LinearOrderedField K] [FloorRing K]

/-- C13 (as amended): the state's heading is never wrapped. With the
constructor's weights the heading after `Prediction(dt)` is `x(3) + x(4)*dt`,
after `UpdateLidar` it is `x(3) + (K*y)(3)` and after `UpdateRadar` it is
`x(3) + (K*diff_z)(3)`; after each operation it lies in `(-pi, pi]` exactly when
that unwrapped value does. -/
theorem heading_not_wrapped (E : Env K) (st : UKF K) (Xsig0 : Matrix (Fin 5) (Fin 15) K)
    (time0 : Int) (hw : st.weights_ = (new E Xsig0 time0).weights_) (dt : K)
    (m : MeasurementPackage K) :
    ((Prediction E st dt).x_ 3 = st.x_ 3 + st.x_ 4 * dt ∧
        ((-E.pi < (Prediction E st dt).x_ 3 ∧ (Prediction E st dt).x_ 3 ≤ E.pi) ↔
          (-E.pi < st.x_ 3 + st.x_ 4 * dt ∧ st.x_ 3 + st.x_ 4 * dt ≤ E.pi))) ∧
      ((UpdateLidar st m).x_ 3 = st.x_ 3 + ((UpdateLidar_K st).mulVec
          (![m.raw_measurements_ 0, m.raw_measurements_ 1] - st.H_.mulVec st.x_)) 3) ∧
      ((UpdateRadar E st m).x_ 3 = st.x_ 3 + ((UpdateRadar_K E st).mulVec
          (UpdateRadar_diff_z E m.raw_measurements_ (UpdateRadar_z_pred E st))) 3) := by
  have h := Prediction_heading E st Xsig0 time0 hw dt
  refine ⟨⟨h, by rw [h]⟩, ?_, ?_⟩
  · rw [UpdateLidar_parts]
    rfl
  · rw [UpdateRadar_parts]
    rfl

end HeadingClaim

/-- C13 (witness): scenario 1's filter, `dt = 0.1`, a laser measurement
`(6, 4)`. -/
theorem heading_not_wrapped_witness :
    (Prediction realEnv (after_first_laser 5 3) 0.1).x_ 3 =
      (after_first_laser 5 3).x_ 3 + (after_first_laser 5 3).x_ 4 * 0.1 :=
  (heading_not_wrapped realEnv (after_first_laser 5 3) 0 0 (after_first_laser_weights 5 3)
    0.1 (laser 6 4 100000)).1.1

/-- C13 (counterexample): three real filter states whose heading is 3, inside
`(-π, π]`: after `Prediction(1)` with heading rate 1 the heading is 4; after
`UpdateLidar` with a positive semi-definite covariance coupling `px` and the
heading and the measurement `(1, 0)` it is `3 + 400/409`; after `UpdateRadar`
with the predicted sigma matrix `spread_column` and the measurement `(2, 0, 0)`
it is `3 + 25/26`. Each is above `π`. -/
theorem heading_leaves_interval :
    (-Real.pi < turning_state.x_ 3 ∧ turning_state.x_ 3 ≤ Real.pi ∧
        (Prediction realEnv turning_state 1).x_ 3 = 4 ∧
        ¬ ((Prediction realEnv turning_state 1).x_ 3 ≤ Real.pi)) ∧
      (-Real.pi < correlated_state.x_ 3 ∧ correlated_state.x_ 3 ≤ Real.pi ∧
        IsSymmPSD correlated_state.P_ ∧
        (UpdateLidar correlated_state (laser 1 0 100000)).x_ 3 = 3 + 400 / 409 ∧
        ¬ ((UpdateLidar correlated_state (laser 1 0 100000)).x_ 3 ≤ Real.pi)) ∧
      (-Real.pi < spread_state.x_ 3 ∧ spread_state.x_ 3 ≤ Real.pi ∧
        (UpdateRadar realEnv spread_state (radar 2 0 0 100000)).x_ 3 = 3 + 25 / 26 ∧
        ¬ ((UpdateRadar realEnv spread_state (radar 2 0 0 100000)).x_ 3 ≤ Real.pi)) := by
  have hp := Real.pi_gt_three
  have hp2 := Real.pi_lt_d2
  have ht := turning_state_heading
  have hc : correlated_state.x_ 3 = 3 := rfl
  have hs : spread_state.x_ 3 = 3 := rfl
  refine ⟨⟨ht.1, ht.2.1, ht.2.2.1, not_le.mpr ht.2.2.2⟩,
    ⟨by rw [hc]; linarith, by rw [hc]; linarith, correlated_state_P_psd,
      correlated_state_heading, ?_⟩,
    ⟨by rw [hs]; linarith, by rw [hs]; linarith, spread_state_heading, ?_⟩⟩
  · rw [correlated_state_heading]
    intro h
    norm_num at h
    linarith
  · rw [spread_state_heading]
    intro h
    norm_num at h
    linarith

section RadarPSD

variable {K : Type} [LinearOrderedField K]

open Matrix

theorem vecMulVec_quad {m n : Nat} (d : Fin n → K) (e : Fin m → K) (u : Fin n → K)
    (y : Fin m → K) : u ⬝ᵥ (Matrix.vecMulVec d e) *ᵥ y = (d ⬝ᵥ u) * (e ⬝ᵥ y) := by
  simp only [Matrix.dotProduct, Matrix.mulVec, Matrix.vecMulVec_apply, Finset.mul_sum,
    Finset.sum_mul]
  rw [Finset.sum_comm]
  refine Finset.sum_congr rfl (fun i _ => Finset.sum_congr rfl (fun j _ => ?_))
  ring

theorem weighted_outer_quad {m n : Nat} (w : Fin 15 → K) (d : Fin 15 → Fin n → K)
    (e : Fin 15 → Fin m → K) (u : Fin n → K) (y : Fin m → K) :
    u ⬝ᵥ (∑ i : Fin 15, w i • Matrix.vecMulVec (d i) (e i)) *ᵥ y =
      ∑ i : Fin 15, w i * ((d i ⬝ᵥ u) * (e i ⬝ᵥ y)) := by
  have h : ∀ s : Finset (Fin 15),
      u ⬝ᵥ (∑ i in s, w i • Matrix.vecMulVec (d i) (e i)) *ᵥ y =
        ∑ i in s, w i * ((d i ⬝ᵥ u) * (e i ⬝ᵥ y)) := by
    intro s
    induction s using Finset.induction_on with
    | empty => simp
    | insert hi ih =>
      rw [Finset.sum_insert hi, Finset.sum_insert hi, Matrix.add_mulVec, Matrix.dotProduct_add,
        ih, Matrix.smul_mulVec_assoc, Matrix.dotProduct_smul, vecMulVec_quad, smul_eq_mul]
  exact h Finset.univ

theorem weighted_sq_lower (w : Fin 15 → K)
    (hw : ∀ i : Fin 15, w i = if i.val = 0 then -4 / 3 else 1 / 6) (f : Fin 15 → K) :
    -(4 / 3) * (f 0 * f 0) ≤ ∑ i : Fin 15, w i * (f i * f i) := by
  have h := weighted_sum_split w hw (fun i => f i * f i)
  simp only [smul_eq_mul] at h
  rw [h]
  have hs : 0 ≤ ∑ i : Fin 7, (1 / 6 : K) *
      (f ⟨i.val + 1, by omega⟩ * f ⟨i.val + 1, by omega⟩ +
        f ⟨i.val + 8, by omega⟩ * f ⟨i.val + 8, by omega⟩) := by
    refine Finset.sum_nonneg (fun i _ => ?_)
    have h1 := mul_self_nonneg (f ⟨i.val + 1, by omega⟩)
    have h2 := mul_self_nonneg (f ⟨i.val + 8, by omega⟩)
    linarith
  linarith

theorem Rr_new_quad (E : Env K) (Xsig0 : Matrix (Fin 5) (Fin 15) K) (time0 : Int)
    (y : Fin 3 → K) :
    y ⬝ᵥ (new E Xsig0 time0).Rr_ *ᵥ y =
      0.3 * 0.3 * (y 0 * y 0) + 0.03 * 0.03 * (y 1 * y 1) + 0.3 * 0.3 * (y 2 * y 2) := by
  simp [new, Matrix.dotProduct, Matrix.mulVec, Matrix.diagonal, Fin.sum_univ_three]
  ring

/-- Cauchy-Schwarz for the radar noise matrix: `(z . y)^2 <= q * (y^T R y)` with
`q = (z0/0.3)^2 + (z1/0.03)^2 + (z2/0.3)^2`. -/
theorem radar_noise_cauchy (z y : Fin 3 → K) :
    (z ⬝ᵥ y) * (z ⬝ᵥ y) ≤
      ((z 0 / 0.3) ^ 2 + (z 1 / 0.03) ^ 2 + (z 2 / 0.3) ^ 2) *
        (0.3 * 0.3 * (y 0 * y 0) + 0.03 * 0.03 * (y 1 * y 1) + 0.3 * 0.3 * (y 2 * y 2)) := by
  have e : z ⬝ᵥ y = (z 0 / 0.3) * (0.3 * y 0) + (z 1 / 0.03) * (0.03 * y 1) +
      (z 2 / 0.3) * (0.3 * y 2) := by
    simp only [Matrix.dotProduct, Fin.sum_univ_three]
    field_simp
    ring
  rw [e]
  generalize z 0 / 0.3 = a0
  generalize z 1 / 0.03 = a1
  generalize z 2 / 0.3 = a2
  have e2 : (0.3 * 0.3 * (y 0 * y 0) + 0.03 * 0.03 * (y 1 * y 1) + 0.3 * 0.3 * (y 2 * y 2) : K) =
      (0.3 * y 0) ^ 2 + (0.03 * y 1) ^ 2 + (0.3 * y 2) ^ 2 := by ring
  rw [e2]
  generalize (0.3 : K) * y 0 = b0
  generalize (0.03 : K) * y 1 = b1
  generalize (0.3 : K) * y 2 = b2
  have key : (a0 ^ 2 + a1 ^ 2 + a2 ^ 2) * (b0 ^ 2 + b1 ^ 2 + b2 ^ 2) -
      (a0 * b0 + a1 * b1 + a2 * b2) * (a0 * b0 + a1 * b1 + a2 * b2) =
      (a0 * b1 - a1 * b0) ^ 2 + (a0 * b2 - a2 * b0) ^ 2 + (a1 * b2 - a2 * b1) ^ 2 := by ring
  have k1 := sq_nonneg (a0 * b1 - a1 * b0)
  have k2 := sq_nonneg (a0 * b2 - a2 * b0)
  have k3 := sq_nonneg (a1 * b2 - a2 * b1)
  linarith

theorem radar_noise_pos (y : Fin 3 → K) (hy : y ≠ 0) :
    0 < 0.3 * 0.3 * (y 0 * y 0) + 0.03 * 0.03 * (y 1 * y 1) + 0.3 * 0.3 * (y 2 * y 2) := by
  by_contra hc
  have h0 := mul_self_nonneg (y 0)
  have h1 := mul_self_nonneg (y 1)
  have h2 := mul_self_nonneg (y 2)
  rw [not_lt] at hc
  have e0 : y 0 * y 0 = 0 := le_antisymm (by linarith) h0
  have e1 : y 1 * y 1 = 0 := le_antisymm (by linarith) h1
  have e2 : y 2 * y 2 = 0 := le_antisymm (by linarith) h2
  apply hy
  funext i
  fin_cases i
  · exact mul_self_eq_zero.mp e0
  · exact mul_self_eq_zero.mp e1
  · exact mul_self_eq_zero.mp e2

theorem radar_noise_nonneg (y : Fin 3 → K) :
    0 ≤ 0.3 * 0.3 * (y 0 * y 0) + 0.03 * 0.03 * (y 1 * y 1) + 0.3 * 0.3 * (y 2 * y 2) := by
  have h0 := mul_self_nonneg (y 0)
  have h1 := mul_self_nonneg (y 1)
  have h2 := mul_self_nonneg (y 2)
  linarith

end RadarPSD

section RadarUpdate

variable {K : Type} [LinearOrderedField K] [FloorRing K]

open Matrix

theorem UpdateRadar_S_symm (E : Env K) (st : UKF K) (hR : st.Rr_.IsSymm) :
    (UpdateRadar_S E st).IsSymm :=
  Matrix.IsSymm.add (weighted_outer_symm _ _) hR

theorem UpdateRadar_S_quad (E : Env K) (st : UKF K) (y : Fin 3 → K) :
    y ⬝ᵥ (UpdateRadar_S E st) *ᵥ y =
      (∑ i : Fin 15, st.weights_ i *
        ((UpdateRadar_z_diff E st i ⬝ᵥ y) * (UpdateRadar_z_diff E st i ⬝ᵥ y))) +
        y ⬝ᵥ st.Rr_ *ᵥ y := by
  rw [UpdateRadar_S, Matrix.add_mulVec, Matrix.dotProduct_add, weighted_outer_quad]

/-- When the residual of sigma column 0 is small against the radar noise, the
innovation covariance dominates a positive multiple of the noise covariance. -/
theorem UpdateRadar_S_lower (E : Env K) (st : UKF K) (Xsig0 : Matrix (Fin 5) (Fin 15) K)
    (time0 : Int) (hw : st.weights_ = (new E Xsig0 time0).weights_)
    (hRr : st.Rr_ = (new E Xsig0 time0).Rr_) (y : Fin 3 → K) :
    (1 - 4 / 3 * ((UpdateRadar_z_diff E st 0 0 / 0.3) ^ 2 +
        (UpdateRadar_z_diff E st 0 1 / 0.03) ^ 2 + (UpdateRadar_z_diff E st 0 2 / 0.3) ^ 2)) *
        (0.3 * 0.3 * (y 0 * y 0) + 0.03 * 0.03 * (y 1 * y 1) + 0.3 * 0.3 * (y 2 * y 2)) ≤
      (∑ i : Fin 15, st.weights_ i *
        ((UpdateRadar_z_diff E st i ⬝ᵥ y) * (UpdateRadar_z_diff E st i ⬝ᵥ y))) +
        y ⬝ᵥ st.Rr_ *ᵥ y := by
  have h1 := weighted_sq_lower st.weights_ (by rw [hw]; exact weights_new E Xsig0 time0)
    (fun i => UpdateRadar_z_diff E st i ⬝ᵥ y)
  have h2 := radar_noise_cauchy (UpdateRadar_z_diff E st 0) y
  rw [hRr, Rr_new_quad]
  simp only at h1
  linarith

/-- Radar update of a predicted state: when `P_` is the weighted sum of the outer
products of the state residuals, the residual of sigma column 0 vanishes in state
space and is small against the radar noise in measurement space, `UpdateRadar`
stores a symmetric positive semi-definite `P_` and a non-negative `NIS_radar`. -/
theorem UpdateRadar_psd (E : Env K) (st : UKF K) (Xsig0 : Matrix (Fin 5) (Fin 15) K)
    (time0 : Int) (m : MeasurementPackage K)
    (hw : st.weights_ = (new E Xsig0 time0).weights_)
    (hRr : st.Rr_ = (new E Xsig0 time0).Rr_)
    (hP : st.P_ = ∑ i : Fin 15, st.weights_ i •
      Matrix.vecMulVec (UpdateRadar_diff_x E st i) (UpdateRadar_diff_x E st i))
    (h0 : UpdateRadar_diff_x E st 0 = 0)
    (hq : 4 / 3 * ((UpdateRadar_z_diff E st 0 0 / 0.3) ^ 2 +
        (UpdateRadar_z_diff E st 0 1 / 0.03) ^ 2 + (UpdateRadar_z_diff E st 0 2 / 0.3) ^ 2) < 1) :
    IsSymmPSD (UpdateRadar E st m).P_ ∧ 0 ≤ (UpdateRadar E st m).NIS_radar := by
  have hRs : st.Rr_.IsSymm := by rw [hRr]; exact Matrix.isSymm_diagonal _
  have hSs := UpdateRadar_S_symm E st hRs
  have hPs : st.P_.IsSymm := by rw [hP]; exact weighted_outer_symm _ _
  have hlow := UpdateRadar_S_lower E st Xsig0 time0 hw hRr
  have hSpos : ∀ y : Fin 3 → K, y ≠ 0 → 0 < y ⬝ᵥ (UpdateRadar_S E st) *ᵥ y := by
    intro y hy
    rw [UpdateRadar_S_quad]
    have := mul_pos (sub_pos.mpr hq) (radar_noise_pos y hy)
    have := hlow y
    linarith
  have hSnn : ∀ y : Fin 3 → K, 0 ≤ y ⬝ᵥ (UpdateRadar_S E st) *ᵥ y := by
    intro y
    rw [UpdateRadar_S_quad]
    have := mul_nonneg (sub_pos.mpr hq).le (radar_noise_nonneg y)
    have := hlow y
    linarith
  have hdet := det_ne_zero_of_pos _ hSpos
  have hSi := mul_inverse_cancel _ hdet
  have hSis := inverse_symm _ hSs
  rw [UpdateRadar_parts]
  refine ⟨⟨radar_P_symm _ _ _ hPs hSs, fun u => ?_⟩, ?_⟩
  · show 0 ≤ u ⬝ᵥ (st.P_ - UpdateRadar_K E st * UpdateRadar_S E st *
      (UpdateRadar_K E st)ᵀ) *ᵥ u
    set y := (UpdateRadar_K E st)ᵀ *ᵥ u with hy
    have hKS : u ⬝ᵥ (UpdateRadar_K E st * UpdateRadar_S E st * (UpdateRadar_K E st)ᵀ) *ᵥ u =
        y ⬝ᵥ (UpdateRadar_S E st) *ᵥ y := by
      rw [Matrix.mul_assoc, dot_mulVec_mul, ← Matrix.mulVec_mulVec]
    have hSy : (UpdateRadar_S E st) *ᵥ y = (UpdateRadar_T E st)ᵀ *ᵥ u := by
      rw [hy, UpdateRadar_K, Matrix.transpose_mul, hSis.eq, ← Matrix.mulVec_mulVec,
        Matrix.mulVec_mulVec, hSi, Matrix.one_mulVec]
    have hcross : y ⬝ᵥ (UpdateRadar_S E st) *ᵥ y =
        ∑ i : Fin 15, st.weights_ i *
          ((UpdateRadar_diff_x E st i ⬝ᵥ u) * (UpdateRadar_z_diff E st i ⬝ᵥ y)) := by
      rw [hSy, Matrix.dotProduct_comm, transpose_mulVec_dot, UpdateRadar_T, weighted_outer_quad]
    have hPu : u ⬝ᵥ st.P_ *ᵥ u = ∑ i : Fin 15, st.weights_ i *
        ((UpdateRadar_diff_x E st i ⬝ᵥ u) * (UpdateRadar_diff_x E st i ⬝ᵥ u)) := by
      conv_lhs => rw [hP]
      rw [weighted_outer_quad]
    have hSq := UpdateRadar_S_quad E st y
    have hsq := weighted_sq_lower st.weights_ (by rw [hw]; exact weights_new E Xsig0 time0)
      (fun i => UpdateRadar_diff_x E st i ⬝ᵥ u - UpdateRadar_z_diff E st i ⬝ᵥ y)
    simp only at hsq
    rw [h0, Matrix.zero_dotProduct, zero_sub, neg_mul_neg] at hsq
    have hexp : ∑ i : Fin 15, st.weights_ i *
        ((UpdateRadar_diff_x E st i ⬝ᵥ u - UpdateRadar_z_diff E st i ⬝ᵥ y) *
          (UpdateRadar_diff_x E st i ⬝ᵥ u - UpdateRadar_z_diff E st i ⬝ᵥ y)) =
        (∑ i : Fin 15, st.weights_ i *
          ((UpdateRadar_diff_x E st i ⬝ᵥ u) * (UpdateRadar_diff_x E st i ⬝ᵥ u))) -
        2 * (∑ i : Fin 15, st.weights_ i *
          ((UpdateRadar_diff_x E st i ⬝ᵥ u) * (UpdateRadar_z_diff E st i ⬝ᵥ y))) +
        ∑ i : Fin 15, st.weights_ i *
          ((UpdateRadar_z_diff E st i ⬝ᵥ y) * (UpdateRadar_z_diff E st i ⬝ᵥ y)) := by
      rw [Finset.mul_sum, ← Finset.sum_sub_distrib, ← Finset.sum_add_distrib]
      exact Finset.sum_congr rfl (fun i _ => by ring)
    have hc := radar_noise_cauchy (UpdateRadar_z_diff E st 0) y
    have hn := radar_noise_nonneg y
    rw [hRr, Rr_new_quad] at hSq
    rw [Matrix.sub_mulVec, Matrix.dotProduct_sub, hKS, hPu]
    rw [hexp, ← hcross] at hsq
    nlinarith
  · show 0 ≤ Matrix.dotProduct
      (UpdateRadar_diff_z E m.raw_measurements_ (UpdateRadar_z_pred E st))
      ((inverse (UpdateRadar_S E st)).mulVec
        (UpdateRadar_diff_z E m.raw_measurements_ (UpdateRadar_z_pred E st)))
    set dz := UpdateRadar_diff_z E m.raw_measurements_ (UpdateRadar_z_pred E st)
    set v := (inverse (UpdateRadar_S E st)) *ᵥ dz with hv
    have hSv : (UpdateRadar_S E st) *ᵥ v = dz := by
      rw [hv, Matrix.mulVec_mulVec, hSi, Matrix.one_mulVec]
    have e : dz ⬝ᵥ v = v ⬝ᵥ (UpdateRadar_S E st) *ᵥ v := by
      rw [hSv, Matrix.dotProduct_comm]
    rw [e]
    exact hSnn v

end RadarUpdate

-- Scenario 2: the filter of scenario 1, `Prediction(0.1)`, then `UpdateRadar` with the
-- radar measurement `(6.0, 0.3, 1.0)`; every sigma column is evaluated exactly.

theorem Prediction_column_real (dt px py v xi xd na nx : ℝ)
    (hs : ¬ (|px| < 0.01 ∧ |py| < 0.01)) :
    Prediction_column realEnv dt ![px, py, v, xi, xd, na, nx] =
      ![(if |xd| < 0.001 then px + v * Real.cos xi * dt
          else px + (v / xd) * (Real.sin (xi + xd * dt) - Real.sin xi)) +
          0.5 * (dt * dt) * Real.cos xi * na,
        (if |xd| < 0.001 then py + v * Real.sin xi * dt
          else py + (v / xd) * (-Real.cos (xi + xd * dt) + Real.cos xi)) +
          0.5 * (dt * dt) * Real.sin xi * na,
        v + dt * na,
        xi + xd * dt + 0.5 * (dt * dt) * nx,
        xd + dt * nx] := by
  have h0 : (![px, py, v, xi, xd, na, nx] : Fin 7 → ℝ) 0 = px := rfl
  have h1 : (![px, py, v, xi, xd, na, nx] : Fin 7 → ℝ) 1 = py := rfl
  have h2 : (![px, py, v, xi, xd, na, nx] : Fin 7 → ℝ) 2 = v := rfl
  have h3 : (![px, py, v, xi, xd, na, nx] : Fin 7 → ℝ) 3 = xi := rfl
  have h4 : (![px, py, v, xi, xd, na, nx] : Fin 7 → ℝ) 4 = xd := rfl
  have h5 : (![px, py, v, xi, xd, na, nx] : Fin 7 → ℝ) 5 = na := rfl
  have h6 : (![px, py, v, xi, xd, na, nx] : Fin 7 → ℝ) 6 = nx := rfl
  simp only [Prediction_column, h0, h1, h2, h3, h4, h5, h6, if_neg hs]
  rfl

theorem scenario2_aug_column (t : ℝ) (i : Fin 7) :
    (fun r => x_aug (![5, 3, 0, 0, 0] : Fin 5 → ℝ) r +
        t * (Real.sqrt 3 * (Matrix.diagonal ![1, 1, 1, 1, 1, 0.8, 0.6] : Matrix _ _ ℝ) r i)) =
      ![![5 + t * Real.sqrt 3, 3, 0, 0, 0, 0, 0], ![5, 3 + t * Real.sqrt 3, 0, 0, 0, 0, 0],
        ![5, 3, t * Real.sqrt 3, 0, 0, 0, 0], ![5, 3, 0, t * Real.sqrt 3, 0, 0, 0],
        ![5, 3, 0, 0, t * Real.sqrt 3, 0, 0], ![5, 3, 0, 0, 0, t * (Real.sqrt 3 * 0.8), 0],
        ![5, 3, 0, 0, 0, 0, t * (Real.sqrt 3 * 0.6)]] i := by
  funext r
  fin_cases i <;> fin_cases r <;> simp [x_aug, Matrix.diagonal] <;> rfl

theorem sqrt3_abs_not_small (t : ℝ) (ht : t = 1 ∨ t = -1) : ¬ (|t * Real.sqrt 3| < 0.001) := by
  have h1 := sqrt3_ge_one
  have e : |t * Real.sqrt 3| = Real.sqrt 3 := by
    rcases ht with rfl | rfl
    · rw [one_mul, abs_of_nonneg (by linarith)]
    · rw [neg_one_mul, abs_neg, abs_of_nonneg (by linarith)]
  rw [e]
  intro h
  norm_num at h
  linarith

theorem px_not_small (px py : ℝ) (h : 3 ≤ px) : ¬ (|px| < 0.01 ∧ |py| < 0.01) := by
  intro hc
  have := hc.1
  rw [abs_of_nonneg (by linarith)] at this
  norm_num at this
  linarith

theorem scenario2_pred_column (t : ℝ) (ht : t = 1 ∨ t = -1) (i : Fin 7) :
    Prediction_column realEnv 0.1
        (![![5 + t * Real.sqrt 3, 3, 0, 0, 0, 0, 0], ![5, 3 + t * Real.sqrt 3, 0, 0, 0, 0, 0],
          ![5, 3, t * Real.sqrt 3, 0, 0, 0, 0], ![5, 3, 0, t * Real.sqrt 3, 0, 0, 0],
          ![5, 3, 0, 0, t * Real.sqrt 3, 0, 0], ![5, 3, 0, 0, 0, t * (Real.sqrt 3 * 0.8), 0],
          ![5, 3, 0, 0, 0, 0, t * (Real.sqrt 3 * 0.6)]] i) =
      scenario2_column t i := by
  have h1 := sqrt3_le_two
  have h2 := sqrt3_ge_one
  have hpx : (3 : ℝ) ≤ 5 + t * Real.sqrt 3 := by
    rcases ht with rfl | rfl <;> linarith
  have hxd := sqrt3_abs_not_small t ht
  have h5 : (3 : ℝ) ≤ 5 := by norm_num
  fin_cases i
  · show Prediction_column realEnv 0.1 ![5 + t * Real.sqrt 3, 3, 0, 0, 0, 0, 0] =
      ![5 + t * Real.sqrt 3 * 1, 3 + t * Real.sqrt 3 * 0, t * Real.sqrt 3 * 0,
        t * Real.sqrt 3 * 0, t * Real.sqrt 3 * 0]
    rw [Prediction_column_real _ _ _ _ _ _ _ _ (px_not_small _ _ hpx)]
    funext r
    fin_cases r <;> norm_num
  · show Prediction_column realEnv 0.1 ![5, 3 + t * Real.sqrt 3, 0, 0, 0, 0, 0] =
      ![5 + t * Real.sqrt 3 * 0, 3 + t * Real.sqrt 3 * 1, t * Real.sqrt 3 * 0,
        t * Real.sqrt 3 * 0, t * Real.sqrt 3 * 0]
    rw [Prediction_column_real _ _ _ _ _ _ _ _ (px_not_small _ _ h5)]
    funext r
    fin_cases r <;> norm_num
  · show Prediction_column realEnv 0.1 ![5, 3, t * Real.sqrt 3, 0, 0, 0, 0] =
      ![5 + t * Real.sqrt 3 * 0.1, 3 + t * Real.sqrt 3 * 0, t * Real.sqrt 3 * 1,
        t * Real.sqrt 3 * 0, t * Real.sqrt 3 * 0]
    rw [Prediction_column_real _ _ _ _ _ _ _ _ (px_not_small _ _ h5)]
    funext r
    fin_cases r <;> norm_num
  · show Prediction_column realEnv 0.1 ![5, 3, 0, t * Real.sqrt 3, 0, 0, 0] =
      ![5 + t * Real.sqrt 3 * 0, 3 + t * Real.sqrt 3 * 0, t * Real.sqrt 3 * 0,
        t * Real.sqrt 3 * 1, t * Real.sqrt 3 * 0]
    rw [Prediction_column_real _ _ _ _ _ _ _ _ (px_not_small _ _ h5)]
    funext r
    fin_cases r <;> norm_num
  · show Prediction_column realEnv 0.1 ![5, 3, 0, 0, t * Real.sqrt 3, 0, 0] =
      ![5 + t * Real.sqrt 3 * 0, 3 + t * Real.sqrt 3 * 0, t * Real.sqrt 3 * 0,
        t * Real.sqrt 3 * 0.1, t * Real.sqrt 3 * 1]
    rw [Prediction_column_real _ _ _ _ _ _ _ _ (px_not_small _ _ h5), if_neg hxd, if_neg hxd]
    funext r
    fin_cases r <;> norm_num
  · show Prediction_column realEnv 0.1 ![5, 3, 0, 0, 0, t * (Real.sqrt 3 * 0.8), 0] =
      ![5 + t * Real.sqrt 3 * 0.004, 3 + t * Real.sqrt 3 * 0, t * Real.sqrt 3 * 0.08,
        t * Real.sqrt 3 * 0, t * Real.sqrt 3 * 0]
    rw [Prediction_column_real _ _ _ _ _ _ _ _ (px_not_small _ _ h5)]
    funext r
    fin_cases r <;> norm_num <;> ring
  · show Prediction_column realEnv 0.1 ![5, 3, 0, 0, 0, 0, t * (Real.sqrt 3 * 0.6)] =
      ![5 + t * Real.sqrt 3 * 0, 3 + t * Real.sqrt 3 * 0, t * Real.sqrt 3 * 0,
        t * Real.sqrt 3 * 0.003, t * Real.sqrt 3 * 0.06]
    rw [Prediction_column_real _ _ _ _ _ _ _ _ (px_not_small _ _ h5)]
    funext r
    fin_cases r <;> norm_num <;> ring

theorem scenario2_start_weights (i : Fin 15) :
    scenario2_start.weights_ i = if i.val = 0 then -4 / 3 else 1 / 6 := by
  show (after_first_laser 5 3).weights_ i = _
  rw [after_first_laser_weights]
  exact weights_new realEnv 0 0 i

theorem scenario2_Xsig_aug_zero :
    (fun k => Prediction_Xsig_aug realEnv scenario2_start k 0) = ![5, 3, 0, 0, 0, 0, 0] := by
  have e : ∀ k, Prediction_Xsig_aug realEnv scenario2_start k 0 =
      Predict_future_Xsig_aug realEnv (after_first_laser 5 3) k 0 := fun _ => rfl
  funext k
  rw [e, after_first_laser_Xsig_zero, x_aug_eq]
  fin_cases k <;> rfl

theorem scenario2_Xsig_aug_plus (i : Fin 7) :
    (fun k => Prediction_Xsig_aug realEnv scenario2_start k ⟨i.val + 1, by omega⟩) =
      ![![5 + 1 * Real.sqrt 3, 3, 0, 0, 0, 0, 0], ![5, 3 + 1 * Real.sqrt 3, 0, 0, 0, 0, 0],
        ![5, 3, 1 * Real.sqrt 3, 0, 0, 0, 0], ![5, 3, 0, 1 * Real.sqrt 3, 0, 0, 0],
        ![5, 3, 0, 0, 1 * Real.sqrt 3, 0, 0], ![5, 3, 0, 0, 0, 1 * (Real.sqrt 3 * 0.8), 0],
        ![5, 3, 0, 0, 0, 0, 1 * (Real.sqrt 3 * 0.6)]] i := by
  have e : ∀ k, Prediction_Xsig_aug realEnv scenario2_start k ⟨i.val + 1, by omega⟩ =
      Predict_future_Xsig_aug realEnv (after_first_laser 5 3) k ⟨i.val + 1, by omega⟩ :=
    fun _ => rfl
  rw [← scenario2_aug_column 1 i]
  funext k
  rw [e, after_first_laser_Xsig_plus, one_mul]

theorem scenario2_Xsig_aug_minus (i : Fin 7) :
    (fun k => Prediction_Xsig_aug realEnv scenario2_start k ⟨i.val + 8, by omega⟩) =
      ![![5 + -1 * Real.sqrt 3, 3, 0, 0, 0, 0, 0], ![5, 3 + -1 * Real.sqrt 3, 0, 0, 0, 0, 0],
        ![5, 3, -1 * Real.sqrt 3, 0, 0, 0, 0], ![5, 3, 0, -1 * Real.sqrt 3, 0, 0, 0],
        ![5, 3, 0, 0, -1 * Real.sqrt 3, 0, 0], ![5, 3, 0, 0, 0, -1 * (Real.sqrt 3 * 0.8), 0],
        ![5, 3, 0, 0, 0, 0, -1 * (Real.sqrt 3 * 0.6)]] i := by
  have e : ∀ k, Prediction_Xsig_aug realEnv scenario2_start k ⟨i.val + 8, by omega⟩ =
      Predict_future_Xsig_aug realEnv (after_first_laser 5 3) k ⟨i.val + 8, by omega⟩ :=
    fun _ => rfl
  rw [← scenario2_aug_column (-1) i]
  funext k
  rw [e, after_first_laser_Xsig_minus]
  ring

theorem scenario2_Xsig_pred_zero :
    (fun r => scenario2_predicted.Xsig_pred_ r 0) = ![5, 3, 0, 0, 0] := by
  have e : (fun r => scenario2_predicted.Xsig_pred_ r 0) =
      Prediction_column realEnv 0.1
        (fun k => Prediction_Xsig_aug realEnv scenario2_start k 0) := rfl
  rw [e, scenario2_Xsig_aug_zero,
    Prediction_column_real _ _ _ _ _ _ _ _ (px_not_small _ _ (by norm_num))]
  funext r
  fin_cases r <;> first | rfl | norm_num

theorem scenario2_Xsig_pred_plus (i : Fin 7) :
    (fun r => scenario2_predicted.Xsig_pred_ r ⟨i.val + 1, by omega⟩) =
      scenario2_column 1 i := by
  have e : (fun r => scenario2_predicted.Xsig_pred_ r ⟨i.val + 1, by omega⟩) =
      Prediction_column realEnv 0.1
        (fun k => Prediction_Xsig_aug realEnv scenario2_start k ⟨i.val + 1, by omega⟩) := rfl
  rw [e, scenario2_Xsig_aug_plus, scenario2_pred_column 1 (Or.inl rfl)]

theorem scenario2_Xsig_pred_minus (i : Fin 7) :
    (fun r => scenario2_predicted.Xsig_pred_ r ⟨i.val + 8, by omega⟩) =
      scenario2_column (-1) i := by
  have e : (fun r => scenario2_predicted.Xsig_pred_ r ⟨i.val + 8, by omega⟩) =
      Prediction_column realEnv 0.1
        (fun k => Prediction_Xsig_aug realEnv scenario2_start k ⟨i.val + 8, by omega⟩) := rfl
  rw [e, scenario2_Xsig_aug_minus, scenario2_pred_column (-1) (Or.inr rfl)]

theorem scenario2_column_pair (i : Fin 7) (r : Fin 5) :
    scenario2_column 1 i r + scenario2_column (-1) i r = 2 * (![5, 3, 0, 0, 0] : Fin 5 → ℝ) r := by
  have e0 : ∀ t, scenario2_column t i 0 = 5 + t * Real.sqrt 3 * ![1, 0, 0.1, 0, 0, 0.004, 0] i :=
    fun _ => rfl
  have e1 : ∀ t, scenario2_column t i 1 = 3 + t * Real.sqrt 3 * ![0, 1, 0, 0, 0, 0, 0] i :=
    fun _ => rfl
  have e2 : ∀ t, scenario2_column t i 2 = t * Real.sqrt 3 * ![0, 0, 1, 0, 0, 0.08, 0] i :=
    fun _ => rfl
  have e3 : ∀ t, scenario2_column t i 3 = t * Real.sqrt 3 * ![0, 0, 0, 1, 0.1, 0, 0.003] i :=
    fun _ => rfl
  have e4 : ∀ t, scenario2_column t i 4 = t * Real.sqrt 3 * ![0, 0, 0, 0, 1, 0, 0.06] i :=
    fun _ => rfl
  fin_cases r
  · show scenario2_column 1 i 0 + scenario2_column (-1) i 0 = 2 * 5
    rw [e0, e0]; ring
  · show scenario2_column 1 i 1 + scenario2_column (-1) i 1 = 2 * 3
    rw [e1, e1]; ring
  · show scenario2_column 1 i 2 + scenario2_column (-1) i 2 = 2 * 0
    rw [e2, e2]; ring
  · show scenario2_column 1 i 3 + scenario2_column (-1) i 3 = 2 * 0
    rw [e3, e3]; ring
  · show scenario2_column 1 i 4 + scenario2_column (-1) i 4 = 2 * 0
    rw [e4, e4]; ring

theorem scenario2_mean : scenario2_predicted.x_ = ![5, 3, 0, 0, 0] := by
  funext r
  have e : scenario2_predicted.x_ r =
      ∑ c : Fin 15, scenario2_start.weights_ c • scenario2_predicted.Xsig_pred_ r c := rfl
  rw [e, weighted_sum_split scenario2_start.weights_ scenario2_start_weights]
  have h0 := congrFun scenario2_Xsig_pred_zero r
  have hp := fun i => congrFun (scenario2_Xsig_pred_plus i) r
  have hm := fun i => congrFun (scenario2_Xsig_pred_minus i) r
  simp only at h0 hp hm
  simp only [h0, hp, hm, scenario2_column_pair, smul_eq_mul, Finset.sum_const, Finset.card_univ,
    Fintype.card_fin, nsmul_eq_mul]
  push_cast
  ring

theorem scenario2_diff_x_zero : UpdateRadar_diff_x realEnv scenario2_predicted 0 = 0 := by
  funext r
  have h0 := congrFun scenario2_Xsig_pred_zero r
  simp only at h0
  have e : scenario2_predicted.Xsig_pred_ r 0 - scenario2_predicted.x_ r = 0 := by
    rw [h0, scenario2_mean, sub_self]
  simp only [UpdateRadar_diff_x, e, ite_self, Pi.zero_apply]
  split
  · exact fixAngle_real_of_abs_le 0 (by norm_num)
  · rfl

theorem scenario2_P :
    scenario2_predicted.P_ = ∑ i : Fin 15, scenario2_predicted.weights_ i •
      Matrix.vecMulVec (UpdateRadar_diff_x realEnv scenario2_predicted i)
        (UpdateRadar_diff_x realEnv scenario2_predicted i) := rfl

theorem Zsig_column_real (c : Fin 5 → ℝ) (h : 3 ≤ c 0) :
    UpdateRadar_Zsig_column realEnv c =
      ![Real.sqrt (c 0 * c 0 + c 1 * c 1), Real.arctan (c 1 / c 0),
        (c 0 * (c 2 * Real.cos (c 3)) + c 1 * (c 2 * Real.sin (c 3))) /
          Real.sqrt (c 0 * c 0 + c 1 * c 1)] := by
  have hpos : 0 < c 0 := by linarith
  have hne : c 0 ≠ 0 := ne_of_gt hpos
  have harg : Complex.arg ⟨c 0, c 1⟩ = Real.arctan (c 1 / c 0) := by
    have hz : |Complex.arg ⟨c 0, c 1⟩| < Real.pi / 2 := by
      rw [Complex.abs_arg_lt_pi_div_two_iff]
      left
      exact hpos
    have ht : Real.tan (Complex.arg ⟨c 0, c 1⟩) = c 1 / c 0 := Complex.tan_arg _
    rw [abs_lt] at hz
    exact (Real.arctan_eq_of_tan_eq ht ⟨hz.1, hz.2⟩).symm
  have hs := px_not_small (c 0) (c 1) h
  simp only [UpdateRadar_Zsig_column, realEnv, ne_eq, hne, not_false_eq_true, if_true, hs,
    if_false, harg]

theorem Zsig_column_still (px py xi xd : ℝ) (h : 3 ≤ px) :
    UpdateRadar_Zsig_column realEnv ![px, py, 0, xi, xd] =
      ![Real.sqrt (px * px + py * py), Real.arctan (py / px), 0] := by
  rw [Zsig_column_real _ h]
  simp

theorem Zsig_column_straight (px py v xd : ℝ) (h : 3 ≤ px) :
    UpdateRadar_Zsig_column realEnv ![px, py, v, 0, xd] =
      ![Real.sqrt (px * px + py * py), Real.arctan (py / px),
        px * v / Real.sqrt (px * px + py * py)] := by
  rw [Zsig_column_real _ h]
  simp

theorem sqrt_bounds (x lo hi : ℝ) (hlo : 0 ≤ lo) (h1 : lo * lo ≤ x) (h2 : x ≤ hi * hi)
    (hhi : 0 ≤ hi) : lo ≤ Real.sqrt x ∧ Real.sqrt x ≤ hi := by
  constructor
  · rw [← Real.sqrt_mul_self hlo]
    exact Real.sqrt_le_sqrt h1
  · rw [← Real.sqrt_mul_self hhi]
    exact Real.sqrt_le_sqrt h2

theorem sqrt3_bounds : (1.732 : ℝ) ≤ Real.sqrt 3 ∧ Real.sqrt 3 ≤ 1.7321 :=
  sqrt_bounds 3 1.732 1.7321 (by norm_num) (by norm_num) (by norm_num) (by norm_num)

theorem sqrt3_mul_self : Real.sqrt 3 * Real.sqrt 3 = 3 :=
  Real.mul_self_sqrt (by norm_num)

theorem arctan_add_eq (x y r : ℝ) (h : x * y < 1) (hr : x + y = r * (1 - x * y)) :
    Real.arctan x + Real.arctan y = Real.arctan r := by
  rw [Real.arctan_add h]
  congr 1
  have : (1 - x * y) ≠ 0 := by
    have : 0 < 1 - x * y := by linarith
    exact ne_of_gt this
  rw [hr, mul_div_assoc, div_self this, mul_one]

theorem arctan_le_self_of_nonneg (u : ℝ) (hu : 0 ≤ u) :
    0 ≤ Real.arctan u ∧ Real.arctan u ≤ u := by
  have h0 : 0 ≤ Real.arctan u := by
    rw [← Real.arctan_zero]
    exact Real.arctan_strictMono.monotone hu
  refine ⟨h0, ?_⟩
  have := Real.le_tan h0 (Real.arctan_lt_pi_div_two u)
  rwa [Real.tan_arctan] at this

theorem arctan_sub_bounds (x y : ℝ) (hy : 0 ≤ y) (hxy : y ≤ x) :
    0 ≤ Real.arctan x - Real.arctan y ∧
      Real.arctan x - Real.arctan y ≤ (x - y) / (1 + x * y) := by
  have hx : 0 ≤ x := le_trans hy hxy
  have hp : 0 ≤ x * y := mul_nonneg hx hy
  have e : Real.arctan x - Real.arctan y = Real.arctan ((x - y) / (1 + x * y)) := by
    rw [sub_eq_add_neg, ← Real.arctan_neg]
    apply arctan_add_eq
    · nlinarith
    · have : (1 + x * y) ≠ 0 := ne_of_gt (by linarith)
      field_simp
      ring
  rw [e]
  exact arctan_le_self_of_nonneg _ (div_nonneg (by linarith) (by linarith))

theorem div_bounds (x d xl xh dl dh : ℝ) (hdl : 0 < dl) (h1 : dl ≤ d) (h2 : d ≤ dh)
    (hxl : 0 ≤ xl) (h3 : xl ≤ x) (h4 : x ≤ xh) : xl / dh ≤ x / d ∧ x / d ≤ xh / dl := by
  have hd : 0 < d := lt_of_lt_of_le hdl h1
  have hdh : 0 < dh := lt_of_lt_of_le hd h2
  constructor
  · rw [div_le_iff₀ hdh, div_mul_eq_mul_div, le_div_iff₀ hd]
    nlinarith
  · rw [div_le_iff₀ hd, div_mul_eq_mul_div, le_div_iff₀ hdl]
    nlinarith

theorem scenario2_column_explicit (t : ℝ) :
    scenario2_column t 0 = ![5 + t * Real.sqrt 3, 3, 0, 0, 0] ∧
    scenario2_column t 1 = ![5, 3 + t * Real.sqrt 3, 0, 0, 0] ∧
    scenario2_column t 2 = ![5 + 0.1 * (t * Real.sqrt 3), 3, t * Real.sqrt 3, 0, 0] ∧
    scenario2_column t 3 = ![5, 3, 0, t * Real.sqrt 3, 0] ∧
    scenario2_column t 4 = ![5, 3, 0, 0.1 * (t * Real.sqrt 3), t * Real.sqrt 3] ∧
    scenario2_column t 5 =
      ![5 + 0.004 * (t * Real.sqrt 3), 3, 0.08 * (t * Real.sqrt 3), 0, 0] ∧
    scenario2_column t 6 =
      ![5, 3, 0, 0.003 * (t * Real.sqrt 3), 0.06 * (t * Real.sqrt 3)] := by
  refine ⟨?_, ?_, ?_, ?_, ?_, ?_, ?_⟩
  · show ![5 + t * Real.sqrt 3 * 1, 3 + t * Real.sqrt 3 * 0, t * Real.sqrt 3 * 0,
      t * Real.sqrt 3 * 0, t * Real.sqrt 3 * 0] = _
    simp
  · show ![5 + t * Real.sqrt 3 * 0, 3 + t * Real.sqrt 3 * 1, t * Real.sqrt 3 * 0,
      t * Real.sqrt 3 * 0, t * Real.sqrt 3 * 0] = _
    simp
  · show ![5 + t * Real.sqrt 3 * 0.1, 3 + t * Real.sqrt 3 * 0, t * Real.sqrt 3 * 1,
      t * Real.sqrt 3 * 0, t * Real.sqrt 3 * 0] = _
    simp only [mul_zero, add_zero, mul_one]
    rw [mul_comm (t * Real.sqrt 3) 0.1]
  · show ![5 + t * Real.sqrt 3 * 0, 3 + t * Real.sqrt 3 * 0, t * Real.sqrt 3 * 0,
      t * Real.sqrt 3 * 1, t * Real.sqrt 3 * 0] = _
    simp
  · show ![5 + t * Real.sqrt 3 * 0, 3 + t * Real.sqrt 3 * 0, t * Real.sqrt 3 * 0,
      t * Real.sqrt 3 * 0.1, t * Real.sqrt 3 * 1] = _
    simp only [mul_zero, add_zero, mul_one]
    rw [mul_comm (t * Real.sqrt 3) 0.1]
  · show ![5 + t * Real.sqrt 3 * 0.004, 3 + t * Real.sqrt 3 * 0, t * Real.sqrt 3 * 0.08,
      t * Real.sqrt 3 * 0, t * Real.sqrt 3 * 0] = _
    simp only [mul_zero, add_zero]
    rw [mul_comm (t * Real.sqrt 3) 0.004, mul_comm (t * Real.sqrt 3) 0.08]
  · show ![5 + t * Real.sqrt 3 * 0, 3 + t * Real.sqrt 3 * 0, t * Real.sqrt 3 * 0,
      t * Real.sqrt 3 * 0.003, t * Real.sqrt 3 * 0.06] = _
    simp only [mul_zero, add_zero]
    rw [mul_comm (t * Real.sqrt 3) 0.003, mul_comm (t * Real.sqrt 3) 0.06]

theorem scenario2_Zsig_zero (r : Fin 3) :
    UpdateRadar_Zsig realEnv scenario2_predicted r 0 =
      UpdateRadar_Zsig_column realEnv ![5, 3, 0, 0, 0] r := by
  show UpdateRadar_Zsig_column realEnv (fun k => scenario2_predicted.Xsig_pred_ k 0) r = _
  rw [scenario2_Xsig_pred_zero]

theorem scenario2_Zsig_plus (r : Fin 3) (i : Fin 7) :
    UpdateRadar_Zsig realEnv scenario2_predicted r ⟨i.val + 1, by omega⟩ =
      UpdateRadar_Zsig_column realEnv (scenario2_column 1 i) r := by
  show UpdateRadar_Zsig_column realEnv
    (fun k => scenario2_predicted.Xsig_pred_ k ⟨i.val + 1, by omega⟩) r = _
  rw [scenario2_Xsig_pred_plus]

theorem scenario2_Zsig_minus (r : Fin 3) (i : Fin 7) :
    UpdateRadar_Zsig realEnv scenario2_predicted r ⟨i.val + 8, by omega⟩ =
      UpdateRadar_Zsig_column realEnv (scenario2_column (-1) i) r := by
  show UpdateRadar_Zsig_column realEnv
    (fun k => scenario2_predicted.Xsig_pred_ k ⟨i.val + 8, by omega⟩) r = _
  rw [scenario2_Xsig_pred_minus]

theorem scenario2_weighted_Z (r : Fin 3) :
    ∑ c : Fin 15, scenario2_predicted.weights_ c * UpdateRadar_Zsig realEnv scenario2_predicted r c =
      UpdateRadar_Zsig_column realEnv ![5, 3, 0, 0, 0] r -
        1 / 6 * ∑ i : Fin 7, (2 * UpdateRadar_Zsig_column realEnv ![5, 3, 0, 0, 0] r -
          UpdateRadar_Zsig_column realEnv (scenario2_column 1 i) r -
          UpdateRadar_Zsig_column realEnv (scenario2_column (-1) i) r) := by
  have hw : ∀ i : Fin 15, scenario2_predicted.weights_ i =
      if i.val = 0 then -4 / 3 else 1 / 6 := scenario2_start_weights
  have h := weighted_sum_split scenario2_predicted.weights_ hw
    (fun c => UpdateRadar_Zsig realEnv scenario2_predicted r c)
  simp only [smul_eq_mul] at h
  rw [h]
  simp only [scenario2_Zsig_zero, scenario2_Zsig_plus, scenario2_Zsig_minus]
  have e : ∀ x : Fin 7, 1 / 6 *
      (UpdateRadar_Zsig_column realEnv (scenario2_column 1 x) r +
        UpdateRadar_Zsig_column realEnv (scenario2_column (-1) x) r) =
      1 / 3 * UpdateRadar_Zsig_column realEnv ![5, 3, 0, 0, 0] r -
        1 / 6 * (2 * UpdateRadar_Zsig_column realEnv ![5, 3, 0, 0, 0] r -
          UpdateRadar_Zsig_column realEnv (scenario2_column 1 x) r -
          UpdateRadar_Zsig_column realEnv (scenario2_column (-1) x) r) := by
    intro x
    ring
  rw [Finset.sum_congr rfl (fun x _ => e x), Finset.sum_sub_distrib, Finset.sum_const,
    Finset.card_univ, Fintype.card_fin, nsmul_eq_mul, ← Finset.mul_sum]
  push_cast
  ring

theorem scenario2_Z_zero :
    UpdateRadar_Zsig_column realEnv ![5, 3, 0, 0, 0] =
      ![Real.sqrt (5 * 5 + 3 * 3), Real.arctan (3 / 5), 0] :=
  Zsig_column_still 5 3 0 0 (by norm_num)

theorem scenario2_Z_values (t : ℝ) (ht : t = 1 ∨ t = -1) :
    UpdateRadar_Zsig_column realEnv (scenario2_column t 0) =
      ![Real.sqrt ((5 + t * Real.sqrt 3) * (5 + t * Real.sqrt 3) + 3 * 3),
        Real.arctan (3 / (5 + t * Real.sqrt 3)), 0] ∧
    UpdateRadar_Zsig_column realEnv (scenario2_column t 1) =
      ![Real.sqrt (5 * 5 + (3 + t * Real.sqrt 3) * (3 + t * Real.sqrt 3)),
        Real.arctan ((3 + t * Real.sqrt 3) / 5), 0] ∧
    UpdateRadar_Zsig_column realEnv (scenario2_column t 2) =
      ![Real.sqrt ((5 + 0.1 * (t * Real.sqrt 3)) * (5 + 0.1 * (t * Real.sqrt 3)) + 3 * 3),
        Real.arctan (3 / (5 + 0.1 * (t * Real.sqrt 3))),
        (5 + 0.1 * (t * Real.sqrt 3)) * (t * Real.sqrt 3) /
          Real.sqrt ((5 + 0.1 * (t * Real.sqrt 3)) * (5 + 0.1 * (t * Real.sqrt 3)) + 3 * 3)] ∧
    UpdateRadar_Zsig_column realEnv (scenario2_column t 3) =
      ![Real.sqrt (5 * 5 + 3 * 3), Real.arctan (3 / 5), 0] ∧
    UpdateRadar_Zsig_column realEnv (scenario2_column t 4) =
      ![Real.sqrt (5 * 5 + 3 * 3), Real.arctan (3 / 5), 0] ∧
    UpdateRadar_Zsig_column realEnv (scenario2_column t 5) =
      ![Real.sqrt ((5 + 0.004 * (t * Real.sqrt 3)) * (5 + 0.004 * (t * Real.sqrt 3)) + 3 * 3),
        Real.arctan (3 / (5 + 0.004 * (t * Real.sqrt 3))),
        (5 + 0.004 * (t * Real.sqrt 3)) * (0.08 * (t * Real.sqrt 3)) /
          Real.sqrt ((5 + 0.004 * (t * Real.sqrt 3)) * (5 + 0.004 * (t * Real.sqrt 3)) +
            3 * 3)] ∧
    UpdateRadar_Zsig_column realEnv (scenario2_column t 6) =
      ![Real.sqrt (5 * 5 + 3 * 3), Real.arctan (3 / 5), 0] := by
  obtain ⟨e0, e1, e2, e3, e4, e5, e6⟩ := scenario2_column_explicit t
  have h1 := sqrt3_ge_one
  have h2 := sqrt3_le_two
  have hts : -2 ≤ t * Real.sqrt 3 ∧ t * Real.sqrt 3 ≤ 2 := by
    rcases ht with rfl | rfl
    · constructor <;> linarith
    · constructor <;> linarith
  rw [e0, e1, e2, e3, e4, e5, e6]
  refine ⟨Zsig_column_still _ _ _ _ (by linarith), Zsig_column_still _ _ _ _ (by norm_num),
    Zsig_column_straight _ _ _ _ (by linarith), Zsig_column_still _ _ _ _ (by norm_num),
    Zsig_column_still _ _ _ _ (by norm_num), Zsig_column_straight _ _ _ _ (by linarith),
    Zsig_column_still _ _ _ _ (by norm_num)⟩

theorem scenario2_sqrt_bounds :
    (5.83 ≤ Real.sqrt (5 * 5 + 3 * 3) ∧ Real.sqrt (5 * 5 + 3 * 3) ≤ 5.831) ∧
    (7.37 ≤ Real.sqrt ((5 + 1 * Real.sqrt 3) * (5 + 1 * Real.sqrt 3) + 3 * 3) ∧
      Real.sqrt ((5 + 1 * Real.sqrt 3) * (5 + 1 * Real.sqrt 3) + 3 * 3) ≤ 7.371) ∧
    (4.436 ≤ Real.sqrt ((5 + -1 * Real.sqrt 3) * (5 + -1 * Real.sqrt 3) + 3 * 3) ∧
      Real.sqrt ((5 + -1 * Real.sqrt 3) * (5 + -1 * Real.sqrt 3) + 3 * 3) ≤ 4.437) ∧
    (6.884 ≤ Real.sqrt (5 * 5 + (3 + 1 * Real.sqrt 3) * (3 + 1 * Real.sqrt 3)) ∧
      Real.sqrt (5 * 5 + (3 + 1 * Real.sqrt 3) * (3 + 1 * Real.sqrt 3)) ≤ 6.885) ∧
    (5.158 ≤ Real.sqrt (5 * 5 + (3 + -1 * Real.sqrt 3) * (3 + -1 * Real.sqrt 3)) ∧
      Real.sqrt (5 * 5 + (3 + -1 * Real.sqrt 3) * (3 + -1 * Real.sqrt 3)) ≤ 5.159) ∧
    (5.98 ≤ Real.sqrt
        ((5 + 0.1 * (1 * Real.sqrt 3)) * (5 + 0.1 * (1 * Real.sqrt 3)) + 3 * 3) ∧
      Real.sqrt
        ((5 + 0.1 * (1 * Real.sqrt 3)) * (5 + 0.1 * (1 * Real.sqrt 3)) + 3 * 3) ≤ 5.981) ∧
    (5.683 ≤ Real.sqrt
        ((5 + 0.1 * (-1 * Real.sqrt 3)) * (5 + 0.1 * (-1 * Real.sqrt 3)) + 3 * 3) ∧
      Real.sqrt
        ((5 + 0.1 * (-1 * Real.sqrt 3)) * (5 + 0.1 * (-1 * Real.sqrt 3)) + 3 * 3) ≤ 5.684) ∧
    (5.836 ≤ Real.sqrt
        ((5 + 0.004 * (1 * Real.sqrt 3)) * (5 + 0.004 * (1 * Real.sqrt 3)) + 3 * 3) ∧
      Real.sqrt
        ((5 + 0.004 * (1 * Real.sqrt 3)) * (5 + 0.004 * (1 * Real.sqrt 3)) + 3 * 3) ≤ 5.837) ∧
    (5.825 ≤ Real.sqrt
        ((5 + 0.004 * (-1 * Real.sqrt 3)) * (5 + 0.004 * (-1 * Real.sqrt 3)) + 3 * 3) ∧
      Real.sqrt
        ((5 + 0.004 * (-1 * Real.sqrt 3)) * (5 + 0.004 * (-1 * Real.sqrt 3)) + 3 * 3) ≤
          5.826) := by
  have h1 := sqrt3_bounds.1
  have h2 := sqrt3_bounds.2
  have hq := sqrt3_mul_self
  refine ⟨?_, ?_, ?_, ?_, ?_, ?_, ?_, ?_, ?_⟩
  · exact sqrt_bounds _ _ _ (by norm_num) (by norm_num) (by norm_num) (by norm_num)
  · exact sqrt_bounds _ _ _ (by norm_num) (by linarith) (by linarith) (by norm_num)
  · exact sqrt_bounds _ _ _ (by norm_num) (by linarith) (by linarith) (by norm_num)
  · exact sqrt_bounds _ _ _ (by norm_num) (by linarith) (by linarith) (by norm_num)
  · exact sqrt_bounds _ _ _ (by norm_num) (by linarith) (by linarith) (by norm_num)
  · exact sqrt_bounds _ _ _ (by norm_num) (by linarith) (by linarith) (by norm_num)
  · exact sqrt_bounds _ _ _ (by norm_num) (by linarith) (by linarith) (by norm_num)
  · exact sqrt_bounds _ _ _ (by norm_num) (by linarith) (by linarith) (by norm_num)
  · exact sqrt_bounds _ _ _ (by norm_num) (by linarith) (by linarith) (by norm_num)

theorem range_sum_bound :
    ∀ r p0 m0 p1 m1 p2 m2 p5 m5 : ℝ, 5.83 ≤ r → r ≤ 5.831 → 7.37 ≤ p0 → p0 ≤ 7.371 →
      4.436 ≤ m0 → m0 ≤ 4.437 → 6.884 ≤ p1 → p1 ≤ 6.885 → 5.158 ≤ m1 → m1 ≤ 5.159 →
      5.98 ≤ p2 → p2 ≤ 5.981 → 5.683 ≤ m2 → m2 ≤ 5.684 → 5.836 ≤ p5 → p5 ≤ 5.837 →
      5.825 ≤ m5 → m5 ≤ 5.826 →
      |2 * r - p0 - m0 + (2 * r - p1 - m1) + (2 * r - p2 - m2) + (2 * r - r - r) +
        (2 * r - r - r) + (2 * r - p5 - m5) + (2 * r - r - r)| ≤ 0.6 := by
  intro r p0 m0 p1 m1 p2 m2 p5 m5 _ _ _ _ _ _ _ _ _ _ _ _ _ _ _ _ _ _
  rw [abs_le]
  constructor <;> linarith

theorem scenario2_range_sum :
    |∑ i : Fin 7, (2 * UpdateRadar_Zsig_column realEnv ![5, 3, 0, 0, 0] 0 -
        UpdateRadar_Zsig_column realEnv (scenario2_column 1 i) 0 -
        UpdateRadar_Zsig_column realEnv (scenario2_column (-1) i) 0)| ≤ 0.6 := by
  obtain ⟨p0, p1, p2, p3, p4, p5, p6⟩ := scenario2_Z_values 1 (Or.inl rfl)
  obtain ⟨m0, m1, m2, m3, m4, m5, m6⟩ := scenario2_Z_values (-1) (Or.inr rfl)
  rw [Fin.sum_univ_seven, scenario2_Z_zero, p0, p1, p2, p3, p4, p5, p6, m0, m1, m2, m3, m4,
    m5, m6]
  clear p0 p1 p2 p3 p4 p5 p6 m0 m1 m2 m3 m4 m5 m6
  simp only [Matrix.cons_val_zero]
  obtain ⟨b, bp0, bm0, bp1, bm1, bp2, bm2, bp5, bm5⟩ := scenario2_sqrt_bounds
  exact range_sum_bound _ _ _ _ _ _ _ _ _ b.1 b.2 bp0.1 bp0.2 bm0.1 bm0.2 bp1.1 bp1.2 bm1.1 bm1.2
    bp2.1 bp2.2 bm2.1 bm2.2 bp5.1 bp5.2 bm5.1 bm5.2

theorem rate_sum_bound :
    ∀ a2 n2 a5 n5 : ℝ, 8.96 / 5.981 ≤ a2 → a2 ≤ 8.9605 / 5.98 → 8.36 / 5.684 ≤ n2 →
      n2 ≤ 8.3605 / 5.683 → 0.69376 / 5.837 ≤ a5 → a5 ≤ 0.6938 / 5.836 →
      0.69184 / 5.826 ≤ n5 → n5 ≤ 0.69188 / 5.825 →
      |2 * 0 - 0 - 0 + (2 * 0 - 0 - 0) + (2 * 0 - a2 - -n2) + (2 * 0 - 0 - 0) +
        (2 * 0 - 0 - 0) + (2 * 0 - a5 - -n5) + (2 * 0 - 0 - 0)| ≤ 0.06 := by
  intro a2 n2 a5 n5 g1 g2 g3 g4 g5 g6 g7 g8
  norm_num at g1 g2 g3 g4 g5 g6 g7 g8
  rw [abs_le]
  constructor <;> linarith

theorem scenario2_rate_sum :
    |∑ i : Fin 7, (2 * UpdateRadar_Zsig_column realEnv ![5, 3, 0, 0, 0] 2 -
        UpdateRadar_Zsig_column realEnv (scenario2_column 1 i) 2 -
        UpdateRadar_Zsig_column realEnv (scenario2_column (-1) i) 2)| ≤ 0.06 := by
  obtain ⟨p0, p1, p2, p3, p4, p5, p6⟩ := scenario2_Z_values 1 (Or.inl rfl)
  obtain ⟨m0, m1, m2, m3, m4, m5, m6⟩ := scenario2_Z_values (-1) (Or.inr rfl)
  rw [Fin.sum_univ_seven, scenario2_Z_zero, p0, p1, p2, p3, p4, p5, p6, m0, m1, m2, m3, m4,
    m5, m6]
  clear p0 p1 p2 p3 p4 p5 p6 m0 m1 m2 m3 m4 m5 m6
  simp only [Matrix.cons_val_two, Matrix.tail_cons, Matrix.head_cons]
  obtain ⟨-, -, -, -, -, bp2, bm2, bp5, bm5⟩ := scenario2_sqrt_bounds
  have h1 := sqrt3_bounds.1
  have h2 := sqrt3_bounds.2
  have hq := sqrt3_mul_self
  have rp2 := div_bounds ((5 + 0.1 * (1 * Real.sqrt 3)) * (1 * Real.sqrt 3)) _ 8.96 8.9605
    5.98 5.981 (by norm_num) bp2.1 bp2.2 (by norm_num) (by linarith only [h1, h2, hq]) (by linarith only [h1, h2, hq])
  have rm2 := div_bounds ((5 + 0.1 * (-1 * Real.sqrt 3)) * (1 * Real.sqrt 3)) _ 8.36 8.3605
    5.683 5.684 (by norm_num) bm2.1 bm2.2 (by norm_num) (by linarith only [h1, h2, hq]) (by linarith only [h1, h2, hq])
  have rp5 := div_bounds ((5 + 0.004 * (1 * Real.sqrt 3)) * (0.08 * (1 * Real.sqrt 3))) _
    0.69376 0.6938 5.836 5.837 (by norm_num) bp5.1 bp5.2 (by norm_num) (by linarith only [h1, h2, hq])
    (by linarith only [h1, h2, hq])
  have rm5 := div_bounds ((5 + 0.004 * (-1 * Real.sqrt 3)) * (0.08 * (1 * Real.sqrt 3))) _
    0.69184 0.69188 5.825 5.826 (by norm_num) bm5.1 bm5.2 (by norm_num) (by linarith only [h1, h2, hq])
    (by linarith only [h1, h2, hq])
  have e2 : (5 + 0.1 * (-1 * Real.sqrt 3)) * (-1 * Real.sqrt 3) /
      Real.sqrt ((5 + 0.1 * (-1 * Real.sqrt 3)) * (5 + 0.1 * (-1 * Real.sqrt 3)) + 3 * 3) =
      -((5 + 0.1 * (-1 * Real.sqrt 3)) * (1 * Real.sqrt 3) /
        Real.sqrt ((5 + 0.1 * (-1 * Real.sqrt 3)) * (5 + 0.1 * (-1 * Real.sqrt 3)) + 3 * 3)) := by
    rw [← neg_div]
    congr 1
    ring
  have e5 : (5 + 0.004 * (-1 * Real.sqrt 3)) * (0.08 * (-1 * Real.sqrt 3)) /
      Real.sqrt ((5 + 0.004 * (-1 * Real.sqrt 3)) * (5 + 0.004 * (-1 * Real.sqrt 3)) + 3 * 3) =
      -((5 + 0.004 * (-1 * Real.sqrt 3)) * (0.08 * (1 * Real.sqrt 3)) /
        Real.sqrt ((5 + 0.004 * (-1 * Real.sqrt 3)) * (5 + 0.004 * (-1 * Real.sqrt 3)) +
          3 * 3)) := by
    rw [← neg_div]
    congr 1
    ring
  rw [e2, e5]
  exact rate_sum_bound _ _ _ _ rp2.1 rp2.2 rm2.1 rm2.2 rp5.1 rp5.2 rm5.1 rm5.2

theorem arctan_pair_px (p q a d : ℝ) (hp : 0 < p) (hq : 0 < q) (hs : p + q = a)
    (hd : p * q = d) (h9 : 9 < d) :
    Real.arctan (3 / p) + Real.arctan (3 / q) = Real.arctan (3 * a / (d - 9)) := by
  subst hs hd
  have hpq : 0 < p * q := mul_pos hp hq
  apply arctan_add_eq
  · rw [div_mul_div_comm, div_lt_one hpq]
    linarith
  · have h1 : p ≠ 0 := ne_of_gt hp
    have h2 : q ≠ 0 := ne_of_gt hq
    have h3 : p * q - 9 ≠ 0 := ne_of_gt (by linarith)
    field_simp
    ring

theorem arctan_pair_py (p q a d : ℝ) (hs : p + q = a) (hd : p * q = d) (h : d < 25) :
    Real.arctan (p / 5) + Real.arctan (q / 5) = Real.arctan (5 * a / (25 - d)) := by
  subst hs hd
  apply arctan_add_eq
  · rw [div_mul_div_comm, div_lt_one (by norm_num)]
    linarith
  · have h3 : 25 - p * q ≠ 0 := ne_of_gt (by linarith)
    field_simp
    ring

theorem bearing_sum_bound :
    ∀ u x0 y0 x1 y1 x2 y2 x5 y5 w w0 w1 w2 w5 : ℝ, u + u = w → x0 + y0 = w0 →
      x1 + y1 = w1 → x2 + y2 = w2 → x5 + y5 = w5 → 0 ≤ w0 - w →
      w0 - w ≤ (3 * 10 / (22 - 9) - 3 * 10 / (25 - 9)) /
        (1 + 3 * 10 / (22 - 9) * (3 * 10 / (25 - 9))) →
      0 ≤ w - w1 →
      w - w1 ≤ (3 * 10 / (25 - 9) - 5 * 6 / (25 - 6)) /
        (1 + 3 * 10 / (25 - 9) * (5 * 6 / (25 - 6))) →
      0 ≤ w2 - w →
      w2 - w ≤ (3 * 10 / (24.97 - 9) - 3 * 10 / (25 - 9)) /
        (1 + 3 * 10 / (24.97 - 9) * (3 * 10 / (25 - 9))) →
      0 ≤ w5 - w →
      w5 - w ≤ (3 * 10 / (24.999952 - 9) - 3 * 10 / (25 - 9)) /
        (1 + 3 * 10 / (24.999952 - 9) * (3 * 10 / (25 - 9))) →
      |2 * u - x0 - y0 + (2 * u - x1 - y1) + (2 * u - x2 - y2) + (2 * u - u - u) +
        (2 * u - u - u) + (2 * u - x5 - y5) + (2 * u - u - u)| ≤ 0.09 := by
  intro u x0 y0 x1 y1 x2 y2 x5 y5 w w0 w1 w2 w5 g g0 g1 g2 g5 k1 k2 k3 k4 k5 k6 k7 k8
  norm_num at k2 k4 k6 k8
  rw [abs_le]
  constructor <;> linarith

theorem scenario2_bearing_sum :
    |∑ i : Fin 7, (2 * UpdateRadar_Zsig_column realEnv ![5, 3, 0, 0, 0] 1 -
        UpdateRadar_Zsig_column realEnv (scenario2_column 1 i) 1 -
        UpdateRadar_Zsig_column realEnv (scenario2_column (-1) i) 1)| ≤ 0.09 := by
  obtain ⟨p0, p1, p2, p3, p4, p5, p6⟩ := scenario2_Z_values 1 (Or.inl rfl)
  obtain ⟨m0, m1, m2, m3, m4, m5, m6⟩ := scenario2_Z_values (-1) (Or.inr rfl)
  rw [Fin.sum_univ_seven, scenario2_Z_zero, p0, p1, p2, p3, p4, p5, p6, m0, m1, m2, m3, m4,
    m5, m6]
  clear p0 p1 p2 p3 p4 p5 p6 m0 m1 m2 m3 m4 m5 m6
  simp only [Matrix.cons_val_one, Matrix.head_cons]
  have h1 := sqrt3_bounds.1
  have h2 := sqrt3_bounds.2
  have hq := sqrt3_mul_self
  have t := arctan_pair_px 5 5 10 25 (by norm_num) (by norm_num) (by norm_num) (by norm_num)
    (by norm_num)
  have t0 := arctan_pair_px (5 + 1 * Real.sqrt 3) (5 + -1 * Real.sqrt 3) 10 22 (by linarith only [h1, h2, hq])
    (by linarith only [h1, h2, hq]) (by ring) (by linarith only [h1, h2, hq]) (by norm_num)
  have t1 := arctan_pair_py (3 + 1 * Real.sqrt 3) (3 + -1 * Real.sqrt 3) 6 6 (by ring)
    (by linarith only [h1, h2, hq]) (by norm_num)
  have t2 := arctan_pair_px (5 + 0.1 * (1 * Real.sqrt 3)) (5 + 0.1 * (-1 * Real.sqrt 3)) 10
    24.97 (by linarith only [h1, h2, hq]) (by linarith only [h1, h2, hq]) (by ring) (by linarith only [h1, h2, hq]) (by norm_num)
  have t5 := arctan_pair_px (5 + 0.004 * (1 * Real.sqrt 3)) (5 + 0.004 * (-1 * Real.sqrt 3))
    10 24.999952 (by linarith only [h1, h2, hq]) (by linarith only [h1, h2, hq]) (by ring) (by linarith only [h1, h2, hq]) (by norm_num)
  have a0 := arctan_sub_bounds (3 * 10 / (22 - 9)) (3 * 10 / (25 - 9)) (by norm_num)
    (by norm_num)
  have a1 := arctan_sub_bounds (3 * 10 / (25 - 9)) (5 * 6 / (25 - 6)) (by norm_num)
    (by norm_num)
  have a2 := arctan_sub_bounds (3 * 10 / (24.97 - 9)) (3 * 10 / (25 - 9)) (by norm_num)
    (by norm_num)
  have a5 := arctan_sub_bounds (3 * 10 / (24.999952 - 9)) (3 * 10 / (25 - 9)) (by norm_num)
    (by norm_num)
  exact bearing_sum_bound _ _ _ _ _ _ _ _ _ _ _ _ _ _ t t0 t1 t2 t5 a0.1 a0.2 a1.1 a1.2 a2.1 a2.2 a5.1 a5.2

theorem scenario2_z_diff_zero (r : Fin 3) :
    UpdateRadar_z_diff realEnv scenario2_predicted 0 r =
      1 / 6 * ∑ i : Fin 7, (2 * UpdateRadar_Zsig_column realEnv ![5, 3, 0, 0, 0] r -
        UpdateRadar_Zsig_column realEnv (scenario2_column 1 i) r -
        UpdateRadar_Zsig_column realEnv (scenario2_column (-1) i) r) := by
  have hz : UpdateRadar_z_pred realEnv scenario2_predicted r =
      if r.val = 1 then fixAngle realEnv (∑ c : Fin 15, scenario2_predicted.weights_ c *
        UpdateRadar_Zsig realEnv scenario2_predicted r c)
      else ∑ c : Fin 15, scenario2_predicted.weights_ c *
        UpdateRadar_Zsig realEnv scenario2_predicted r c := rfl
  simp only [UpdateRadar_z_diff, hz, scenario2_weighted_Z, scenario2_Zsig_zero]
  by_cases h : r.val = 1
  · have hr : r = 1 := Fin.ext h
    subst hr
    simp only [Fin.val_one, if_true]
    have hb := abs_le.mp scenario2_bearing_sum
    have h0 : UpdateRadar_Zsig_column realEnv ![5, 3, 0, 0, 0] 1 = Real.arctan (3 / 5) := by
      rw [scenario2_Z_zero]
      rfl
    have ha := arctan_le_self_of_nonneg (3 / 5) (by norm_num)
    rw [h0] at hb ⊢
    generalize (∑ i : Fin 7, (2 * Real.arctan (3 / 5) -
      UpdateRadar_Zsig_column realEnv (scenario2_column 1 i) 1 -
      UpdateRadar_Zsig_column realEnv (scenario2_column (-1) i) 1)) = b at hb ⊢
    have e1 : fixAngle realEnv (Real.arctan (3 / 5) - 1 / 6 * b) =
        Real.arctan (3 / 5) - 1 / 6 * b :=
      fixAngle_real_of_abs_le _ (by rw [abs_le]; constructor <;> linarith [ha.1, ha.2])
    have e2 : Real.arctan (3 / 5) - (Real.arctan (3 / 5) - 1 / 6 * b) = 1 / 6 * b := by ring
    rw [e1, e2]
    exact fixAngle_real_of_abs_le _ (by rw [abs_le]; constructor <;> linarith)
  · simp only [h, if_false]
    ring

theorem scenario2_residual_small :
    4 / 3 * ((UpdateRadar_z_diff realEnv scenario2_predicted 0 0 / 0.3) ^ 2 +
      (UpdateRadar_z_diff realEnv scenario2_predicted 0 1 / 0.03) ^ 2 +
      (UpdateRadar_z_diff realEnv scenario2_predicted 0 2 / 0.3) ^ 2) < 1 := by
  rw [scenario2_z_diff_zero 0, scenario2_z_diff_zero 1, scenario2_z_diff_zero 2]
  have h0 := scenario2_range_sum
  have h1 := scenario2_bearing_sum
  have h2 := scenario2_rate_sum
  generalize (∑ i : Fin 7, (2 * UpdateRadar_Zsig_column realEnv ![5, 3, 0, 0, 0] 0 -
        UpdateRadar_Zsig_column realEnv (scenario2_column 1 i) 0 -
        UpdateRadar_Zsig_column realEnv (scenario2_column (-1) i) 0)) = a at h0 ⊢
  generalize (∑ i : Fin 7, (2 * UpdateRadar_Zsig_column realEnv ![5, 3, 0, 0, 0] 1 -
        UpdateRadar_Zsig_column realEnv (scenario2_column 1 i) 1 -
        UpdateRadar_Zsig_column realEnv (scenario2_column (-1) i) 1)) = b at h1 ⊢
  generalize (∑ i : Fin 7, (2 * UpdateRadar_Zsig_column realEnv ![5, 3, 0, 0, 0] 2 -
        UpdateRadar_Zsig_column realEnv (scenario2_column 1 i) 2 -
        UpdateRadar_Zsig_column realEnv (scenario2_column (-1) i) 2)) = c at h2 ⊢
  have ea : (1 / 6 * a / 0.3) ^ 2 = a ^ 2 * (25 / 81) := by ring
  have eb : (1 / 6 * b / 0.03) ^ 2 = b ^ 2 * (2500 / 81) := by ring
  have ec : (1 / 6 * c / 0.3) ^ 2 = c ^ 2 * (25 / 81) := by ring
  have sa : a ^ 2 ≤ 0.6 ^ 2 := sq_le_sq' (by linarith [(abs_le.mp h0).1]) (abs_le.mp h0).2
  have sb : b ^ 2 ≤ 0.09 ^ 2 := sq_le_sq' (by linarith [(abs_le.mp h1).1]) (abs_le.mp h1).2
  have sc : c ^ 2 ≤ 0.06 ^ 2 := sq_le_sq' (by linarith [(abs_le.mp h2).1]) (abs_le.mp h2).2
  rw [ea, eb, ec]
  norm_num at sa sb sc ⊢
  linarith

theorem scenario2_process :
    ProcessMeasurement realEnv (after_first_laser 5 3) (radar 6.0 0.3 1.0 100000) =
      UpdateRadar realEnv scenario2_predicted (radar 6.0 0.3 1.0 100000) := by
  obtain ⟨hi, hl, hr, ht⟩ := after_first_laser_flags 5 3
  have h := ProcessMeasurement_unfold realEnv (after_first_laser 5 3)
    (radar 6.0 0.3 1.0 100000) hi hl hr
  have hts : (radar (6.0 : ℝ) 0.3 1.0 100000).timestamp_ - (after_first_laser 5 3).time_us_ =
      100000 := by
    rw [ht]
    rfl
  have hb : realEnv.time_bits = 64 := rfl
  rw [hts, hb, wrapInt_of_mem 64 100000 (by norm_num) (by norm_num)] at h
  have hd : (((100000 : Int) : ℝ)) / 1000000 = 0.1 := by norm_num
  rw [hd] at h
  rw [h]
  rfl

/-- C16: end-to-end scenario 2. Scenario 1 leaves the state `x = (5, 3, 0, 0, 0)`,
`P = I`, time 0, initialized. `ProcessMeasurement` with the radar measurement
`raw = (6.0, 0.3, 1.0)` at timestamp 100000 then runs `Prediction(0.1)` followed
by `UpdateRadar`, and afterwards `NIS_radar` is non-negative and `P_` is symmetric
positive semi-definite. -/
theorem scenario2_radar_update :
    (after_first_laser 5 3).x_ = ![5, 3, 0, 0, 0] ∧
    (after_first_laser 5 3).P_ = 1 ∧
    (after_first_laser 5 3).time_us_ = 0 ∧
    ProcessMeasurement realEnv (after_first_laser 5 3) (radar 6.0 0.3 1.0 100000) =
      UpdateRadar realEnv
        (Prediction realEnv { after_first_laser 5 3 with time_us_ := 100000 } 0.1)
        (radar 6.0 0.3 1.0 100000) ∧
    0 ≤ (ProcessMeasurement realEnv (after_first_laser 5 3)
      (radar 6.0 0.3 1.0 100000)).NIS_radar ∧
    IsSymmPSD (ProcessMeasurement realEnv (after_first_laser 5 3)
      (radar 6.0 0.3 1.0 100000)).P_ := by
  have h := UpdateRadar_psd realEnv scenario2_predicted 0 0 (radar 6.0 0.3 1.0 100000)
    (funext (fun i => (scenario2_start_weights i).trans (weights_new realEnv 0 0 i).symm))
    (after_first_laser_consts 5 3).2.2.2.2.2 scenario2_P scenario2_diff_x_zero
    scenario2_residual_small
  rw [scenario2_process]
  exact ⟨after_first_laser_x 5 3, (after_first_laser_consts 5 3).1,
    (after_first_laser_flags 5 3).2.2.2, rfl, h.2, h.1⟩

theorem overflow_start_flags :
    overflow_start.is_initialized_ = true ∧ overflow_start.use_laser_ = true ∧
      overflow_start.use_radar_ = true ∧
      overflow_start.time_us_ = -9223372036854775808 := by
  rw [overflow_start, ProcessMeasurement_new]
  exact ⟨rfl, rfl, rfl, rfl⟩

theorem overflow_start_eq (T : Int) :
    ({ overflow_start with time_us_ := T } : UKF ℝ) =
      { after_first_laser 5 3 with time_us_ := T } := by
  rw [overflow_start, after_first_laser, ProcessMeasurement_new, ProcessMeasurement_new]
  rfl

theorem overflow_start_column (dt : ℝ) (T : Int) :
    (Prediction realEnv { overflow_start with time_us_ := T } dt).Xsig_pred_ 0 3 =
      5 + Real.sqrt 3 * dt := by
  rw [overflow_start_eq]
  have e : (Prediction realEnv { after_first_laser 5 3 with time_us_ := T } dt).Xsig_pred_ 0 3 =
      Prediction_column realEnv dt
        (fun k => Prediction_Xsig_aug realEnv scenario2_start k ⟨(2 : Fin 7).val + 1, by omega⟩)
        0 := rfl
  rw [e, scenario2_Xsig_aug_plus]
  show Prediction_column realEnv dt ![5, 3, 1 * Real.sqrt 3, 0, 0, 0, 0] 0 = _
  rw [Prediction_column_real _ _ _ _ _ _ _ _ (px_not_small _ _ (by norm_num))]
  norm_num

theorem wrapInt_overflow : wrapInt 64 (9223372036854775807 - -9223372036854775808) = -1 := by
  norm_num [wrapInt]

/-- C12 (counterexample): the real filter initialized by a laser measurement at
timestamp `-2^63` receives a laser measurement at timestamp `2^63 - 1`.  The
difference `2^64 - 1` does not fit 64 bits; the code's `dt` is `-1/1000000`, and
the filter after `ProcessMeasurement` is not the one obtained with
`dt = (timestamp - time_us_)/1000000`: the predicted sigma column 3 has
`px = 5 - √3/1000000` instead of `5 + √3 (2^64 - 1)/1000000`. -/
theorem ProcessMeasurement_dt_overflow :
    overflow_start.is_initialized_ = true ∧
    overflow_start.time_us_ = -9223372036854775808 ∧
    wrapInt realEnv.time_bits
      ((laser (5 : ℝ) 3 9223372036854775807).timestamp_ - overflow_start.time_us_) = -1 ∧
    ProcessMeasurement realEnv overflow_start (laser 5 3 9223372036854775807) ≠
      UpdateLidar
        (Prediction realEnv { overflow_start with time_us_ := 9223372036854775807 }
          ((((laser (5 : ℝ) 3 9223372036854775807).timestamp_ -
            overflow_start.time_us_ : Int) : ℝ) / 1000000))
        (laser 5 3 9223372036854775807) := by
  obtain ⟨hi, hl, hr, ht⟩ := overflow_start_flags
  have hw : wrapInt realEnv.time_bits
      ((laser (5 : ℝ) 3 9223372036854775807).timestamp_ - overflow_start.time_us_) = -1 := by
    rw [ht]
    exact wrapInt_overflow
  refine ⟨hi, ht, hw, ?_⟩
  have h := ProcessMeasurement_unfold realEnv overflow_start (laser 5 3 9223372036854775807)
    hi hl hr
  rw [hw] at h
  rw [h, ht]
  intro hc
  have h3 := congrArg (fun s : UKF ℝ => s.Xsig_pred_ 0 3) hc
  have e1 : (UpdateLidar (Prediction realEnv
      { overflow_start with time_us_ := (laser (5 : ℝ) 3 9223372036854775807).timestamp_ }
      (((-1 : Int) : ℝ) / 1000000)) (laser 5 3 9223372036854775807)).Xsig_pred_ 0 3 =
      5 + Real.sqrt 3 * ((((-1 : Int) : ℝ)) / 1000000) := overflow_start_column _ _
  have e2 : (UpdateLidar (Prediction realEnv
      { overflow_start with time_us_ := 9223372036854775807 }
      ((((laser (5 : ℝ) 3 9223372036854775807).timestamp_ - -9223372036854775808 : Int) : ℝ) /
        1000000)) (laser 5 3 9223372036854775807)).Xsig_pred_ 0 3 =
      5 + Real.sqrt 3 * ((((laser (5 : ℝ) 3 9223372036854775807).timestamp_ -
        -9223372036854775808 : Int) : ℝ) / 1000000) := overflow_start_column _ _
  simp only [laser, if_true] at h3 e1 e2
  rw [e1, e2] at h3
  have hs := sqrt3_ge_one
  push_cast at h3
  norm_num at h3
  linarith

section CovarianceSymmetry

variable {K : Type} [LinearOrderedField K] [FloorRing K]

open Matrix

end CovarianceSymmetry

end UKF
